import Mathlib

/-! Temple-Run-OpenGL: gameplay core of `skeletal_animation.cpp`

A shallow embedding of the track generator, the track window, the player
kinematics and the collision pass, followed by theorems about them.

Modelling conventions
* `float` values are exact rationals (`ℚ`): arithmetic steps are taken without
  rounding, and float literals such as `0.33f` are the decimal they spell. The
  exception is `randInt`, whose `int` to `float` conversion and `float` product
  round to binary32 (`roundF32`).
* `int` values are `Int`, and `%` on `int` is truncated remainder, `Int.tmod`.
  Block indices and counters stay far from the 32-bit range and are not wrapped;
  `randInt`, whose arguments are arbitrary `int`s, wraps each `int` step to 32 bits
  (`wrap32`).
* `unsigned int gRandState` is a `Nat` reduced modulo `2^32` at each update.
* `sin` and `cos` of an angle in degrees are library functions; the embedding
  takes them as a parameter `T : Trig`. Two instances are given: `axisTrig`, exact
  at the headings 0, 90, 180, 270, and `floatTrig`, the binary32 values there.
* The process-wide globals are the fields of `Game`, passed explicitly.
* A `glm::vec3` member that the source leaves unassigned is the zero vector.
-/

namespace TempleRun

/-! ## Vectors -/

/-- A `glm::vec3` with exact components. -/
@[ext]
structure Vec3 where
  x : ℚ
  y : ℚ
  z : ℚ
deriving DecidableEq

/-- The vector `glm::vec3(0.0f)`. -/
def Vec3.zero : Vec3 := ⟨0, 0, 0⟩

/-- The vector `glm::vec3(s)`, all three components equal. -/
def Vec3.splat (s : ℚ) : Vec3 := ⟨s, s, s⟩

/-- Componentwise sum. -/
def Vec3.add (a b : Vec3) : Vec3 := ⟨a.x + b.x, a.y + b.y, a.z + b.z⟩

/-- Componentwise difference. -/
def Vec3.sub (a b : Vec3) : Vec3 := ⟨a.x - b.x, a.y - b.y, a.z - b.z⟩

/-- Product of a vector with a scalar, `v * s`. -/
def Vec3.scale (a : Vec3) (s : ℚ) : Vec3 := ⟨a.x * s, a.y * s, a.z * s⟩

/-- The cross product `glm::cross(a, b)`. -/
def Vec3.cross (a b : Vec3) : Vec3 :=
  ⟨a.y * b.z - a.z * b.y, a.z * b.x - a.x * b.z, a.x * b.y - a.y * b.x⟩

instance : Add Vec3 := ⟨Vec3.add⟩

instance : Sub Vec3 := ⟨Vec3.sub⟩

instance : HMul Vec3 ℚ Vec3 := ⟨Vec3.scale⟩

/-- Sine and cosine of an angle given in degrees (`sin(glm::radians(a))`,
`cos(glm::radians(a))`), taken as a parameter of the embedding. -/
structure Trig where
  sinDeg : ℚ → ℚ
  cosDeg : ℚ → ℚ

/-- The remainder `std::fmod(a, b)`: `a - b * trunc(a / b)`. -/
def fmod (a b : ℚ) : ℚ := a - b * ((Int.tdiv (a / b).num ((a / b).den : Int) : Int) : ℚ)

/-- The interpolation `glm::mix(a, b, t) = a * (1 - t) + b * t`. -/
def mix (a b t : ℚ) : ℚ := a * (1 - t) + b * t

/-- The 3D box overlap test `AABBIntersect` (lines 454-459). -/
def AABBIntersect (amin amax bmin bmax : Vec3) : Prop :=
  (amin.x ≤ bmax.x ∧ amax.x ≥ bmin.x) ∧
  (amin.y ≤ bmax.y ∧ amax.y ≥ bmin.y) ∧
  (amin.z ≤ bmax.z ∧ amax.z ≥ bmin.z)

instance (amin amax bmin bmax : Vec3) : Decidable (AABBIntersect amin amax bmin bmax) := by
  unfold AABBIntersect
  infer_instance

/-! ## Random numbers (lines 461-471) -/

/-- One step of the linear congruential recurrence on the 32-bit state. -/
def lcgNext (s : Nat) : Nat := (1664525 * s + 1013904223) % 4294967296

/-- The function `frand01`: advances the state and returns
`(state >> 8) * (1 / 16777216)` together with the new state. Both `float` steps, the
conversion of `state >> 8` and the product with `2^-24`, are exact in binary32
(`frand01_exact`). -/
def frand01 (s : Nat) : ℚ × Nat :=
  let s1 := lcgNext s
  (((s1 / 256 : Nat) : ℚ) * (1 / 16777216), s1)

/-- The conversion `(int)q` of a float to an `int`, truncating toward zero. -/
def truncToInt (q : ℚ) : Int := Int.tdiv q.num (q.den : Int)

/-- Rounding to the nearest integer, a tie going to the even neighbour. -/
def roundHalfEven (q : ℚ) : Int :=
  if q - (⌊q⌋ : ℚ) < 1 / 2 then ⌊q⌋
  else if 1 / 2 < q - (⌊q⌋ : ℚ) then ⌊q⌋ + 1
  else if ⌊q⌋ % 2 = 0 then ⌊q⌋ else ⌊q⌋ + 1

/-- Rounding to binary32 (`float`): the nearest multiple of `2^(e - 23)`, where `2^e`
is the largest power of two not above `|x|`, a tie going to the even multiple. This is
the rounding of an `int` to `float` conversion and of a `float` product. The exponent
range of binary32 is not modelled; the values rounded in `randInt` have magnitude
between `2^-24` and `2^31`. -/
def roundF32 (x : ℚ) : ℚ :=
  if x = 0 then 0
  else (roundHalfEven (x / 2 ^ (Int.log 2 |x| - 23)) : ℚ) * 2 ^ (Int.log 2 |x| - 23)

/-- The enum `BlockType`. -/
inductive BlockType where
  | Normal
  | TurnLeft
  | TurnRight
  | TurnStraight
deriving DecidableEq

/-- The enum `ObsType`. -/
inductive ObsType where
  | None
  | JumpWall
  | SlideGate
deriving DecidableEq

/-- The struct `Wall`. -/
structure Wall where
  pos : Vec3 := Vec3.zero
  size : Vec3 := Vec3.zero
deriving DecidableEq

/-- The struct `Obstacle`. -/
structure Obstacle where
  type : ObsType := ObsType.None
  pos : Vec3 := Vec3.zero
  size : Vec3 := Vec3.zero
  hit : Bool := false
deriving DecidableEq

/-- The method `Obstacle::getAABB`: the pair `(mn, mx)`. -/
def Obstacle.getAABB (o : Obstacle) : Vec3 × Vec3 :=
  (o.pos - o.size * (0.5 : ℚ), o.pos + o.size * (0.5 : ℚ))

/-- The struct `Block::Coin`. -/
structure Coin where
  pos : Vec3 := Vec3.zero
  collected : Bool := false
  rotation : ℚ := 0
deriving DecidableEq

/-- The struct `Block`. -/
structure Block where
  blockIndex : Int
  type : BlockType
  centerPos : Vec3
  yaw : ℚ
  leftWall : Wall := {}
  rightWall : Wall := {}
  frontWall : Wall := {}
  hasFrontWall : Bool := false
  obstacle : Obstacle := {}
  hasObstacle : Bool := false
  coins : List Coin := []
deriving DecidableEq

/-- The constant `Block::SIZE`. -/
def Block.SIZE : ℚ := 5

/-- The constant `Block::WALL_HEIGHT`. -/
def Block.WALL_HEIGHT : ℚ := 2

/-- The constant `Block::WALL_THICKNESS`. -/
def Block.WALL_THICKNESS : ℚ := 0.5

/-- The function `getDirectionFromYaw` (lines 539-542). -/
def getDirectionFromYaw (T : Trig) (yaw : ℚ) : Vec3 :=
  ⟨T.sinDeg yaw, 0, T.cosDeg yaw⟩

/-- The function `getRightFromYaw` (lines 545-548). -/
def getRightFromYaw (T : Trig) (yaw : ℚ) : Vec3 :=
  Vec3.cross (getDirectionFromYaw T yaw) ⟨0, 1, 0⟩

/-- The exchange `std::swap(size.x, size.z)` on a wall. -/
def Wall.swapXZ (w : Wall) : Wall :=
  { w with size := ⟨w.size.z, w.size.y, w.size.x⟩ }

/-- The left wall of a block: `center - right * (halfSize + WALL_THICKNESS * 0.5)`
raised by half the wall height. -/
def leftWallOf (center right : Vec3) : Wall :=
  { pos := center - right * (Block.SIZE * 0.5 + Block.WALL_THICKNESS * 0.5)
      + ⟨0, Block.WALL_HEIGHT * 0.5, 0⟩
    size := ⟨Block.WALL_THICKNESS, Block.WALL_HEIGHT, Block.SIZE⟩ }

/-- The right wall of a block: `center + right * (halfSize + WALL_THICKNESS * 0.5)`
raised by half the wall height. -/
def rightWallOf (center right : Vec3) : Wall :=
  { pos := center + right * (Block.SIZE * 0.5 + Block.WALL_THICKNESS * 0.5)
      + ⟨0, Block.WALL_HEIGHT * 0.5, 0⟩
    size := ⟨Block.WALL_THICKNESS, Block.WALL_HEIGHT, Block.SIZE⟩ }

/-- The front wall of a turn block. -/
def frontWallOf (center forward : Vec3) : Wall :=
  { pos := center + forward * (Block.SIZE * 0.5 + Block.WALL_THICKNESS * 0.5)
      + ⟨0, Block.WALL_HEIGHT * 0.5, 0⟩
    size := ⟨Block.SIZE + Block.WALL_THICKNESS * 2, Block.WALL_HEIGHT, Block.WALL_THICKNESS⟩ }

/-- The walls of `createBlock` before the yaw swap (lines 562-598). -/
def createBlockWalls (T : Trig) (index : Int) (type : BlockType) (center : Vec3) (yaw : ℚ) :
    Block :=
  let forward := getDirectionFromYaw T yaw
  let right := getRightFromYaw T yaw
  let block : Block := { blockIndex := index, type := type, centerPos := center, yaw := yaw }
  match type with
  | BlockType.Normal | BlockType.TurnStraight =>
    { block with
      leftWall := leftWallOf center right
      rightWall := rightWallOf center right
      hasFrontWall := false }
  | BlockType.TurnLeft =>
    { block with
      hasFrontWall := true
      frontWall := frontWallOf center forward
      rightWall := rightWallOf center right
      leftWall := { block.leftWall with size := Vec3.zero } }
  | BlockType.TurnRight =>
    { block with
      hasFrontWall := true
      frontWall := frontWallOf center forward
      leftWall := leftWallOf center right
      rightWall := { block.rightWall with size := Vec3.zero } }

/-- The function `createBlock` (lines 550-610). -/
def createBlock (T : Trig) (index : Int) (type : BlockType) (center : Vec3) (yaw : ℚ) : Block :=
  let block := createBlockWalls T index type center yaw
  if |fmod yaw 180 - 90| < 1 ∨ |fmod yaw 180 + 90| < 1 then
    { block with
      leftWall := block.leftWall.swapXZ
      rightWall := block.rightWall.swapXZ
      frontWall := if block.hasFrontWall then block.frontWall.swapXZ else block.frontWall }
  else block

/-! ## Player (lines 48-223) -/

/-- The enum `AnimState`. -/
inductive AnimState where
  | Running
  | Jumping
  | Sliding
deriving DecidableEq

/-- The struct `Player` with its default member initialisers. -/
structure Player where
  scale : ℚ := 1
  pos : Vec3 := ⟨0, 0, 0⟩
  vel : Vec3 := ⟨0, 0, 0⟩
  yaw : ℚ := 180
  targetYaw : ℚ := 180
  forwardVel : ℚ := 6
  lateralSpeed : ℚ := 50
  jumpSpeed : ℚ := 5
  gravity : ℚ := 12
  onGround : Bool := true
  state : AnimState := AnimState.Running
  standHalfWidth : ℚ := 0.35
  standHalfDepth : ℚ := 0.25
  standHeight : ℚ := 1.8
  slideHeight : ℚ := 1.0
  sliding : Bool := false
  slideTimer : ℚ := 0
  slideDuration : ℚ := 1.5
  maxLateral : ℚ := 4
  slideRootStart : Vec3 := ⟨0, 0, 0⟩
  slideRootCurrent : Vec3 := ⟨0, 0, 0⟩
  slideRootInitialized : Bool := false
deriving DecidableEq

namespace Player

/-- The method `halfW`. -/
def halfW (p : Player) : ℚ := p.standHalfWidth * p.scale

/-- The method `halfD`. -/
def halfD (p : Player) : ℚ := p.standHalfDepth * p.scale

/-- The method `standH`. -/
def standH (p : Player) : ℚ := p.standHeight * p.scale

/-- The method `slideH`. -/
def slideH (p : Player) : ℚ := p.slideHeight * p.scale

/-- The method `getForwardDir` (lines 85-88). -/
def getForwardDir (T : Trig) (p : Player) : Vec3 :=
  ⟨T.sinDeg p.yaw, 0, T.cosDeg p.yaw⟩

/-- The method `getRightDir` (lines 90-93). -/
def getRightDir (T : Trig) (p : Player) : Vec3 :=
  Vec3.cross (p.getForwardDir T) ⟨0, 1, 0⟩

/-- The method `turnLeft` (lines 95-100). -/
def turnLeft (p : Player) : Player :=
  if p.sliding = false ∧ p.onGround = true then
    let yaw1 := p.yaw + 90
    { p with yaw := if yaw1 ≥ 360 then yaw1 - 360 else yaw1 }
  else p

/-- The method `turnRight` (lines 102-107). -/
def turnRight (p : Player) : Player :=
  if p.sliding = false ∧ p.onGround = true then
    let yaw1 := p.yaw - 90
    { p with yaw := if yaw1 < 0 then yaw1 + 360 else yaw1 }
  else p

/-- The method `getSlideOffset` (lines 109-124). -/
def getSlideOffset (T : Trig) (p : Player) : Vec3 :=
  if p.slideRootInitialized = false then Vec3.zero
  else
    let delta := p.slideRootCurrent - p.slideRootStart
    let c := T.cosDeg p.yaw
    let s := T.sinDeg p.yaw
    ⟨delta.x * c - delta.z * s, 0, delta.x * s + delta.z * c⟩

/-- The method `bakeSlideRootMotion` (lines 141-149), without its console output. -/
def bakeSlideRootMotion (T : Trig) (p : Player) : Player :=
  if p.slideRootInitialized = false then p
  else { p with pos := p.pos + p.getSlideOffset T }

/-- The method `startSlide` (lines 151-158). -/
def startSlide (p : Player) : Player :=
  if p.onGround = true ∧ p.sliding = false then
    { p with
      sliding := true
      slideTimer := p.slideDuration
      state := AnimState.Sliding
      slideRootInitialized := false }
  else p

/-- The vertical part of `updatePhysics` for a player that is not sliding
(lines 169-176). -/
def integrateVertical (p : Player) (dt : ℚ) : Player :=
  let vy := if p.onGround = false then p.vel.y - p.gravity * dt else p.vel.y
  let py := p.pos.y + vy * dt
  if py ≤ 0 then
    let q : Player := { p with pos := { p.pos with y := 0 }, vel := { p.vel with y := 0 } }
    if p.onGround = false then { q with onGround := true, state := AnimState.Running } else q
  else
    { p with pos := { p.pos with y := py }, vel := { p.vel with y := vy } }

/-- The slide timer part of `updatePhysics` (lines 182-189). -/
def tickSlideTimer (p : Player) (dt : ℚ) : Player :=
  if p.sliding = true then
    let t := p.slideTimer - dt
    if t ≤ 0 then
      { p with
        slideTimer := t
        sliding := false
        state := AnimState.Running
        slideRootInitialized := false }
    else { p with slideTimer := t }
  else p

/-- The method `updatePhysics` (lines 160-190). -/
def updatePhysics (T : Trig) (p : Player) (dt mouseDeltaX : ℚ) : Player :=
  let forward := p.getForwardDir T
  let p1 : Player := { p with pos := p.pos + forward * p.forwardVel * dt }
  let lateralMove := mouseDeltaX * 0.02 * p1.lateralSpeed
  let right := p1.getRightDir T
  let p2 : Player := { p1 with pos := p1.pos + right * lateralMove * dt }
  let p3 : Player :=
    if p2.sliding = false then integrateVertical p2 dt
    else { p2 with pos := { p2.pos with y := 0 }, vel := { p2.vel with y := 0 } }
  tickSlideTimer p3 dt

/-- The method `jump` (lines 192-198). -/
def jump (p : Player) : Player :=
  if p.onGround = true ∧ p.sliding = false then
    { p with
      onGround := false
      vel := { p.vel with y := p.jumpSpeed }
      state := AnimState.Jumping }
  else p

/-- The method `getAABB` (lines 199-208): the pair `(minOut, maxOut)`. -/
def getAABB (T : Trig) (p : Player) : Vec3 × Vec3 :=
  let h := if p.sliding = true then p.slideH else p.standH
  let actualPos :=
    if p.sliding = true ∧ p.slideRootInitialized = true then p.pos + p.getSlideOffset T
    else p.pos
  (⟨actualPos.x - p.halfW, 0, actualPos.z - p.halfD⟩,
   ⟨actualPos.x + p.halfW, actualPos.y + h, actualPos.z + p.halfD⟩)

/-- The method `updateSlideRootMotion` (lines 210-221); `root` is the translation of
the first bone matrix, or `none` when the bone list is empty. -/
def updateSlideRootMotion (p : Player) (root : Option Vec3) : Player :=
  match root with
  | none => p
  | some currentRoot =>
    if p.sliding = false then p
    else if p.slideRootInitialized = false then
      { p with
        slideRootStart := currentRoot
        slideRootInitialized := true
        slideRootCurrent := currentRoot }
    else { p with slideRootCurrent := currentRoot }

end Player

/-! ## Process-wide state -/

/-- The globals of the gameplay core. -/
structure Game where
  gRandState : Nat := 1234567
  gBlocks : List Block := []
  gNextBlockIndex : Int := 0
  gNextBlockCenter : Vec3 := ⟨0, 0, 0⟩
  gCurrentBuildYaw : ℚ := 180
  gCoinOnLeftSide : Bool := true
  gCoinPatternStart : Int := -1
  gCoinSwitchAtBlock4 : Bool := false
  player : Player := {}
  gHP : Int := 1
  gCoinCount : Int := 0
  gGameOver : Bool := false
  gGameSpeed : ℚ := 1
  gGameTime : ℚ := 0
deriving DecidableEq

/-! ## Track generator (lines 612-760) -/

/-- The outcome of the topology choice of `generateNextBlock`. -/
structure TypeChoice where
  type : BlockType
  shouldHaveObstacle : Bool
  rand : Nat

/-- The topology choice of `generateNextBlock` (lines 613-634) at index `n` with
RNG state `rs`. -/
def chooseBlockType (n : Int) (rs : Nat) : TypeChoice :=
  if n > 0 ∧ n.tmod 20 = 0 then
    let d := frand01 rs
    if d.1 < 0.33 then ⟨BlockType.TurnStraight, false, d.2⟩
    else if d.1 < 0.66 then ⟨BlockType.TurnLeft, false, d.2⟩
    else ⟨BlockType.TurnRight, false, d.2⟩
  else if n ≥ 5 ∧ n.tmod 4 = 1 ∧ n.tmod 20 ≠ 1 then ⟨BlockType.Normal, true, rs⟩
  else ⟨BlockType.Normal, false, rs⟩

/-- The obstacle placement of `generateNextBlock` (lines 639-666), run when
`shouldHaveObstacle` holds: the block with its obstacle, and the RNG state. -/
def placeObstacle (block : Block) (buildYaw : ℚ) (rs : Nat) : Block × Nat :=
  let d := frand01 rs
  let obsType := if d.1 < 0.5 then ObsType.JumpWall else ObsType.SlideGate
  let facingZ : Bool := decide (|fmod (buildYaw + 360) 180| < 1)
  let size : Vec3 :=
    if obsType = ObsType.JumpWall then
      (if facingZ = true then ⟨Block.SIZE, 0.6, 0.7⟩ else ⟨0.7, 0.6, Block.SIZE⟩)
    else
      (if facingZ = true then ⟨Block.SIZE, 1.0, 1.2⟩ else ⟨1.2, 1.0, Block.SIZE⟩)
  let posY : ℚ := if obsType = ObsType.JumpWall then 0.3 else 1.5
  ({ block with
     hasObstacle := true
     obstacle :=
       { block.obstacle with
         type := obsType
         pos := { block.centerPos with y := posY }
         size := size } }, d.2)

/-- The body of the coin loop of `generateNextBlock` (lines 697-736) for `i`. -/
def coinAt (block : Block) (forward right : Vec3) (coinOnLeft coinSwitch : Bool)
    (blockMod10 : Int) (lateralOffset : ℚ) (i : Nat) : Coin :=
  let forwardOffset : ℚ := (((i : Int) - 2 : Int) : ℚ) * 0.8
  let lateral : ℚ :=
    if blockMod10 = 4 ∧ coinSwitch = true then
      (if coinOnLeft = true then mix (-1) 1 (((i : ℚ) + 1) / 6)
       else mix 1 (-1) (((i : ℚ) + 1) / 6))
    else lateralOffset
  let pos0 := block.centerPos + right * lateral + forward * forwardOffset
  let posY : ℚ :=
    if block.hasObstacle = true ∧ block.obstacle.type = ObsType.JumpWall then
      (if i = 1 then 1.4 else if i = 2 then 1.8 else if i = 3 then 1.4 else 1.0)
    else 1.0
  { pos := { pos0 with y := posY }, collected := false, rotation := 0 }

/-- The block, RNG state and coin pattern flags after the coin stage. -/
structure CoinStage where
  block : Block
  rand : Nat
  coinOnLeft : Bool
  coinSwitch : Bool

/-- The coin stage of `generateNextBlock` (lines 668-737). -/
def placeCoins (T : Trig) (block : Block) (n : Int) (buildYaw : ℚ) (rs : Nat)
    (coinOnLeft coinSwitch : Bool) : CoinStage :=
  let blockMod10 := n.tmod 10
  if blockMod10 ≥ 2 ∧ blockMod10 ≤ 6 then
    let forward := getDirectionFromYaw T buildYaw
    let right := getRightFromYaw T buildYaw
    let d1 := frand01 rs
    let left1 : Bool := if blockMod10 = 2 then decide (d1.1 < 0.5) else coinOnLeft
    let switch1 : Bool := if blockMod10 = 2 then false else coinSwitch
    let rs1 : Nat := if blockMod10 = 2 then d1.2 else rs
    let d2 := frand01 rs1
    let switch2 : Bool := if blockMod10 = 4 then decide (d2.1 < 0.5) else switch1
    let rs2 : Nat := if blockMod10 = 4 then d2.2 else rs1
    let currentlyOnLeft : Bool :=
      if switch2 = true ∧ blockMod10 ≥ 5 then !left1 else left1
    let lateralOffset : ℚ := if currentlyOnLeft = true then -1 else 1
    { block :=
        { block with
          coins := block.coins ++
            (List.range 5).map
              (coinAt block forward right left1 switch2 blockMod10 lateralOffset) }
      rand := rs2
      coinOnLeft := left1
      coinSwitch := switch2 }
  else
    { block := block, rand := rs, coinOnLeft := coinOnLeft, coinSwitch := coinSwitch }

/-- The block that `generateNextBlock` pushes, with the RNG state and coin flags
after its draws (lines 612-737). -/
def buildBlock (T : Trig) (g : Game) : CoinStage :=
  let c := chooseBlockType g.gNextBlockIndex g.gRandState
  let block0 := createBlock T g.gNextBlockIndex c.type g.gNextBlockCenter g.gCurrentBuildYaw
  let o : Block × Nat :=
    if c.shouldHaveObstacle = true then placeObstacle block0 g.gCurrentBuildYaw c.rand
    else (block0, c.rand)
  placeCoins T o.1 g.gNextBlockIndex g.gCurrentBuildYaw o.2
    g.gCoinOnLeftSide g.gCoinSwitchAtBlock4

/-- The function `generateNextBlock` (lines 612-760). -/
def generateNextBlock (T : Trig) (g : Game) : Game :=
  let k := buildBlock T g
  let block := k.block
  let forward := getDirectionFromYaw T g.gCurrentBuildYaw
  let center1 := g.gNextBlockCenter + forward * Block.SIZE
  let yawL := g.gCurrentBuildYaw + 90
  let yawR := g.gCurrentBuildYaw - 90
  let newYaw : ℚ :=
    if block.type = BlockType.TurnLeft then (if yawL ≥ 360 then yawL - 360 else yawL)
    else if block.type = BlockType.TurnRight then (if yawR < 0 then yawR + 360 else yawR)
    else g.gCurrentBuildYaw
  let newCenter : Vec3 :=
    if block.type = BlockType.TurnLeft then
      block.centerPos + getRightFromYaw T block.yaw * (-Block.SIZE)
    else if block.type = BlockType.TurnRight then
      block.centerPos + getRightFromYaw T block.yaw * Block.SIZE
    else center1
  { g with
    gRandState := k.rand
    gBlocks := g.gBlocks ++ [block]
    gCoinOnLeftSide := k.coinOnLeft
    gCoinSwitchAtBlock4 := k.coinSwitch
    gNextBlockCenter := newCenter
    gCurrentBuildYaw := newYaw
    gNextBlockIndex := g.gNextBlockIndex + 1 }

/-! ## Track window (lines 762-791) -/

/-- The search loop of `updateBlockGeneration` (lines 767-775): the index of the
first block whose centre is horizontally within `Block.SIZE` of `pos`, else `-1`. -/
def findPlayerBlock (pos : Vec3) : List Block → Int
  | [] => -1
  | b :: rest =>
    let toPlayer := pos - b.centerPos
    if toPlayer.x * toPlayer.x + toPlayer.z * toPlayer.z < Block.SIZE * Block.SIZE then
      b.blockIndex
    else findPlayerBlock pos rest

/-- The loop `while (gNextBlockIndex < playerBlockIndex + 50) generateNextBlock()`
(lines 778-780), with an iteration budget `fuel`. -/
def generateAhead (T : Trig) (playerBlockIndex : Int) : Nat → Game → Game
  | 0, g => g
  | fuel + 1, g =>
    if g.gNextBlockIndex < playerBlockIndex + 50 then
      generateAhead T playerBlockIndex fuel (generateNextBlock T g)
    else g

/-- The eviction loop of `updateBlockGeneration` (lines 783-790). -/
def evictStale (playerBlockIndex : Int) : List Block → List Block
  | [] => []
  | b :: rest =>
    if (b :: rest).length > 60 then
      (if b.blockIndex < playerBlockIndex - 10 then evictStale playerBlockIndex rest
       else b :: rest)
    else b :: rest

/-- The function `updateBlockGeneration` (lines 762-791). The generation loop runs
`playerBlockIndex + 50 - gNextBlockIndex` times when that is positive, which is the
budget given to `generateAhead`. -/
def updateBlockGeneration (T : Trig) (g : Game) : Game :=
  let playerBlockIndex := findPlayerBlock g.player.pos g.gBlocks
  let g1 := generateAhead T playerBlockIndex
    (playerBlockIndex + 50 - g.gNextBlockIndex).toNat g
  { g1 with gBlocks := evictStale playerBlockIndex g1.gBlocks }

/-! ## Collisions (lines 890-997) -/

/-- The coin loop of `checkCoinCollisions` over the coins of one block, threading
`gCoinCount` (lines 895-906). -/
def collectCoins (pmin pmax : Vec3) : List Coin → Int → List Coin × Int
  | [], count => ([], count)
  | coin :: rest, count =>
    if coin.collected = true then
      let r := collectCoins pmin pmax rest count
      (coin :: r.1, r.2)
    else if AABBIntersect pmin pmax (coin.pos - Vec3.splat 0.5) (coin.pos + Vec3.splat 0.5) then
      let r := collectCoins pmin pmax rest (count + 1)
      ({ coin with collected := true } :: r.1, r.2)
    else
      let r := collectCoins pmin pmax rest count
      (coin :: r.1, r.2)

/-- The block loop of `checkCoinCollisions` (lines 894-907). -/
def collectBlocks (pmin pmax : Vec3) : List Block → Int → List Block × Int
  | [], count => ([], count)
  | block :: rest, count =>
    let c := collectCoins pmin pmax block.coins count
    let r := collectBlocks pmin pmax rest c.2
    ({ block with coins := c.1 } :: r.1, r.2)

/-- The function `checkCoinCollisions` (lines 890-908). -/
def checkCoinCollisions (T : Trig) (g : Game) : Game :=
  let bb := g.player.getAABB T
  let r := collectBlocks bb.1 bb.2 g.gBlocks g.gCoinCount
  { g with gBlocks := r.1, gCoinCount := r.2 }

/-- The variables that `checkBlockCollisions` mutates besides the blocks: the
player, the captured box `pmin`, `pmax`, and the counters. -/
structure CollState where
  player : Player
  pmin : Vec3
  pmax : Vec3
  gHP : Int
  gGameOver : Bool
deriving DecidableEq

/-- The lambda `checkWall` of `checkBlockCollisions` (lines 916-941). -/
def checkWall (T : Trig) (w : Wall) (cs : CollState) : CollState :=
  if w.size.x < 0.1 ∧ w.size.z < 0.1 then cs
  else
    let wmin := w.pos - w.size * (0.5 : ℚ)
    let wmax := w.pos + w.size * (0.5 : ℚ)
    let bb := cs.player.getAABB T
    if AABBIntersect bb.1 bb.2 wmin wmax then
      let overlapX1 := wmax.x - bb.1.x
      let overlapX2 := bb.2.x - wmin.x
      let overlapZ1 := wmax.z - bb.1.z
      let overlapZ2 := bb.2.z - wmin.z
      let minOverlapX := if overlapX1 < overlapX2 then overlapX1 else -overlapX2
      let minOverlapZ := if overlapZ1 < overlapZ2 then overlapZ1 else -overlapZ2
      let player1 : Player :=
        if |minOverlapX| < |minOverlapZ| then
          { cs.player with pos := { cs.player.pos with x := cs.player.pos.x + minOverlapX } }
        else
          { cs.player with pos := { cs.player.pos with z := cs.player.pos.z + minOverlapZ } }
      let bb1 := player1.getAABB T
      { cs with player := player1, pmin := bb1.1, pmax := bb1.2 }
    else { cs with pmin := bb.1, pmax := bb.2 }

/-- The pass-through test of the obstacle branch (lines 954-968): `shouldBlock`. -/
def shouldBlock (o : Obstacle) (cs : CollState) : Bool :=
  let bb := o.getAABB
  let sb1 : Bool :=
    if o.type = ObsType.SlideGate ∧ cs.player.sliding = true ∧ cs.pmax.y ≤ bb.1.y + 0.01
    then false else true
  if o.type = ObsType.JumpWall ∧ cs.player.onGround = false ∧
      cs.player.pos.y > bb.2.y + 0.01
  then false else sb1

/-- The push of the obstacle branch (lines 979-994): the player after
"Push player out". -/
def pushOut (omin omax : Vec3) (cs : CollState) : Player :=
  let dx1 := omax.x - cs.pmin.x
  let dx2 := cs.pmax.x - omin.x
  let dz1 := omax.z - cs.pmin.z
  let dz2 := cs.pmax.z - omin.z
  let pushX := if dx1 < dx2 then -dx1 else dx2
  let pushZ := if dz1 < dz2 then -dz1 else dz2
  if |pushZ| ≤ |pushX| then
    { cs.player with
      pos := { cs.player.pos with
               z := cs.player.pos.z + (pushZ + (if pushZ > 0 then 0.001 else -0.001)) } }
  else
    { cs.player with
      pos := { cs.player.pos with
               x := cs.player.pos.x + (pushX + (if pushX > 0 then 0.001 else -0.001)) } }

/-- The obstacle branch of `checkBlockCollisions` (lines 949-996), without the
window title call. -/
def checkObstacle (T : Trig) (block : Block) (cs : CollState) : Block × CollState :=
  if block.hasObstacle = true ∧ block.obstacle.hit = false then
    let bb := block.obstacle.getAABB
    if AABBIntersect cs.pmin cs.pmax bb.1 bb.2 then
      if shouldBlock block.obstacle cs = true then
        let hp := cs.gHP - 1
        let player1 := pushOut bb.1 bb.2 cs
        let bb1 := player1.getAABB T
        ({ block with obstacle := { block.obstacle with hit := true } },
         { player := player1
           pmin := bb1.1
           pmax := bb1.2
           gHP := hp
           gGameOver := if hp ≤ 0 then true else cs.gGameOver })
      else (block, cs)
    else (block, cs)
  else (block, cs)

/-- The body of the block loop of `checkBlockCollisions` (lines 914-996). -/
def checkBlock (T : Trig) (block : Block) (cs : CollState) : Block × CollState :=
  let cs1 := checkWall T block.leftWall cs
  let cs2 := checkWall T block.rightWall cs1
  let cs3 := if block.hasFrontWall = true then checkWall T block.frontWall cs2 else cs2
  checkObstacle T block cs3

/-- The block loop of `checkBlockCollisions` (line 914). -/
def checkBlocks (T : Trig) : List Block → CollState → List Block × CollState
  | [], cs => ([], cs)
  | block :: rest, cs =>
    let r := checkBlock T block cs
    let r2 := checkBlocks T rest r.2
    (r.1 :: r2.1, r2.2)

/-- The function `checkBlockCollisions` (lines 910-998). -/
def checkBlockCollisions (T : Trig) (g : Game) : Game :=
  let bb := g.player.getAABB T
  let r := checkBlocks T g.gBlocks
    { player := g.player, pmin := bb.1, pmax := bb.2, gHP := g.gHP, gGameOver := g.gGameOver }
  { g with gBlocks := r.1, player := r.2.player, gHP := r.2.gHP, gGameOver := r.2.gGameOver }

/-! ## Reset (lines 1001-1027) -/

/-- The assignments of `ResetAll` (lines 1002-1015); the coin pattern globals
`gCoinOnLeftSide`, `gCoinPatternStart`, `gCoinSwitchAtBlock4` are not assigned. -/
def resetGlobals (g : Game) : Game :=
  { g with
    gHP := 1
    gCoinCount := 0
    gGameOver := false
    gGameSpeed := 1
    gGameTime := 0
    player := {}
    gBlocks := []
    gRandState := 1234567
    gNextBlockIndex := 0
    gNextBlockCenter := ⟨0, 0, 0⟩
    gCurrentBuildYaw := 180 }

/-- The function `ResetAll` (lines 1001-1027) on the gameplay globals: the
assignments followed by fifty calls of `generateNextBlock`. -/
def ResetAll (T : Trig) (g : Game) : Game :=
  (generateNextBlock T)^[50] (resetGlobals g)

/-- The globals at program start, from their static initialisers. -/
def initialGame : Game := {}

/-- A `Trig` that is exact at the axis headings `0`, `90`, `180`, `270` (the only
headings the generator and the turn commands produce from `180`) and is `0`
elsewhere; used to evaluate the definitions on concrete inputs. -/
def axisTrig : Trig where
  sinDeg := fun a => if a = 90 then 1 else if a = 270 then -1 else 0
  cosDeg := fun a => if a = 0 then 1 else if a = 180 then -1 else 0

/-! ## State predicates used by the theorems -/

/-- The block indices of a list read front to back are `start`, `start + 1`, ... -/
inductive consecutiveFrom : Int → List Block → Prop
  | nil (start : Int) : consecutiveFrom start []
  | cons (start : Int) (b : Block) (rest : List Block) :
      b.blockIndex = start → consecutiveFrom (start + 1) rest →
      consecutiveFrom start (b :: rest)

/-- States reachable from the state after the assignments of `ResetAll` by calls of
`generateNextBlock` and of `updateBlockGeneration`, the player being arbitrary at
each call of the latter. -/
inductive ReachableGen (T : Trig) : Game → Prop
  | reset (g0 : Game) : ReachableGen T (resetGlobals g0)
  | generate (g : Game) : ReachableGen T g → ReachableGen T (generateNextBlock T g)
  | update (g : Game) (p : Player) : ReachableGen T g →
      ReachableGen T (updateBlockGeneration T { g with player := p })

/-- States reachable from the initial state (`ResetAll`: 50 blocks generated from
index 0) by calls of `updateBlockGeneration`, the player being arbitrary at each
call. -/
inductive ReachableWindow (T : Trig) : Game → Prop
  | init (g0 : Game) : ReachableWindow T (ResetAll T g0)
  | update (g : Game) (p : Player) : ReachableWindow T g →
      ReachableWindow T (updateBlockGeneration T { g with player := p })

/-- The coin box test of `checkCoinCollisions` (lines 898-902): the box of half
extent `coinRadius = 0.5` around the coin meets the box `pmin`, `pmax`. -/
def coinTouched (pmin pmax : Vec3) (c : Coin) : Prop :=
  AABBIntersect pmin pmax (c.pos - Vec3.splat 0.5) (c.pos + Vec3.splat 0.5)

instance (pmin pmax : Vec3) (c : Coin) : Decidable (coinTouched pmin pmax c) := by
  unfold coinTouched
  infer_instance

/-- A coin that is not collected yet and whose box meets the box `pmin`, `pmax`. -/
def newlyCollected (pmin pmax : Vec3) (c : Coin) : Bool :=
  !c.collected && decide (coinTouched pmin pmax c)

/-- A coin with its flag set when it is newly collected, unchanged otherwise. -/
def markCoin (pmin pmax : Vec3) (c : Coin) : Coin :=
  if newlyCollected pmin pmax c = true then { c with collected := true } else c

/-- A block whose coins are marked by `markCoin`, unchanged otherwise. -/
def markBlock (pmin pmax : Vec3) (b : Block) : Block :=
  { b with coins := b.coins.map (markCoin pmin pmax) }

/-- All coins of a list of blocks, in block order. -/
def allCoins (l : List Block) : List Coin := (l.map Block.coins).flatten

/-- The captured box of a collision state is the player's current box, as after
every `player.getAABB(pmin, pmax)` call of `checkBlockCollisions`. -/
def CollState.synced (T : Trig) (cs : CollState) : Prop :=
  cs.pmin = (cs.player.getAABB T).1 ∧ cs.pmax = (cs.player.getAABB T).2

/-- The collision state at the start of `checkBlockCollisions` (lines 911-912). -/
def CollState.start (T : Trig) (g : Game) : CollState :=
  { player := g.player
    pmin := (g.player.getAABB T).1
    pmax := (g.player.getAABB T).2
    gHP := g.gHP
    gGameOver := g.gGameOver }

/-- The wall `w` is present (not skipped by `checkWall`) and its box meets the
box of the player `p`. -/
def touchesWall (T : Trig) (p : Player) (w : Wall) : Prop :=
  ¬ (w.size.x < 0.1 ∧ w.size.z < 0.1) ∧
  AABBIntersect (p.getAABB T).1 (p.getAABB T).2
    (w.pos - w.size * (0.5 : ℚ)) (w.pos + w.size * (0.5 : ℚ))

/-- The player `p` touches none of the walls that `checkBlockCollisions` tests for
the block `b`. -/
def noWallContact (T : Trig) (p : Player) (b : Block) : Prop :=
  ¬ touchesWall T p b.leftWall ∧ ¬ touchesWall T p b.rightWall ∧
  (b.hasFrontWall = true → ¬ touchesWall T p b.frontWall)

/-- Example input: a block with the obstacle of block 5 of the initial track, a
`JumpWall` at `(0, 0.3, -25)` of size `(5, 0.6, 0.7)`, with `hit` as given. -/
def jumpWallBlock (hit : Bool) : Block :=
  { blockIndex := 5
    type := BlockType.Normal
    centerPos := ⟨0, 0, -25⟩
    yaw := 180
    hasObstacle := true
    obstacle :=
      { type := ObsType.JumpWall, pos := ⟨0, 0.3, -25⟩, size := ⟨5, 0.6, 0.7⟩, hit := hit } }

/-- Example input: the default player, running and grounded, at `(0, 0, -24.45)`,
its box reaching 0.05 into the box of the obstacle of `jumpWallBlock`. -/
def playerAtWall : Player := { pos := ⟨0, 0, -24.45⟩ }

/-- Example input: a sliding player whose slide ends within the next 0.016 s and
whose root bone has moved by `(0, 0, 1)` since the slide started. -/
def playerEndingSlide : Player :=
  { sliding := true
    state := AnimState.Sliding
    slideTimer := 0.01
    slideRootInitialized := true
    slideRootStart := ⟨0, 0, 0⟩
    slideRootCurrent := ⟨0, 0, 1⟩ }

/-- Example input: a game whose only block is `jumpWallBlock hit`, with the player
`playerAtWall` and the start values `gHP = 1`, `gGameOver = false`. -/
def gameAtWall (hit : Bool) : Game :=
  { gBlocks := [jumpWallBlock hit], player := playerAtWall }

/-- Example input: the default player in mid-jump at height 0.8 over the obstacle
of `jumpWallBlock`, whose top is at 0.6. -/
def playerOverWall : Player :=
  { pos := ⟨0, 0.8, -24.45⟩
    vel := ⟨0, 1, 0⟩
    onGround := false
    state := AnimState.Jumping }

/-- Example input: a game whose only block is `jumpWallBlock false`, with the player
`playerOverWall`. -/
def gameOverWall : Game :=
  { gBlocks := [jumpWallBlock false], player := playerOverWall }

/-- The box of a wall as computed by `checkWall` (lines 918-919): `(wmin, wmax)`. -/
def Wall.box (w : Wall) : Vec3 × Vec3 :=
  (w.pos - w.size * (0.5 : ℚ), w.pos + w.size * (0.5 : ℚ))

/-- The X candidate `minOverlapX` of `checkWall` (lines 925-926, 931) for the player
box `(pmin, pmax)` and the wall box `(wmin, wmax)`. -/
def minOverlapX (pmin pmax wmin wmax : Vec3) : ℚ :=
  if wmax.x - pmin.x < pmax.x - wmin.x then wmax.x - pmin.x else -(pmax.x - wmin.x)

/-- The Z candidate `minOverlapZ` of `checkWall` (lines 927-928, 932). -/
def minOverlapZ (pmin pmax wmin wmax : Vec3) : ℚ :=
  if wmax.z - pmin.z < pmax.z - wmin.z then wmax.z - pmin.z else -(pmax.z - wmin.z)

/-- Example input: the left wall of block 0 of the initial track, centre
`(-2.75, 1, 0)`, size `(0.5, 2, 5)`, so its inner face is at `x = -2.5`. -/
def leftWallBlock0 : Wall := { pos := ⟨-2.75, 1, 0⟩, size := ⟨0.5, 2, 5⟩ }

/-- Example input: the collision state of the default player at `(x, 0, 0)` with
`gHP = 1`. -/
def stateAtX (T : Trig) (x : ℚ) : CollState :=
  { player := { pos := ⟨x, 0, 0⟩ }
    pmin := (Player.getAABB T { pos := ⟨x, 0, 0⟩ }).1
    pmax := (Player.getAABB T { pos := ⟨x, 0, 0⟩ }).2
    gHP := 1
    gGameOver := false }

/-- The assignment `player.pos.x += c`. -/
def Player.moveX (p : Player) (c : ℚ) : Player :=
  { p with pos := { p.pos with x := p.pos.x + c } }

/-- The assignment `player.pos.z += c`. -/
def Player.moveZ (p : Player) (c : ℚ) : Player :=
  { p with pos := { p.pos with z := p.pos.z + c } }

/-- The values of sine and cosine at the four axis headings are the exact ones. -/
def Trig.axisExact (T : Trig) : Prop :=
  (T.sinDeg 0 = 0 ∧ T.cosDeg 0 = 1) ∧ (T.sinDeg 90 = 1 ∧ T.cosDeg 90 = 0) ∧
  (T.sinDeg 180 = 0 ∧ T.cosDeg 180 = -1) ∧ (T.sinDeg 270 = -1 ∧ T.cosDeg 270 = 0)

/-- A heading that is one of 0, 90, 180, 270 degrees. -/
def axisYaw (y : ℚ) : Prop := y = 0 ∨ y = 90 ∨ y = 180 ∨ y = 270

/-- The extent of an axis-aligned box of the given size along the direction `d`. -/
def extentAlong (size d : Vec3) : ℚ :=
  size.x * |d.x| + size.y * |d.y| + size.z * |d.z|

/-- The value `a mod 360` in `[0, 360)`: `a - 360 * floor (a / 360)`. -/
def mod360 (a : ℚ) : ℚ := a - 360 * (⌊a / 360⌋ : ℚ)

/-- States reachable from the state after the assignments of `ResetAll`
(`gCurrentBuildYaw = 180`, `player.yaw = 180`) by `generateNextBlock` and by the
player's `turnLeft`, `turnRight`, `updatePhysics`, `jump` and `startSlide`. -/
inductive ReachableHeading (T : Trig) : Game → Prop
  | reset (g0 : Game) : ReachableHeading T (resetGlobals g0)
  | generate (g : Game) : ReachableHeading T g → ReachableHeading T (generateNextBlock T g)
  | turnLeft (g : Game) : ReachableHeading T g →
      ReachableHeading T { g with player := g.player.turnLeft }
  | turnRight (g : Game) : ReachableHeading T g →
      ReachableHeading T { g with player := g.player.turnRight }
  | updatePhysics (g : Game) (dt mouseDeltaX : ℚ) : ReachableHeading T g →
      ReachableHeading T { g with player := g.player.updatePhysics T dt mouseDeltaX }
  | jump (g : Game) : ReachableHeading T g →
      ReachableHeading T { g with player := g.player.jump }
  | startSlide (g : Game) : ReachableHeading T g →
      ReachableHeading T { g with player := g.player.startSlide }

/-- Example input: the default player sliding with heading `yaw`, its root bone
displaced by `(0, 0, d)` (along the model's local forward axis) since the slide
started. -/
def playerSlidingAt (yaw d : ℚ) : Player :=
  { yaw := yaw
    sliding := true
    state := AnimState.Sliding
    slideTimer := 1
    slideRootInitialized := true
    slideRootStart := ⟨0, 0, 0⟩
    slideRootCurrent := ⟨0, 0, d⟩ }

/-- The horizontal part of `updatePhysics` (lines 161-167): the forward step and the
lateral step, written as in `Player.updatePhysics`. -/
def Player.moveHorizontal (T : Trig) (p : Player) (dt mouseDeltaX : ℚ) : Player :=
  let forward := p.getForwardDir T
  let p1 : Player := { p with pos := p.pos + forward * p.forwardVel * dt }
  let lateralMove := mouseDeltaX * 0.02 * p1.lateralSpeed
  let right := p1.getRightDir T
  { p1 with pos := p1.pos + right * lateralMove * dt }

/-- The flag consistency of a player: `pos.y >= 0`; on the ground the height and the
vertical velocity are 0; a sliding player is on the ground; `state` is `Sliding`
exactly when `sliding`, and `Jumping` exactly when not on the ground. -/
def Player.consistent (p : Player) : Prop :=
  0 ≤ p.pos.y ∧
  (p.onGround = true → p.pos.y = 0 ∧ p.vel.y = 0) ∧
  (p.sliding = true → p.onGround = true) ∧
  (p.state = AnimState.Sliding ↔ p.sliding = true) ∧
  (p.state = AnimState.Jumping ↔ p.onGround = false)

/-- Player states reachable from the default `Player` by `jump`, `startSlide`,
`turnLeft`, `turnRight` and `updatePhysics(dt, m)` for any `dt` and `m`. -/
inductive ReachablePlayer (T : Trig) : Player → Prop
  | default : ReachablePlayer T {}
  | jump (p : Player) : ReachablePlayer T p → ReachablePlayer T p.jump
  | startSlide (p : Player) : ReachablePlayer T p → ReachablePlayer T p.startSlide
  | turnLeft (p : Player) : ReachablePlayer T p → ReachablePlayer T p.turnLeft
  | turnRight (p : Player) : ReachablePlayer T p → ReachablePlayer T p.turnRight
  | updatePhysics (p : Player) (dt mouseDeltaX : ℚ) : ReachablePlayer T p →
      ReachablePlayer T (p.updatePhysics T dt mouseDeltaX)

/-- The values that binary32 `sin` and `cos` return at `glm::radians` of the headings
0, 90, 180 and 270 (and 0 elsewhere): `cos 90 = -6151831 / 2^47`, about -4.371139e-8;
`sin 180 = -6151831 / 2^46`, about -8.742278e-8; `cos 270 = 6713111 / 2^49`, about
1.1924881e-8; the other five values are the exact ones. -/
def floatTrig : Trig where
  sinDeg := fun a =>
    if a = 90 then 1 else if a = 180 then -6151831 / 70368744177664
    else if a = 270 then -1 else 0
  cosDeg := fun a =>
    if a = 0 then 1 else if a = 90 then -6151831 / 140737488355328
    else if a = 180 then -1 else if a = 270 then 6713111 / 562949953421312 else 0

/-- The values of sine and cosine at the four axis headings are within `ε` of the
exact ones. -/
def Trig.axisNear (T : Trig) (ε : ℚ) : Prop :=
  (|T.sinDeg 0| ≤ ε ∧ |T.cosDeg 0 - 1| ≤ ε) ∧ (|T.sinDeg 90 - 1| ≤ ε ∧ |T.cosDeg 90| ≤ ε) ∧
  (|T.sinDeg 180| ≤ ε ∧ |T.cosDeg 180 + 1| ≤ ε) ∧
  (|T.sinDeg 270 + 1| ≤ ε ∧ |T.cosDeg 270| ≤ ε)

/-- Example input: the build cursor at the origin, heading 180, at index 20, with the
RNG state that the initial track has when it reaches index 20 (the draw there, about
0.42, makes the block a `TurnLeft`). -/
def turnAtOrigin : Game := { gNextBlockIndex := 20, gRandState := 3666216719 }

/-- The wall checks at the head of the block loop body of `checkBlockCollisions`
(lines 943-947), as in `checkBlock`. -/
def checkWalls (T : Trig) (block : Block) (cs : CollState) : CollState :=
  let cs1 := checkWall T block.leftWall cs
  let cs2 := checkWall T block.rightWall cs1
  if block.hasFrontWall = true then checkWall T block.frontWall cs2 else cs2

/-- The collision state with which the block loop of `checkBlockCollisions` enters the
obstacle branch of the block `b`, when the blocks before `b` in `gBlocks` are `pre`
and the loop starts from `cs`: the loop body has run for every block of `pre` and the
walls of `b` have been checked. -/
def CollState.atObstacle (T : Trig) (pre : List Block) (b : Block) (cs : CollState) :
    CollState :=
  checkWalls T b (checkBlocks T pre cs).2

/-- The player `q` has the dimensions, the height `pos.y` and the `sliding` flag of the
player `p`. -/
def sameBody (p q : Player) : Prop :=
  q.scale = p.scale ∧ q.slideHeight = p.slideHeight ∧ q.standHeight = p.standHeight ∧
  q.pos.y = p.pos.y ∧ q.sliding = p.sliding

/-- Example input: block 8 of the initial track (heading 180, exact axis sines and
cosines), a straight block centred at `(0, 0, -40)` without obstacle or coins; see
`resetAll_track`. -/
def trackBlock8 : Block := createBlock axisTrig 8 BlockType.Normal ⟨0, 0, -40⟩ 180

/-- Example input: block 9 of the initial track, a straight block centred at
`(0, 0, -45)` whose obstacle is drawn from the RNG state 245635452 that the track has
there (`track_rand9`): a `SlideGate`; see `resetAll_track`. -/
def trackBlock9 : Block :=
  (placeObstacle (createBlock axisTrig 9 BlockType.Normal ⟨0, 0, -45⟩ 180) 180 245635452).1

/-- Example input: block 10 of the initial track, a straight block centred at
`(0, 0, -50)` without obstacle or coins; see `resetAll_track`. -/
def trackBlock10 : Block := createBlock axisTrig 10 BlockType.Normal ⟨0, 0, -50⟩ 180

/-- Example input: the blocks 8, 9, 10 of the initial track with the player `p` and
the start values `gHP = 1`, `gGameOver = false`. -/
def gameOnTrack (p : Player) : Game :=
  { gBlocks := [trackBlock8] ++ trackBlock9 :: [trackBlock10], player := p }

/-- Example input: the default player at `(x, 0, -45)`, level with the gate of block
9, sliding or running as given. At `x = 2.8` its box `[2.45, 3.15]` in x reaches into
the gate's `[-2.5, 2.5]` and into the right wall's `[2.5, 3]`. -/
def playerOnTrack (x : ℚ) (sliding : Bool) : Player :=
  { pos := ⟨x, 0, -45⟩
    sliding := sliding
    state := if sliding = true then AnimState.Sliding else AnimState.Running
    slideTimer := if sliding = true then 1 else 0 }

/-! # Theorems -/

/-! ## Lemmas on the generator -/

theorem placeCoins_block (T : Trig) (b : Block) (n : Int) (y : ℚ) (rs : Nat) (l s : Bool) :
    ∃ cs, (placeCoins T b n y rs l s).block = { b with coins := cs } := by
  unfold placeCoins
  by_cases h : n.tmod 10 ≥ 2 ∧ n.tmod 10 ≤ 6
  · simp only [h, and_self, if_true]
    exact ⟨_, rfl⟩
  · simp only [h, if_false]
    exact ⟨b.coins, rfl⟩

theorem placeCoins_blockIndex (T : Trig) (b : Block) (n : Int) (y : ℚ) (rs : Nat) (l s : Bool) :
    (placeCoins T b n y rs l s).block.blockIndex = b.blockIndex := by
  obtain ⟨cs, h⟩ := placeCoins_block T b n y rs l s
  rw [h]

theorem placeCoins_type (T : Trig) (b : Block) (n : Int) (y : ℚ) (rs : Nat) (l s : Bool) :
    (placeCoins T b n y rs l s).block.type = b.type := by
  obtain ⟨cs, h⟩ := placeCoins_block T b n y rs l s
  rw [h]

theorem placeCoins_hasObstacle (T : Trig) (b : Block) (n : Int) (y : ℚ) (rs : Nat)
    (l s : Bool) : (placeCoins T b n y rs l s).block.hasObstacle = b.hasObstacle := by
  obtain ⟨cs, h⟩ := placeCoins_block T b n y rs l s
  rw [h]

theorem placeCoins_obstacle (T : Trig) (b : Block) (n : Int) (y : ℚ) (rs : Nat)
    (l s : Bool) : (placeCoins T b n y rs l s).block.obstacle = b.obstacle := by
  obtain ⟨cs, h⟩ := placeCoins_block T b n y rs l s
  rw [h]

theorem createBlock_index (T : Trig) (n : Int) (ty : BlockType) (c : Vec3) (y : ℚ) :
    (createBlock T n ty c y).blockIndex = n := by
  unfold createBlock createBlockWalls
  cases ty <;> simp only <;> split_ifs <;> rfl

theorem createBlock_type (T : Trig) (n : Int) (ty : BlockType) (c : Vec3) (y : ℚ) :
    (createBlock T n ty c y).type = ty := by
  unfold createBlock createBlockWalls
  cases ty <;> simp only <;> split_ifs <;> rfl

theorem createBlock_hasObstacle (T : Trig) (n : Int) (ty : BlockType) (c : Vec3) (y : ℚ) :
    (createBlock T n ty c y).hasObstacle = false := by
  unfold createBlock createBlockWalls
  cases ty <;> simp only <;> split_ifs <;> rfl

theorem createBlock_obstacle_hit (T : Trig) (n : Int) (ty : BlockType) (c : Vec3) (y : ℚ) :
    (createBlock T n ty c y).obstacle.hit = false := by
  unfold createBlock createBlockWalls
  cases ty <;> simp only <;> split_ifs <;> rfl

theorem buildBlock_index (T : Trig) (g : Game) :
    (buildBlock T g).block.blockIndex = g.gNextBlockIndex := by
  unfold buildBlock
  simp only [placeCoins_blockIndex]
  split_ifs
  · simp [placeObstacle, createBlock_index]
  · simp [createBlock_index]

theorem buildBlock_type (T : Trig) (g : Game) :
    (buildBlock T g).block.type = (chooseBlockType g.gNextBlockIndex g.gRandState).type := by
  unfold buildBlock
  simp only [placeCoins_type]
  split_ifs
  · simp [placeObstacle, createBlock_type]
  · simp [createBlock_type]

theorem buildBlock_hasObstacle (T : Trig) (g : Game) :
    (buildBlock T g).block.hasObstacle =
      (chooseBlockType g.gNextBlockIndex g.gRandState).shouldHaveObstacle := by
  unfold buildBlock
  simp only [placeCoins_hasObstacle]
  split_ifs with h
  · simp [placeObstacle, h]
  · simp only [createBlock_hasObstacle]
    simpa using h

theorem buildBlock_obstacle (T : Trig) (g : Game)
    (h : (buildBlock T g).block.hasObstacle = true) :
    ((buildBlock T g).block.obstacle.type = ObsType.JumpWall ∨
      (buildBlock T g).block.obstacle.type = ObsType.SlideGate) ∧
    (buildBlock T g).block.obstacle.hit = false := by
  rw [buildBlock_hasObstacle] at h
  unfold buildBlock
  simp only [placeCoins_obstacle, h, if_true]
  constructor
  · simp only [placeObstacle]
    split_ifs <;> simp
  · simp [placeObstacle, createBlock_obstacle_hit]

theorem chooseBlockType_turn (n : Int) (rs : Nat) :
    ((chooseBlockType n rs).type = BlockType.TurnStraight ∨
      (chooseBlockType n rs).type = BlockType.TurnLeft ∨
      (chooseBlockType n rs).type = BlockType.TurnRight) ↔ (n > 0 ∧ n.tmod 20 = 0) := by
  unfold chooseBlockType
  by_cases h : n > 0 ∧ n.tmod 20 = 0
  · simp only [h, and_self, if_true, iff_true]
    split_ifs <;> simp
  · simp only [h, if_false, iff_false]
    split_ifs <;> simp

theorem chooseBlockType_normal (n : Int) (rs : Nat) (h : ¬ (n > 0 ∧ n.tmod 20 = 0)) :
    (chooseBlockType n rs).type = BlockType.Normal := by
  unfold chooseBlockType
  simp only [h, if_false]
  split_ifs <;> rfl

theorem chooseBlockType_obstacle (n : Int) (rs : Nat) :
    (chooseBlockType n rs).shouldHaveObstacle = true ↔
      (n ≥ 5 ∧ n.tmod 4 = 1 ∧ n.tmod 20 ≠ 1) := by
  unfold chooseBlockType
  by_cases h : n > 0 ∧ n.tmod 20 = 0
  · have h0 : (0 : Int) ≤ n := le_of_lt h.1
    have h20 := h.2
    rw [Int.tmod_eq_emod h0 (by norm_num)] at h20
    have h4 : ¬ (n.tmod 4 = 1) := by
      rw [Int.tmod_eq_emod h0 (by norm_num)]
      omega
    simp only [h, and_self, if_true]
    split_ifs <;> simp [h4]
  · simp only [h, if_false]
    split_ifs with h2
    · simpa using h2
    · simpa using h2

theorem generateNextBlock_blocks (T : Trig) (g : Game) :
    (generateNextBlock T g).gBlocks = g.gBlocks ++ [(buildBlock T g).block] := rfl

theorem generateNextBlock_index (T : Trig) (g : Game) :
    (generateNextBlock T g).gNextBlockIndex = g.gNextBlockIndex + 1 := rfl

theorem iterate_index (T : Trig) (m : Nat) (g : Game) :
    ((generateNextBlock T)^[m] g).gNextBlockIndex = g.gNextBlockIndex + m := by
  induction m with
  | zero => simp
  | succ k ih =>
    rw [Function.iterate_succ_apply', generateNextBlock_index, ih]
    push_cast
    ring

theorem iterate_blocks (T : Trig) (m : Nat) (g : Game) :
    ((generateNextBlock T)^[m] g).gBlocks =
      g.gBlocks ++ (List.range m).map
        (fun k => (buildBlock T ((generateNextBlock T)^[k] g)).block) := by
  induction m with
  | zero => simp
  | succ k ih =>
    rw [Function.iterate_succ_apply', generateNextBlock_blocks, ih, List.range_succ,
      List.map_append, List.append_assoc]
    rfl

theorem resetAll_length (T : Trig) (g : Game) : (ResetAll T g).gBlocks.length = 50 := by
  unfold ResetAll
  rw [iterate_blocks]
  have h : (resetGlobals g).gBlocks = [] := rfl
  rw [h, List.nil_append, List.length_map, List.length_range]

theorem resetAll_getElem (T : Trig) (g : Game) (k : Nat) (hk : k < 50) :
    (ResetAll T g).gBlocks[k]? =
      some (buildBlock T ((generateNextBlock T)^[k] (resetGlobals g))).block := by
  unfold ResetAll
  rw [iterate_blocks]
  have h : (resetGlobals g).gBlocks = [] := rfl
  rw [h, List.nil_append, List.getElem?_map, List.getElem?_range hk]
  rfl

theorem reset_iterate_index (T : Trig) (g : Game) (k : Nat) :
    ((generateNextBlock T)^[k] (resetGlobals g)).gNextBlockIndex = k := by
  rw [iterate_index]
  have h : (resetGlobals g).gNextBlockIndex = 0 := rfl
  rw [h, zero_add]

/-- C2. Generator topology: the block that `generateNextBlock` appends at index `n`
(for any RNG state and any other globals) is a turn block exactly when `n > 0` and
`n % 20 == 0`, and is `Normal` otherwise. -/
theorem C2_generator_topology (T : Trig) (g : Game) :
    ∃ b : Block, (generateNextBlock T g).gBlocks = g.gBlocks ++ [b] ∧
      b.blockIndex = g.gNextBlockIndex ∧
      ((b.type = BlockType.TurnStraight ∨ b.type = BlockType.TurnLeft ∨
          b.type = BlockType.TurnRight) ↔
        (g.gNextBlockIndex > 0 ∧ g.gNextBlockIndex.tmod 20 = 0)) ∧
      (¬ (g.gNextBlockIndex > 0 ∧ g.gNextBlockIndex.tmod 20 = 0) →
        b.type = BlockType.Normal) := by
  refine ⟨(buildBlock T g).block, rfl, buildBlock_index T g, ?_, ?_⟩
  · rw [buildBlock_type]
    exact chooseBlockType_turn _ _
  · intro h
    rw [buildBlock_type]
    exact chooseBlockType_normal _ _ h

/-- C3. Obstacle placement: the block appended at index `n` has an obstacle exactly
when `n >= 5`, `n % 4 == 1` and `n % 20 != 1`; its obstacle is then a `JumpWall` or a
`SlideGate` with `hit = false`. Among the 50 blocks that `ResetAll` generates, block 5
carries an obstacle and block 21 does not. -/
theorem C3_obstacle_placement (T : Trig) (g : Game) :
    (∃ b : Block, (generateNextBlock T g).gBlocks = g.gBlocks ++ [b] ∧
      b.blockIndex = g.gNextBlockIndex ∧
      (b.hasObstacle = true ↔
        (g.gNextBlockIndex ≥ 5 ∧ g.gNextBlockIndex.tmod 4 = 1 ∧
          g.gNextBlockIndex.tmod 20 ≠ 1)) ∧
      (b.hasObstacle = true →
        (b.obstacle.type = ObsType.JumpWall ∨ b.obstacle.type = ObsType.SlideGate) ∧
        b.obstacle.type ≠ ObsType.None ∧ b.obstacle.hit = false)) ∧
    (∃ b5 b21 : Block, (ResetAll T g).gBlocks.length = 50 ∧
      (ResetAll T g).gBlocks[5]? = some b5 ∧ b5.blockIndex = 5 ∧ b5.hasObstacle = true ∧
      (ResetAll T g).gBlocks[21]? = some b21 ∧ b21.blockIndex = 21 ∧
      b21.hasObstacle = false) := by
  constructor
  · refine ⟨(buildBlock T g).block, rfl, buildBlock_index T g, ?_, ?_⟩
    · rw [buildBlock_hasObstacle]
      exact chooseBlockType_obstacle _ _
    · intro h
      have := buildBlock_obstacle T g h
      refine ⟨this.1, ?_, this.2⟩
      rcases this.1 with h1 | h1 <;> rw [h1] <;> decide
  · refine ⟨(buildBlock T ((generateNextBlock T)^[5] (resetGlobals g))).block,
      (buildBlock T ((generateNextBlock T)^[21] (resetGlobals g))).block,
      resetAll_length T g, resetAll_getElem T g 5 (by norm_num), ?_, ?_,
      resetAll_getElem T g 21 (by norm_num), ?_, ?_⟩
    · rw [buildBlock_index, reset_iterate_index]; rfl
    · rw [buildBlock_hasObstacle, chooseBlockType_obstacle, reset_iterate_index]
      decide
    · rw [buildBlock_index, reset_iterate_index]; rfl
    · have h := chooseBlockType_obstacle
        ((generateNextBlock T)^[21] (resetGlobals g)).gNextBlockIndex
        ((generateNextBlock T)^[21] (resetGlobals g)).gRandState
      rw [buildBlock_hasObstacle]
      rw [reset_iterate_index] at h
      rw [reset_iterate_index]
      cases hb : (chooseBlockType ((21 : Nat) : Int)
        ((generateNextBlock T)^[21] (resetGlobals g)).gRandState).shouldHaveObstacle
      · rfl
      · exfalso
        have h2 := h.mp hb
        revert h2
        decide


/-! ## Lemmas on the window -/

theorem consecutiveFrom_cons_iff (s : Int) (b : Block) (rest : List Block) :
    consecutiveFrom s (b :: rest) ↔ (b.blockIndex = s ∧ consecutiveFrom (s + 1) rest) := by
  constructor
  · intro h
    cases h with
    | cons _ _ _ h1 h2 => exact ⟨h1, h2⟩
  · rintro ⟨h1, h2⟩
    exact consecutiveFrom.cons s b rest h1 h2

theorem consecutiveFrom_append (s : Int) (l : List Block) (b : Block) :
    consecutiveFrom s (l ++ [b]) ↔ consecutiveFrom s l ∧ b.blockIndex = s + l.length := by
  induction l generalizing s with
  | nil =>
    rw [List.nil_append, consecutiveFrom_cons_iff]
    simp only [List.length_nil, Nat.cast_zero, add_zero]
    constructor
    · rintro ⟨h1, _⟩
      exact ⟨consecutiveFrom.nil s, h1⟩
    · rintro ⟨_, h1⟩
      exact ⟨h1, consecutiveFrom.nil _⟩
  | cons a rest ih =>
    rw [List.cons_append, consecutiveFrom_cons_iff, consecutiveFrom_cons_iff, ih,
      List.length_cons]
    push_cast
    constructor
    · rintro ⟨h1, h2, h3⟩
      exact ⟨⟨h1, h2⟩, by rw [h3]; ring⟩
    · rintro ⟨⟨h1, h2⟩, h3⟩
      exact ⟨h1, h2, by rw [h3]; ring⟩

theorem consecutiveFrom_map (s : Int) (l : List Block) (h : consecutiveFrom s l) :
    l.map Block.blockIndex = (List.range l.length).map (fun i : Nat => s + (i : Int)) := by
  induction l generalizing s with
  | nil => simp
  | cons a rest ih =>
    obtain ⟨h1, h2⟩ := (consecutiveFrom_cons_iff s a rest).mp h
    rw [List.length_cons, List.range_succ_eq_map, List.map_cons, List.map_cons, List.map_map,
      ih (s + 1) h2, h1]
    simp only [Nat.cast_zero, add_zero, List.cons.injEq, true_and]
    apply List.map_congr_left
    intro i _
    simp only [Function.comp_apply, Nat.cast_succ]
    ring

/-- The window invariant: the indices in `gBlocks` are consecutive and end at
`gNextBlockIndex - 1`. -/
theorem windowInv_generate (T : Trig) (g : Game)
    (h : consecutiveFrom (g.gNextBlockIndex - g.gBlocks.length) g.gBlocks) :
    consecutiveFrom ((generateNextBlock T g).gNextBlockIndex -
      (generateNextBlock T g).gBlocks.length) (generateNextBlock T g).gBlocks := by
  rw [generateNextBlock_blocks, generateNextBlock_index, consecutiveFrom_append,
    buildBlock_index, List.length_append, List.length_singleton]
  push_cast
  have e : g.gNextBlockIndex + 1 - ((g.gBlocks.length : Int) + 1) =
      g.gNextBlockIndex - g.gBlocks.length := by ring
  rw [e]
  exact ⟨h, by ring⟩

theorem windowInv_iterate (T : Trig) (m : Nat) (g : Game)
    (h : consecutiveFrom (g.gNextBlockIndex - g.gBlocks.length) g.gBlocks) :
    consecutiveFrom (((generateNextBlock T)^[m] g).gNextBlockIndex -
      ((generateNextBlock T)^[m] g).gBlocks.length) ((generateNextBlock T)^[m] g).gBlocks := by
  induction m with
  | zero => simpa using h
  | succ k ih =>
    rw [Function.iterate_succ_apply']
    exact windowInv_generate T _ ih

theorem iterate_length (T : Trig) (m : Nat) (g : Game) :
    ((generateNextBlock T)^[m] g).gBlocks.length = g.gBlocks.length + m := by
  rw [iterate_blocks, List.length_append, List.length_map, List.length_range]

theorem generateAhead_iterate (T : Trig) (p : Int) (fuel : Nat) (g : Game)
    (hf : (p + 50 - g.gNextBlockIndex).toNat ≤ fuel) :
    generateAhead T p fuel g =
      (generateNextBlock T)^[(p + 50 - g.gNextBlockIndex).toNat] g := by
  induction fuel generalizing g with
  | zero =>
    have h0 : (p + 50 - g.gNextBlockIndex).toNat = 0 := Nat.le_zero.mp hf
    rw [h0]
    rfl
  | succ k ih =>
    unfold generateAhead
    by_cases hlt : g.gNextBlockIndex < p + 50
    · rw [if_pos hlt]
      have h1 : (p + 50 - g.gNextBlockIndex).toNat =
          (p + 50 - (generateNextBlock T g).gNextBlockIndex).toNat + 1 := by
        rw [generateNextBlock_index]
        omega
      rw [ih (generateNextBlock T g) (by omega), h1, Function.iterate_succ_apply]
    · rw [if_neg hlt]
      have h0 : (p + 50 - g.gNextBlockIndex).toNat = 0 := by omega
      rw [h0]
      rfl

theorem evictStale_spec (p : Int) (l : List Block) (s : Int) (h : consecutiveFrom s l) :
    ∃ k : Nat, evictStale p l = l.drop k ∧ k ≤ l.length ∧
      consecutiveFrom (s + k) (evictStale p l) ∧
      (l.length ≤ 60 → k = 0) ∧
      (60 < l.length → 60 ≤ (evictStale p l).length) ∧
      (60 < (evictStale p l).length → p - 10 ≤ s + k) := by
  induction l generalizing s with
  | nil =>
    refine ⟨0, rfl, le_refl _, ?_, ?_, ?_, ?_⟩
    · exact consecutiveFrom.nil _
    · intro _; rfl
    · intro h; simp at h
    · intro h; simp [evictStale] at h
  | cons b rest ih =>
    obtain ⟨hb, hrest⟩ := (consecutiveFrom_cons_iff s b rest).mp h
    unfold evictStale
    by_cases hlen : (b :: rest).length > 60
    · rw [if_pos hlen]
      by_cases hidx : b.blockIndex < p - 10
      · rw [if_pos hidx]
        obtain ⟨k, hk1, hk2, hk3, hk4, hk5, hk6⟩ := ih (s + 1) hrest
        refine ⟨k + 1, by simpa using hk1, by simpa using hk2, ?_, ?_, ?_, ?_⟩
        · have e : s + ((k + 1 : Nat) : Int) = s + 1 + k := by push_cast; ring
          rw [e]; exact hk3
        · intro h; simp only [List.length_cons] at h hlen; omega
        · intro _
          by_cases hr : 60 < rest.length
          · exact hk5 hr
          · have hk0 := hk4 (by omega)
            rw [hk1, hk0, List.drop_zero]
            simp only [List.length_cons] at hlen
            omega
        · intro h
          have := hk6 h
          push_cast
          omega
      · rw [if_neg hidx]
        refine ⟨0, by simp, by simp, ?_, ?_, ?_, ?_⟩
        · simpa using h
        · intro h; omega
        · intro _; omega
        · intro _; rw [hb] at hidx; simp only [Nat.cast_zero, add_zero]; omega
    · rw [if_neg hlen]
      refine ⟨0, by simp, by simp, ?_, ?_, ?_, ?_⟩
      · simpa using h
      · intro _; rfl
      · intro h; omega
      · intro h; omega
theorem updateBlockGeneration_eq (T : Trig) (g : Game) :
    updateBlockGeneration T g =
      { (generateNextBlock T)^[(findPlayerBlock g.player.pos g.gBlocks + 50 -
            g.gNextBlockIndex).toNat] g with
        gBlocks := evictStale (findPlayerBlock g.player.pos g.gBlocks)
          ((generateNextBlock T)^[(findPlayerBlock g.player.pos g.gBlocks + 50 -
            g.gNextBlockIndex).toNat] g).gBlocks } := by
  unfold updateBlockGeneration
  simp only
  rw [generateAhead_iterate T _ _ g (le_refl _)]

theorem windowInv_update (T : Trig) (g : Game)
    (h : consecutiveFrom (g.gNextBlockIndex - g.gBlocks.length) g.gBlocks) :
    consecutiveFrom ((updateBlockGeneration T g).gNextBlockIndex -
      (updateBlockGeneration T g).gBlocks.length) (updateBlockGeneration T g).gBlocks := by
  rw [updateBlockGeneration_eq]
  simp only
  have h1 := windowInv_iterate T
    (findPlayerBlock g.player.pos g.gBlocks + 50 - g.gNextBlockIndex).toNat g h
  obtain ⟨k, hk1, hk2, hk3, -⟩ := evictStale_spec (findPlayerBlock g.player.pos g.gBlocks) _ _ h1
  have hl : (evictStale (findPlayerBlock g.player.pos g.gBlocks)
      ((generateNextBlock T)^[(findPlayerBlock g.player.pos g.gBlocks + 50 -
        g.gNextBlockIndex).toNat] g).gBlocks).length =
      ((generateNextBlock T)^[(findPlayerBlock g.player.pos g.gBlocks + 50 -
        g.gNextBlockIndex).toNat] g).gBlocks.length - k := by
    rw [hk1, List.length_drop]
  rw [hl]
  have e : ∀ (n : Int) (a : Nat), k ≤ a → n - ((a - k : Nat) : Int) = n - a + k := by
    intro n a ha
    omega
  rw [e _ _ hk2]
  exact hk3

theorem reachableGen_consecutive (T : Trig) (g : Game) (h : ReachableGen T g) :
    consecutiveFrom (g.gNextBlockIndex - g.gBlocks.length) g.gBlocks := by
  induction h with
  | reset g0 => exact consecutiveFrom.nil _
  | generate g _ ih => exact windowInv_generate T g ih
  | update g p _ ih => exact windowInv_update T { g with player := p } ih

theorem updateBlockGeneration_drop (T : Trig) (g : Game) :
    ∃ (new : List Block) (k : Nat),
      (updateBlockGeneration T g).gBlocks = (g.gBlocks ++ new).drop k := by
  rw [updateBlockGeneration_eq]
  simp only
  have hd : ∀ (p : Int) (l : List Block), ∃ k : Nat, evictStale p l = l.drop k := by
    intro p l
    induction l with
    | nil => exact ⟨0, rfl⟩
    | cons b rest ih =>
      unfold evictStale
      split_ifs
      · obtain ⟨k, hk⟩ := ih
        exact ⟨k + 1, by simpa using hk⟩
      · exact ⟨0, rfl⟩
      · exact ⟨0, rfl⟩
  obtain ⟨k, hk⟩ := hd (findPlayerBlock g.player.pos g.gBlocks)
    ((generateNextBlock T)^[(findPlayerBlock g.player.pos g.gBlocks + 50 -
      g.gNextBlockIndex).toNat] g).gBlocks
  rw [hk, iterate_blocks]
  exact ⟨_, k, rfl⟩

/-- C7. Index invariant: a call of `generateNextBlock` in any state `a` appends exactly
one block, whose `blockIndex` is the former `gNextBlockIndex`, and increases
`gNextBlockIndex` by 1; a call of `updateBlockGeneration` leaves a list obtained from
the old blocks followed by new ones by dropping a front segment; and in every state
`g` reachable from the reset state by these two calls the block indices read front to
back are the consecutive integers ending at `gNextBlockIndex - 1`. -/
theorem C7_index_invariant (T : Trig) (a g : Game) (h : ReachableGen T g) :
    (∃ b : Block, (generateNextBlock T a).gBlocks = a.gBlocks ++ [b] ∧
      b.blockIndex = a.gNextBlockIndex ∧
      (generateNextBlock T a).gNextBlockIndex = a.gNextBlockIndex + 1) ∧
    (∃ (new : List Block) (k : Nat),
      (updateBlockGeneration T a).gBlocks = (a.gBlocks ++ new).drop k) ∧
    g.gBlocks.map Block.blockIndex =
      (List.range g.gBlocks.length).map
        (fun i : Nat => g.gNextBlockIndex - g.gBlocks.length + (i : Int)) :=
  ⟨⟨(buildBlock T a).block, rfl, buildBlock_index T a, rfl⟩,
    updateBlockGeneration_drop T a,
    consecutiveFrom_map _ _ (reachableGen_consecutive T g h)⟩

theorem consecutiveFrom_head (s : Int) (l : List Block) (h : consecutiveFrom s l)
    (hl : 0 < l.length) : ∃ b : Block, l.head? = some b ∧ b.blockIndex = s := by
  cases l with
  | nil => simp at hl
  | cons b rest => exact ⟨b, rfl, ((consecutiveFrom_cons_iff s b rest).mp h).1⟩

theorem update_window (T : Trig) (g : Game)
    (hc : consecutiveFrom (g.gNextBlockIndex - g.gBlocks.length) g.gBlocks)
    (h50 : 50 ≤ g.gBlocks.length) (h60 : g.gBlocks.length ≤ 60) :
    (50 ≤ (updateBlockGeneration T g).gBlocks.length ∧
      (updateBlockGeneration T g).gBlocks.length ≤ 60) ∧
    (∃ b : Block, (updateBlockGeneration T g).gBlocks.head? = some b ∧
      b.blockIndex ≥ findPlayerBlock g.player.pos g.gBlocks - 10) ∧
    (updateBlockGeneration T g).gNextBlockIndex ≥
      findPlayerBlock g.player.pos g.gBlocks + 50 := by
  rw [updateBlockGeneration_eq]
  simp only
  generalize findPlayerBlock g.player.pos g.gBlocks = p
  have h1 := windowInv_iterate T (p + 50 - g.gNextBlockIndex).toNat g hc
  have hn := iterate_index T (p + 50 - g.gNextBlockIndex).toNat g
  have hlen := iterate_length T (p + 50 - g.gNextBlockIndex).toNat g
  generalize (generateNextBlock T)^[(p + 50 - g.gNextBlockIndex).toNat] g = g1 at h1 hn hlen
  obtain ⟨k, hk1, hk2, hk3, hk4, hk5, hk6⟩ := evictStale_spec p g1.gBlocks _ h1
  have hl : (evictStale p g1.gBlocks).length = g1.gBlocks.length - k := by
    rw [hk1, List.length_drop]
  have hsize : 50 ≤ (evictStale p g1.gBlocks).length ∧
      (evictStale p g1.gBlocks).length ≤ 60 := by
    by_cases hb : g1.gBlocks.length ≤ 60
    · have := hk4 hb
      omega
    · have h5 := hk5 (by omega)
      refine ⟨by omega, ?_⟩
      by_contra hgt
      have h6 := hk6 (by omega)
      omega
  refine ⟨hsize, ?_, by omega⟩
  obtain ⟨b, hb1, hb2⟩ := consecutiveFrom_head _ _ hk3 (by omega)
  exact ⟨b, hb1, by omega⟩

theorem resetAll_consecutive (T : Trig) (g0 : Game) :
    consecutiveFrom ((ResetAll T g0).gNextBlockIndex - (ResetAll T g0).gBlocks.length)
      (ResetAll T g0).gBlocks := by
  have h0 : consecutiveFrom ((resetGlobals g0).gNextBlockIndex -
      (resetGlobals g0).gBlocks.length) (resetGlobals g0).gBlocks := by
    exact consecutiveFrom.nil _
  have h := windowInv_iterate T 50 (resetGlobals g0) h0
  unfold ResetAll
  exact h

theorem reachableWindow_inv (T : Trig) (g : Game) (h : ReachableWindow T g) :
    consecutiveFrom (g.gNextBlockIndex - g.gBlocks.length) g.gBlocks ∧
      50 ≤ g.gBlocks.length ∧ g.gBlocks.length ≤ 60 := by
  induction h with
  | init g0 =>
    have hl := resetAll_length T g0
    exact ⟨resetAll_consecutive T g0, by omega, by omega⟩
  | update g p _ ih =>
    obtain ⟨hc, h50, h60⟩ := ih
    have hw := update_window T { g with player := p } hc h50 h60
    exact ⟨windowInv_update T { g with player := p } hc, hw.1.1, hw.1.2⟩

/-- C1. Window bound: in every state `g` reachable from the initial state (50 blocks
generated from index 0) by calls of `updateBlockGeneration` with arbitrary players, a
further call with any player `p` ends its generation loop with
`gNextBlockIndex >= playerBlockIndex + 50` and leaves at most 60 blocks, the front
block having `blockIndex >= playerBlockIndex - 10`, where `playerBlockIndex` is the
index found in that call (first block within `Block.SIZE` horizontally, else `-1`). -/
theorem C1_window_bound (T : Trig) (g : Game) (h : ReachableWindow T g) (p : Player) :
    (updateBlockGeneration T { g with player := p }).gBlocks.length ≤ 60 ∧
    (∃ b : Block,
      (updateBlockGeneration T { g with player := p }).gBlocks.head? = some b ∧
      b.blockIndex ≥ findPlayerBlock p.pos g.gBlocks - 10) ∧
    (updateBlockGeneration T { g with player := p }).gNextBlockIndex ≥
      findPlayerBlock p.pos g.gBlocks + 50 := by
  obtain ⟨hc, h50, h60⟩ := reachableWindow_inv T g h
  have hw := update_window T { g with player := p } hc h50 h60
  exact ⟨hw.1.2, hw.2.1, hw.2.2⟩

/-- Witness of C1: the initial state after `ResetAll`, with the player standing
on the centre of block 49. -/
theorem C1_window_bound_witness :
    (updateBlockGeneration axisTrig
      { ResetAll axisTrig initialGame with
        player := { pos := ⟨-145, 0, -100⟩ } }).gBlocks.length ≤ 60 ∧
    (∃ b : Block,
      (updateBlockGeneration axisTrig
        { ResetAll axisTrig initialGame with
          player := { pos := ⟨-145, 0, -100⟩ } }).gBlocks.head? = some b ∧
      b.blockIndex ≥
        findPlayerBlock (⟨-145, 0, -100⟩ : Vec3) (ResetAll axisTrig initialGame).gBlocks - 10) ∧
    (updateBlockGeneration axisTrig
      { ResetAll axisTrig initialGame with
        player := { pos := ⟨-145, 0, -100⟩ } }).gNextBlockIndex ≥
      findPlayerBlock (⟨-145, 0, -100⟩ : Vec3) (ResetAll axisTrig initialGame).gBlocks + 50 :=
  C1_window_bound axisTrig (ResetAll axisTrig initialGame)
    (ReachableWindow.init initialGame) { pos := ⟨-145, 0, -100⟩ }

/-- Witness of C7: the state after `ResetAll` followed by one call of
`updateBlockGeneration` with the default player. -/
theorem C7_index_invariant_witness :
    ReachableGen axisTrig
      (updateBlockGeneration axisTrig
        { (generateNextBlock axisTrig (resetGlobals initialGame)) with player := {} }) ∧
    (updateBlockGeneration axisTrig
        { (generateNextBlock axisTrig (resetGlobals initialGame)) with
          player := {} }).gBlocks.map Block.blockIndex =
      (List.range (updateBlockGeneration axisTrig
        { (generateNextBlock axisTrig (resetGlobals initialGame)) with
          player := {} }).gBlocks.length).map
        (fun i : Nat =>
          (updateBlockGeneration axisTrig
            { (generateNextBlock axisTrig (resetGlobals initialGame)) with
              player := {} }).gNextBlockIndex -
          (updateBlockGeneration axisTrig
            { (generateNextBlock axisTrig (resetGlobals initialGame)) with
              player := {} }).gBlocks.length + (i : Int)) :=
  ⟨ReachableGen.update _ _ (ReachableGen.generate _ (ReachableGen.reset initialGame)),
    (C7_index_invariant axisTrig initialGame _
      (ReachableGen.update _ _ (ReachableGen.generate _ (ReachableGen.reset initialGame)))).2.2⟩

/-! ## Determinism of the generator -/

/-- Two states agree on what the generator reads, the coin flags excepted. -/
theorem buildBlock_congr (T : Trig) (a b : Game)
    (h1 : a.gRandState = b.gRandState) (h2 : a.gNextBlockIndex = b.gNextBlockIndex)
    (h3 : a.gNextBlockCenter = b.gNextBlockCenter)
    (h4 : a.gCurrentBuildYaw = b.gCurrentBuildYaw)
    (h5 : a.gCoinOnLeftSide = b.gCoinOnLeftSide)
    (h6 : a.gCoinSwitchAtBlock4 = b.gCoinSwitchAtBlock4) :
    buildBlock T a = buildBlock T b := by
  unfold buildBlock
  rw [h1, h2, h3, h4, h5, h6]

theorem placeCoins_outside (T : Trig) (b : Block) (n : Int) (y : ℚ) (rs : Nat) (l s : Bool)
    (h : ¬ (n.tmod 10 ≥ 2 ∧ n.tmod 10 ≤ 6)) :
    placeCoins T b n y rs l s = ⟨b, rs, l, s⟩ := by
  unfold placeCoins
  simp only [h, if_false]

theorem placeCoins_start (T : Trig) (b : Block) (n : Int) (y : ℚ) (rs : Nat)
    (l s l2 s2 : Bool) (h : n.tmod 10 = 2) :
    placeCoins T b n y rs l s = placeCoins T b n y rs l2 s2 := by
  unfold placeCoins
  simp [h]

theorem buildBlock_congr_outside (T : Trig) (a b : Game)
    (h1 : a.gRandState = b.gRandState) (h2 : a.gNextBlockIndex = b.gNextBlockIndex)
    (h3 : a.gNextBlockCenter = b.gNextBlockCenter)
    (h4 : a.gCurrentBuildYaw = b.gCurrentBuildYaw)
    (h : ¬ (a.gNextBlockIndex.tmod 10 ≥ 2 ∧ a.gNextBlockIndex.tmod 10 ≤ 6)) :
    (buildBlock T a).block = (buildBlock T b).block ∧
      (buildBlock T a).rand = (buildBlock T b).rand := by
  unfold buildBlock
  simp only
  rw [placeCoins_outside _ _ _ _ _ _ _ h, ← h2, placeCoins_outside _ _ _ _ _ _ _ h,
    h1, h3, h4]
  exact ⟨rfl, rfl⟩

theorem buildBlock_congr_start (T : Trig) (a b : Game)
    (h1 : a.gRandState = b.gRandState) (h2 : a.gNextBlockIndex = b.gNextBlockIndex)
    (h3 : a.gNextBlockCenter = b.gNextBlockCenter)
    (h4 : a.gCurrentBuildYaw = b.gCurrentBuildYaw)
    (h : a.gNextBlockIndex.tmod 10 = 2) :
    buildBlock T a = buildBlock T b := by
  unfold buildBlock
  simp only
  rw [placeCoins_start T _ _ _ _ a.gCoinOnLeftSide a.gCoinSwitchAtBlock4
    b.gCoinOnLeftSide b.gCoinSwitchAtBlock4 h, h1, h2, h3, h4]

/-- The generator state after a call, in terms of `buildBlock` and the cursor. -/
theorem generateNextBlock_cursor (T : Trig) (a b : Game)
    (hb : (buildBlock T a).block = (buildBlock T b).block)
    (h3 : a.gNextBlockCenter = b.gNextBlockCenter)
    (h4 : a.gCurrentBuildYaw = b.gCurrentBuildYaw) :
    (generateNextBlock T a).gNextBlockCenter = (generateNextBlock T b).gNextBlockCenter ∧
    (generateNextBlock T a).gCurrentBuildYaw = (generateNextBlock T b).gCurrentBuildYaw := by
  unfold generateNextBlock
  simp only
  rw [hb, h3, h4]
  exact ⟨rfl, rfl⟩

theorem reset_iterate_agree (T : Trig) (g1 g2 : Game) (k : Nat) :
    ((generateNextBlock T)^[k] (resetGlobals g1)).gRandState =
      ((generateNextBlock T)^[k] (resetGlobals g2)).gRandState ∧
    ((generateNextBlock T)^[k] (resetGlobals g1)).gBlocks =
      ((generateNextBlock T)^[k] (resetGlobals g2)).gBlocks ∧
    ((generateNextBlock T)^[k] (resetGlobals g1)).gNextBlockCenter =
      ((generateNextBlock T)^[k] (resetGlobals g2)).gNextBlockCenter ∧
    ((generateNextBlock T)^[k] (resetGlobals g1)).gCurrentBuildYaw =
      ((generateNextBlock T)^[k] (resetGlobals g2)).gCurrentBuildYaw ∧
    (3 ≤ k →
      ((generateNextBlock T)^[k] (resetGlobals g1)).gCoinOnLeftSide =
        ((generateNextBlock T)^[k] (resetGlobals g2)).gCoinOnLeftSide ∧
      ((generateNextBlock T)^[k] (resetGlobals g1)).gCoinSwitchAtBlock4 =
        ((generateNextBlock T)^[k] (resetGlobals g2)).gCoinSwitchAtBlock4) := by
  induction k with
  | zero => exact ⟨rfl, rfl, rfl, rfl, by intro h; omega⟩
  | succ k ih =>
    obtain ⟨h1, hbl, h3, h4, h5⟩ := ih
    have hi1 := reset_iterate_index T g1 k
    have hi2 := reset_iterate_index T g2 k
    rw [Function.iterate_succ_apply', Function.iterate_succ_apply']
    generalize (generateNextBlock T)^[k] (resetGlobals g1) = a at *
    generalize (generateNextBlock T)^[k] (resetGlobals g2) = b at *
    have h2 : a.gNextBlockIndex = b.gNextBlockIndex := by rw [hi1, hi2]
    have key : (buildBlock T a).block = (buildBlock T b).block ∧
        (buildBlock T a).rand = (buildBlock T b).rand ∧
        (3 ≤ k + 1 → (buildBlock T a).coinOnLeft = (buildBlock T b).coinOnLeft ∧
          (buildBlock T a).coinSwitch = (buildBlock T b).coinSwitch) := by
      by_cases hk : 3 ≤ k
      · obtain ⟨h5a, h5b⟩ := h5 hk
        have e := buildBlock_congr T a b h1 h2 h3 h4 h5a h5b
        rw [e]
        exact ⟨rfl, rfl, fun _ => ⟨rfl, rfl⟩⟩
      · by_cases hk2 : k = 2
        · have hm : a.gNextBlockIndex.tmod 10 = 2 := by rw [hi1, hk2]; rfl
          have e := buildBlock_congr_start T a b h1 h2 h3 h4 hm
          rw [e]
          exact ⟨rfl, rfl, fun _ => ⟨rfl, rfl⟩⟩
        · have hm : ¬ (a.gNextBlockIndex.tmod 10 ≥ 2 ∧ a.gNextBlockIndex.tmod 10 ≤ 6) := by
            rw [hi1]
            have hk01 : k = 0 ∨ k = 1 := by omega
            rcases hk01 with h | h <;> rw [h] <;> decide
          obtain ⟨e1, e2⟩ := buildBlock_congr_outside T a b h1 h2 h3 h4 hm
          exact ⟨e1, e2, fun h => by omega⟩
    obtain ⟨kb, kr, kf⟩ := key
    obtain ⟨c1, c2⟩ := generateNextBlock_cursor T a b kb h3 h4
    refine ⟨kr, ?_, c1, c2, kf⟩
    rw [generateNextBlock_blocks, generateNextBlock_blocks, hbl, kb]

/-- C6. Determinism across resets: for every `n`, the `n` blocks generated by `n`
calls of `generateNextBlock` after the assignments of `ResetAll` are the same list
(index, type, centre, yaw, walls, obstacle, coins) for any two prior states `g1` and
`g2`, in particular whatever `gCoinOnLeftSide`, `gCoinSwitchAtBlock4` and
`gCoinPatternStart` were before the reset; the RNG state and the build cursor agree
as well. -/
theorem C6_determinism_across_resets (T : Trig) (n : Nat) (g1 g2 : Game) :
    ((generateNextBlock T)^[n] (resetGlobals g1)).gBlocks =
      ((generateNextBlock T)^[n] (resetGlobals g2)).gBlocks ∧
    ((generateNextBlock T)^[n] (resetGlobals g1)).gBlocks.length = n ∧
    ((generateNextBlock T)^[n] (resetGlobals g1)).gRandState =
      ((generateNextBlock T)^[n] (resetGlobals g2)).gRandState ∧
    ((generateNextBlock T)^[n] (resetGlobals g1)).gNextBlockIndex =
      ((generateNextBlock T)^[n] (resetGlobals g2)).gNextBlockIndex ∧
    ((generateNextBlock T)^[n] (resetGlobals g1)).gNextBlockCenter =
      ((generateNextBlock T)^[n] (resetGlobals g2)).gNextBlockCenter ∧
    ((generateNextBlock T)^[n] (resetGlobals g1)).gCurrentBuildYaw =
      ((generateNextBlock T)^[n] (resetGlobals g2)).gCurrentBuildYaw := by
  obtain ⟨h1, h2, h3, h4, -⟩ := reset_iterate_agree T g1 g2 n
  refine ⟨h2, ?_, h1, ?_, h3, h4⟩
  · rw [iterate_length]
    have e : (resetGlobals g1).gBlocks = [] := rfl
    rw [e]
    simp
  · rw [reset_iterate_index, reset_iterate_index]

/-! ## Coin collection -/

theorem collectCoins_spec (pmin pmax : Vec3) (l : List Coin) (n : Int) :
    collectCoins pmin pmax l n =
      (l.map (markCoin pmin pmax), n + (l.countP (newlyCollected pmin pmax) : Nat)) := by
  induction l generalizing n with
  | nil => simp [collectCoins]
  | cons c rest ih =>
    unfold collectCoins
    by_cases hc : c.collected = true
    · have hn : newlyCollected pmin pmax c = false := by simp [newlyCollected, hc]
      simp only [hc, if_true, ih, List.map_cons, List.countP_cons, hn, markCoin]
      simp
    · have hc2 : c.collected = false := by simpa using hc
      by_cases ht : AABBIntersect pmin pmax (c.pos - Vec3.splat 0.5) (c.pos + Vec3.splat 0.5)
      · have hn : newlyCollected pmin pmax c = true := by
          simp [newlyCollected, hc2, coinTouched, ht]
        simp only [hc2, ht, if_true, ih, List.map_cons, List.countP_cons, hn, markCoin]
        simp only [Bool.false_eq_true, if_false, Nat.cast_add, Nat.cast_one, Prod.mk.injEq,
          true_and]
        ring
      · have hn : newlyCollected pmin pmax c = false := by
          simp [newlyCollected, hc2, coinTouched, ht]
        simp only [hc2, ht, if_false, ih, List.map_cons, List.countP_cons, hn, markCoin]
        simp

theorem collectBlocks_spec (pmin pmax : Vec3) (l : List Block) (n : Int) :
    collectBlocks pmin pmax l n =
      (l.map (markBlock pmin pmax),
        n + ((allCoins l).countP (newlyCollected pmin pmax) : Nat)) := by
  induction l generalizing n with
  | nil => simp [collectBlocks, allCoins]
  | cons b rest ih =>
    unfold collectBlocks
    simp only [collectCoins_spec, ih, allCoins, List.map_cons, List.flatten_cons,
      List.countP_append, Nat.cast_add, Prod.mk.injEq, markBlock, true_and]
    ring

theorem newlyCollected_markCoin (pmin pmax : Vec3) (c : Coin) :
    newlyCollected pmin pmax (markCoin pmin pmax c) = false := by
  unfold markCoin
  by_cases h : newlyCollected pmin pmax c = true
  · rw [if_pos h]
    simp [newlyCollected]
  · rw [if_neg h]
    simpa using h

theorem markCoin_idem (pmin pmax : Vec3) (c : Coin) :
    markCoin pmin pmax (markCoin pmin pmax c) = markCoin pmin pmax c := by
  have h := newlyCollected_markCoin pmin pmax c
  generalize markCoin pmin pmax c = d at h ⊢
  unfold markCoin
  rw [h]
  simp

theorem markBlock_idem (pmin pmax : Vec3) (b : Block) :
    markBlock pmin pmax (markBlock pmin pmax b) = markBlock pmin pmax b := by
  unfold markBlock
  simp only [List.map_map]
  congr 1
  apply List.map_congr_left
  intro c _
  exact markCoin_idem pmin pmax c

theorem allCoins_map_mark (pmin pmax : Vec3) (l : List Block) :
    allCoins (l.map (markBlock pmin pmax)) = (allCoins l).map (markCoin pmin pmax) := by
  induction l with
  | nil => rfl
  | cons b rest ih =>
    unfold allCoins at ih ⊢
    simp only [List.map_cons, List.flatten_cons, List.map_append, ih, markBlock]

theorem checkCoinCollisions_eq (T : Trig) (g : Game) :
    checkCoinCollisions T g =
      { g with
        gBlocks := g.gBlocks.map (markBlock (g.player.getAABB T).1 (g.player.getAABB T).2)
        gCoinCount := g.gCoinCount + ((allCoins g.gBlocks).countP
          (newlyCollected (g.player.getAABB T).1 (g.player.getAABB T).2) : Nat) } := by
  unfold checkCoinCollisions
  simp only [collectBlocks_spec]

/-- C9. Coin collection is one-way and exactly counted: `checkCoinCollisions` changes
only the `collected` flag of the coins that were not collected and whose radius-0.5
box meets the player's box, setting it to true (so a collected coin stays collected
and no coin moves); `gCoinCount` grows by exactly the number of those coins; the
player and `gHP` are unchanged; and a second run with the same player changes
nothing. -/
theorem C9_coin_collection (T : Trig) (g : Game) :
    (checkCoinCollisions T g).gBlocks =
      g.gBlocks.map (markBlock (g.player.getAABB T).1 (g.player.getAABB T).2) ∧
    (∀ (i : Nat) (c : Coin), (allCoins g.gBlocks)[i]? = some c →
      ∃ c2 : Coin, (allCoins (checkCoinCollisions T g).gBlocks)[i]? = some c2 ∧
        c2.pos = c.pos ∧ (c.collected = true → c2.collected = true) ∧
        ((c.collected = false ∧ c2.collected = true) ↔
          (c.collected = false ∧
            coinTouched (g.player.getAABB T).1 (g.player.getAABB T).2 c))) ∧
    (checkCoinCollisions T g).gCoinCount = g.gCoinCount +
      ((allCoins g.gBlocks).countP
        (newlyCollected (g.player.getAABB T).1 (g.player.getAABB T).2) : Nat) ∧
    (checkCoinCollisions T g).player = g.player ∧
    (checkCoinCollisions T g).gHP = g.gHP ∧
    checkCoinCollisions T (checkCoinCollisions T g) = checkCoinCollisions T g := by
  have hb : (checkCoinCollisions T g).gBlocks =
      g.gBlocks.map (markBlock (g.player.getAABB T).1 (g.player.getAABB T).2) := by
    rw [checkCoinCollisions_eq]
  have hcnt : (checkCoinCollisions T g).gCoinCount = g.gCoinCount +
      ((allCoins g.gBlocks).countP
        (newlyCollected (g.player.getAABB T).1 (g.player.getAABB T).2) : Nat) := by
    rw [checkCoinCollisions_eq]
  have hp : (checkCoinCollisions T g).player = g.player := rfl
  refine ⟨hb, ?_, hcnt, hp, rfl, ?_⟩
  · intro i c hc
    rw [hb, allCoins_map_mark, List.getElem?_map, hc]
    refine ⟨markCoin (g.player.getAABB T).1 (g.player.getAABB T).2 c, rfl, ?_, ?_, ?_⟩
    · unfold markCoin
      split_ifs <;> rfl
    · intro h
      unfold markCoin
      split_ifs
      · rfl
      · exact h
    · unfold markCoin
      by_cases hn : newlyCollected (g.player.getAABB T).1 (g.player.getAABB T).2 c = true
      · have hn2 := hn
        simp only [newlyCollected, Bool.and_eq_true, Bool.not_eq_true', decide_eq_true_eq] at hn2
        simp [hn, hn2.1, hn2.2]
      · have hn2 := hn
        simp only [newlyCollected, Bool.and_eq_true, Bool.not_eq_true', decide_eq_true_eq,
          not_and] at hn2
        simp only [hn, if_false]
        constructor
        · rintro ⟨h1, h2⟩
          simp only [Bool.false_eq_true, if_false] at h2
          rw [h1] at h2
          exact absurd h2 (by decide)
        · rintro ⟨h1, h2⟩
          exact absurd h2 (hn2 h1)
  · rw [checkCoinCollisions_eq T (checkCoinCollisions T g), hp, hb, List.map_map,
      allCoins_map_mark]
    have e1 : (markBlock (g.player.getAABB T).1 (g.player.getAABB T).2 ∘
        markBlock (g.player.getAABB T).1 (g.player.getAABB T).2) =
        markBlock (g.player.getAABB T).1 (g.player.getAABB T).2 := by
      funext b
      exact markBlock_idem _ _ b
    have e2 : ((allCoins g.gBlocks).map
        (markCoin (g.player.getAABB T).1 (g.player.getAABB T).2)).countP
        (newlyCollected (g.player.getAABB T).1 (g.player.getAABB T).2) = 0 := by
      rw [List.countP_eq_zero]
      intro c hc
      obtain ⟨c0, _, rfl⟩ := List.mem_map.mp hc
      rw [newlyCollected_markCoin]
      decide
    rw [e1, e2]
    conv_rhs => rw [checkCoinCollisions_eq]
    simp only [Nat.cast_zero, add_zero]
    rw [checkCoinCollisions_eq]

/-! ## Collisions -/

theorem checkWall_noContact (T : Trig) (w : Wall) (cs : CollState) (hs : cs.synced T)
    (h : ¬ touchesWall T cs.player w) : checkWall T w cs = cs := by
  unfold checkWall
  by_cases hd : w.size.x < 0.1 ∧ w.size.z < 0.1
  · rw [if_pos hd]
  · rw [if_neg hd]
    have hi : ¬ AABBIntersect (cs.player.getAABB T).1 (cs.player.getAABB T).2
        (w.pos - w.size * (0.5 : ℚ)) (w.pos + w.size * (0.5 : ℚ)) := fun hi => h ⟨hd, hi⟩
    simp only [hi, if_false]
    rw [← hs.1, ← hs.2]

theorem checkObstacle_hit (T : Trig) (b : Block) (cs : CollState)
    (h : b.hasObstacle = true → b.obstacle.hit = true) : checkObstacle T b cs = (b, cs) := by
  unfold checkObstacle
  have hc : ¬ (b.hasObstacle = true ∧ b.obstacle.hit = false) := by
    rintro ⟨h1, h2⟩
    rw [h h1] at h2
    exact absurd h2 (by decide)
  rw [if_neg hc]

theorem checkBlock_idle (T : Trig) (b : Block) (cs : CollState) (hs : cs.synced T)
    (hw : noWallContact T cs.player b) (hh : b.hasObstacle = true → b.obstacle.hit = true) :
    checkBlock T b cs = (b, cs) := by
  unfold checkBlock
  simp only
  rw [checkWall_noContact T _ cs hs hw.1, checkWall_noContact T _ cs hs hw.2.1]
  by_cases hf : b.hasFrontWall = true
  · rw [if_pos hf, checkWall_noContact T _ cs hs (hw.2.2 hf)]
    exact checkObstacle_hit T b cs hh
  · rw [if_neg hf]
    exact checkObstacle_hit T b cs hh

theorem checkBlocks_idle (T : Trig) (l : List Block) (cs : CollState) (hs : cs.synced T)
    (hw : ∀ b ∈ l, noWallContact T cs.player b)
    (hh : ∀ b ∈ l, b.hasObstacle = true → b.obstacle.hit = true) :
    checkBlocks T l cs = (l, cs) := by
  induction l with
  | nil => rfl
  | cons b rest ih =>
    unfold checkBlocks
    simp only
    rw [checkBlock_idle T b cs hs (hw b (List.mem_cons_self _ _))
      (hh b (List.mem_cons_self _ _))]
    simp only
    rw [ih (fun c hc => hw c (List.mem_cons_of_mem _ hc))
      (fun c hc => hh c (List.mem_cons_of_mem _ hc))]

theorem checkBlockCollisions_eq (T : Trig) (g : Game) :
    checkBlockCollisions T g =
      { g with
        gBlocks := (checkBlocks T g.gBlocks (CollState.start T g)).1
        player := (checkBlocks T g.gBlocks (CollState.start T g)).2.player
        gHP := (checkBlocks T g.gBlocks (CollState.start T g)).2.gHP
        gGameOver := (checkBlocks T g.gBlocks (CollState.start T g)).2.gGameOver } := rfl

theorem start_synced (T : Trig) (g : Game) : (CollState.start T g).synced T :=
  ⟨rfl, rfl⟩

theorem checkBlockCollisions_idle (T : Trig) (g : Game)
    (hw : ∀ b ∈ g.gBlocks, noWallContact T g.player b)
    (hh : ∀ b ∈ g.gBlocks, b.hasObstacle = true → b.obstacle.hit = true) :
    checkBlockCollisions T g = g := by
  rw [checkBlockCollisions_eq,
    checkBlocks_idle T g.gBlocks (CollState.start T g) (start_synced T g) hw hh]
  rfl

/-- C8. Collision idempotence: the obstacle branch of `checkBlockCollisions` changes
nothing for a block whose obstacle has `hit = true`; and when every obstacle in
`gBlocks` is hit and the player's box meets no wall, any number of
`checkBlockCollisions` passes leaves the whole state, in particular `gHP`,
`gGameOver` and `player.pos`, unchanged. -/
theorem C8_collision_idempotence (T : Trig) (g : Game)
    (hh : ∀ b ∈ g.gBlocks, b.hasObstacle = true → b.obstacle.hit = true)
    (hw : ∀ b ∈ g.gBlocks, noWallContact T g.player b) (k : Nat) :
    (∀ (b : Block) (cs : CollState), b.obstacle.hit = true →
      checkObstacle T b cs = (b, cs)) ∧
    (checkBlockCollisions T)^[k] g = g ∧
    ((checkBlockCollisions T)^[k] g).gHP = g.gHP ∧
    ((checkBlockCollisions T)^[k] g).gGameOver = g.gGameOver ∧
    ((checkBlockCollisions T)^[k] g).player.pos = g.player.pos := by
  have hk : (checkBlockCollisions T)^[k] g = g := by
    induction k with
    | zero => rfl
    | succ n ih => rw [Function.iterate_succ_apply', ih, checkBlockCollisions_idle T g hw hh]
  refine ⟨fun b cs hb => checkObstacle_hit T b cs (fun _ => hb), hk, ?_, ?_, ?_⟩ <;> rw [hk]
theorem Vec3.add_def (a b : Vec3) : a + b = ⟨a.x + b.x, a.y + b.y, a.z + b.z⟩ := rfl

theorem Vec3.sub_def (a b : Vec3) : a - b = ⟨a.x - b.x, a.y - b.y, a.z - b.z⟩ := rfl

theorem Vec3.scale_def (a : Vec3) (s : ℚ) : a * s = ⟨a.x * s, a.y * s, a.z * s⟩ := rfl

theorem noWallContact_atWall (hit : Bool) :
    noWallContact axisTrig playerAtWall (jumpWallBlock hit) := by
  refine ⟨?_, ?_, ?_⟩
  · rintro ⟨h, -⟩
    exact h (by norm_num [jumpWallBlock, Vec3.zero])
  · rintro ⟨h, -⟩
    exact h (by norm_num [jumpWallBlock, Vec3.zero])
  · intro h
    simp [jumpWallBlock] at h

/-- Witness of C8: one block whose `JumpWall` is already hit, the player standing
in its box; three passes change nothing. -/
theorem C8_collision_idempotence_witness :
    (checkBlockCollisions axisTrig)^[3] (gameAtWall true) = gameAtWall true ∧
    ((checkBlockCollisions axisTrig)^[3] (gameAtWall true)).gHP = 1 :=
  ⟨(C8_collision_idempotence axisTrig (gameAtWall true)
      (by
        intro b hb _
        have e : b = jumpWallBlock true := by simpa [gameAtWall] using hb
        rw [e]
        rfl)
      (by
        intro b hb
        have e : b = jumpWallBlock true := by simpa [gameAtWall] using hb
        rw [e]
        exact noWallContact_atWall true) 3).2.1,
   (C8_collision_idempotence axisTrig (gameAtWall true)
      (by
        intro b hb _
        have e : b = jumpWallBlock true := by simpa [gameAtWall] using hb
        rw [e]
        rfl)
      (by
        intro b hb
        have e : b = jumpWallBlock true := by simpa [gameAtWall] using hb
        rw [e]
        exact noWallContact_atWall true) 3).2.2.1⟩

theorem atWall_box :
    (playerAtWall.getAABB axisTrig) = (⟨-0.35, 0, -24.7⟩, ⟨0.35, 1.8, -24.2⟩) := by
  norm_num [Player.getAABB, playerAtWall, Player.halfW, Player.halfD, Player.standH]

theorem jumpWall_box (hit : Bool) :
    (jumpWallBlock hit).obstacle.getAABB = (⟨-2.5, 0, -25.35⟩, ⟨2.5, 0.6, -24.65⟩) := by
  norm_num [Obstacle.getAABB, jumpWallBlock, Vec3.sub_def, Vec3.add_def, Vec3.scale_def]
theorem checkWall_frame (T : Trig) (w : Wall) (cs : CollState) :
    (checkWall T w cs).gHP = cs.gHP ∧ (checkWall T w cs).gGameOver = cs.gGameOver := by
  unfold checkWall
  simp only
  split_ifs <;> exact ⟨rfl, rfl⟩

theorem checkBlock_frame (T : Trig) (b : Block) (cs : CollState)
    (hh : b.hasObstacle = true → b.obstacle.hit = true) :
    (checkBlock T b cs).1 = b ∧ (checkBlock T b cs).2.gHP = cs.gHP ∧
      (checkBlock T b cs).2.gGameOver = cs.gGameOver := by
  unfold checkBlock
  simp only
  rw [checkObstacle_hit T b _ hh]
  refine ⟨rfl, ?_, ?_⟩
  · split_ifs
    · rw [(checkWall_frame T _ _).1, (checkWall_frame T _ _).1, (checkWall_frame T _ _).1]
    · rw [(checkWall_frame T _ _).1, (checkWall_frame T _ _).1]
  · split_ifs
    · rw [(checkWall_frame T _ _).2, (checkWall_frame T _ _).2, (checkWall_frame T _ _).2]
    · rw [(checkWall_frame T _ _).2, (checkWall_frame T _ _).2]

theorem checkBlocks_frame (T : Trig) (l : List Block) (cs : CollState)
    (hh : ∀ b ∈ l, b.hasObstacle = true → b.obstacle.hit = true) :
    (checkBlocks T l cs).1 = l ∧ (checkBlocks T l cs).2.gHP = cs.gHP ∧
      (checkBlocks T l cs).2.gGameOver = cs.gGameOver := by
  induction l generalizing cs with
  | nil => exact ⟨rfl, rfl, rfl⟩
  | cons b rest ih =>
    unfold checkBlocks
    simp only
    obtain ⟨h1, h2, h3⟩ := checkBlock_frame T b cs (hh b (List.mem_cons_self _ _))
    obtain ⟨i1, i2, i3⟩ := ih (checkBlock T b cs).2
      (fun c hc => hh c (List.mem_cons_of_mem _ hc))
    exact ⟨by rw [h1, i1], by rw [i2, h2], by rw [i3, h3]⟩

theorem checkBlockCollisions_frame (T : Trig) (g : Game)
    (hh : ∀ b ∈ g.gBlocks, b.hasObstacle = true → b.obstacle.hit = true) :
    (checkBlockCollisions T g).gBlocks = g.gBlocks ∧
      (checkBlockCollisions T g).gHP = g.gHP ∧
      (checkBlockCollisions T g).gGameOver = g.gGameOver := by
  rw [checkBlockCollisions_eq]
  exact checkBlocks_frame T g.gBlocks (CollState.start T g) hh

theorem checkBlockCollisions_iterate_frame (T : Trig) (g : Game) (k : Nat)
    (hh : ∀ b ∈ g.gBlocks, b.hasObstacle = true → b.obstacle.hit = true) :
    ((checkBlockCollisions T)^[k] g).gBlocks = g.gBlocks ∧
      ((checkBlockCollisions T)^[k] g).gHP = g.gHP ∧
      ((checkBlockCollisions T)^[k] g).gGameOver = g.gGameOver := by
  induction k with
  | zero => exact ⟨rfl, rfl, rfl⟩
  | succ n ih =>
    rw [Function.iterate_succ_apply']
    obtain ⟨i1, i2, i3⟩ := ih
    obtain ⟨h1, h2, h3⟩ := checkBlockCollisions_frame T ((checkBlockCollisions T)^[n] g)
      (by rw [i1]; exact hh)
    exact ⟨by rw [h1, i1], by rw [h2, i2], by rw [h3, i3]⟩

theorem checkObstacle_blocking (T : Trig) (b : Block) (cs : CollState)
    (ho : b.hasObstacle = true) (hhit : b.obstacle.hit = false)
    (hi : AABBIntersect cs.pmin cs.pmax b.obstacle.getAABB.1 b.obstacle.getAABB.2)
    (hsb : shouldBlock b.obstacle cs = true) :
    (checkObstacle T b cs).1 = { b with obstacle := { b.obstacle with hit := true } } ∧
    (checkObstacle T b cs).2.gHP = cs.gHP - 1 ∧
    (checkObstacle T b cs).2.gGameOver = (if cs.gHP - 1 ≤ 0 then true else cs.gGameOver) ∧
    (checkObstacle T b cs).2.player = pushOut b.obstacle.getAABB.1 b.obstacle.getAABB.2 cs := by
  unfold checkObstacle
  simp only [ho, hhit, and_self, if_true, hi, hsb]

theorem shouldBlock_jumpWall_grounded (o : Obstacle) (cs : CollState)
    (ht : o.type = ObsType.JumpWall) (hg : cs.player.onGround = true) :
    shouldBlock o cs = true := by
  unfold shouldBlock
  simp [ht, hg]

/-- C10. Damage and game-over happen exactly once: with `gHP = 1`, `gGameOver = false`
and a single block whose un-hit `JumpWall` box meets the box of a grounded,
non-sliding player that touches no wall, `checkBlockCollisions` yields `gHP = 0`,
`gGameOver = true` and `obstacle.hit = true`; after any number `k` of further passes
`gHP` is still 0 and `gGameOver` still true. The result needs neither
`gGameOver = false` nor that the player is not sliding, so these are not assumed. -/
theorem C10_damage_once (T : Trig) (g : Game) (b : Block) (k : Nat)
    (hb : g.gBlocks = [b]) (hhp : g.gHP = 1)
    (ho : b.hasObstacle = true) (ht : b.obstacle.type = ObsType.JumpWall)
    (hhit : b.obstacle.hit = false)
    (hg : g.player.onGround = true)
    (hi : AABBIntersect (g.player.getAABB T).1 (g.player.getAABB T).2
      b.obstacle.getAABB.1 b.obstacle.getAABB.2)
    (hw : noWallContact T g.player b) :
    (checkBlockCollisions T g).gHP = 0 ∧
    (checkBlockCollisions T g).gGameOver = true ∧
    (checkBlockCollisions T g).gBlocks =
      [{ b with obstacle := { b.obstacle with hit := true } }] ∧
    ((checkBlockCollisions T)^[k] (checkBlockCollisions T g)).gHP = 0 ∧
    ((checkBlockCollisions T)^[k] (checkBlockCollisions T g)).gGameOver = true := by
  have hcb : checkBlock T b (CollState.start T g) =
      checkObstacle T b (CollState.start T g) := by
    unfold checkBlock
    simp only
    rw [checkWall_noContact T _ _ (start_synced T g) hw.1,
      checkWall_noContact T _ _ (start_synced T g) hw.2.1]
    by_cases hf : b.hasFrontWall = true
    · rw [if_pos hf, checkWall_noContact T _ _ (start_synced T g) (hw.2.2 hf)]
    · rw [if_neg hf]
  obtain ⟨o1, o2, o3, -⟩ := checkObstacle_blocking T b (CollState.start T g) ho hhit hi
    (shouldBlock_jumpWall_grounded _ _ ht hg)
  have hcs : checkBlocks T g.gBlocks (CollState.start T g) =
      ([(checkObstacle T b (CollState.start T g)).1],
        (checkObstacle T b (CollState.start T g)).2) := by
    rw [hb]
    unfold checkBlocks
    simp only
    rw [hcb]
    rfl
  have e1 : (checkBlockCollisions T g).gHP = 0 := by
    rw [checkBlockCollisions_eq, hcs]
    show (checkObstacle T b (CollState.start T g)).2.gHP = 0
    rw [o2]
    show g.gHP - 1 = 0
    rw [hhp]
    rfl
  have e2 : (checkBlockCollisions T g).gGameOver = true := by
    rw [checkBlockCollisions_eq, hcs]
    show (checkObstacle T b (CollState.start T g)).2.gGameOver = true
    rw [o3]
    have : (CollState.start T g).gHP - 1 ≤ 0 := by
      show g.gHP - 1 ≤ 0
      rw [hhp]
      decide
    rw [if_pos this]
  have e3 : (checkBlockCollisions T g).gBlocks =
      [{ b with obstacle := { b.obstacle with hit := true } }] := by
    rw [checkBlockCollisions_eq, hcs]
    show [(checkObstacle T b (CollState.start T g)).1] = _
    rw [o1]
  have hall : ∀ c ∈ (checkBlockCollisions T g).gBlocks,
      c.hasObstacle = true → c.obstacle.hit = true := by
    intro c hc _
    rw [e3] at hc
    have e : c = { b with obstacle := { b.obstacle with hit := true } } := by simpa using hc
    rw [e]
  obtain ⟨-, f2, f3⟩ := checkBlockCollisions_iterate_frame T (checkBlockCollisions T g) k hall
  exact ⟨e1, e2, e3, by rw [f2, e1], by rw [f3, e2]⟩

/-- Witness of C10: the default player reaching 0.05 into the un-hit `JumpWall` of
block 5 with `gHP = 1`; two further passes keep `gHP` at 0. -/
theorem C10_damage_once_witness :
    (checkBlockCollisions axisTrig (gameAtWall false)).gHP = 0 ∧
    (checkBlockCollisions axisTrig (gameAtWall false)).gGameOver = true ∧
    (checkBlockCollisions axisTrig (gameAtWall false)).gBlocks = [jumpWallBlock true] ∧
    ((checkBlockCollisions axisTrig)^[2]
      (checkBlockCollisions axisTrig (gameAtWall false))).gHP = 0 ∧
    ((checkBlockCollisions axisTrig)^[2]
      (checkBlockCollisions axisTrig (gameAtWall false))).gGameOver = true :=
  C10_damage_once axisTrig (gameAtWall false) (jumpWallBlock false) 2 rfl rfl rfl rfl rfl rfl
    (by
      have e : (gameAtWall false).player = playerAtWall := rfl
      rw [e, atWall_box, jumpWall_box]
      norm_num [AABBIntersect])
    (noWallContact_atWall false)
theorem atWall_pushOut :
    pushOut (jumpWallBlock false).obstacle.getAABB.1 (jumpWallBlock false).obstacle.getAABB.2
      (CollState.start axisTrig (gameAtWall false)) =
      { playerAtWall with pos := ⟨0, 0, -24.501⟩ } := by
  have e : CollState.start axisTrig (gameAtWall false) =
      { player := playerAtWall, pmin := ⟨-0.35, 0, -24.7⟩, pmax := ⟨0.35, 1.8, -24.2⟩,
        gHP := 1, gGameOver := false } := by
    unfold CollState.start
    have e1 : (gameAtWall false).player = playerAtWall := rfl
    rw [e1, atWall_box]
    rfl
  rw [e, jumpWall_box]
  unfold pushOut
  norm_num [playerAtWall, abs_le, abs_lt]
  have h : |(57 / 20 : ℚ)| = 57 / 20 := abs_of_pos (by norm_num)
  rw [h]
  norm_num

/-- C4 (code evaluated at the failing input). The default player at `(0, 0, -24.45)`
overlaps the un-hit `JumpWall` of block 5 by 0.05 on its near side and no exemption
applies; the obstacle branch marks the hit and moves the player to `z = -24.501`,
further into the wall, and the player's box still meets the obstacle's box. -/
theorem C4_obstacle_push_keeps_overlap :
    AABBIntersect (playerAtWall.getAABB axisTrig).1 (playerAtWall.getAABB axisTrig).2
      (jumpWallBlock false).obstacle.getAABB.1 (jumpWallBlock false).obstacle.getAABB.2 ∧
    shouldBlock (jumpWallBlock false).obstacle
      (CollState.start axisTrig (gameAtWall false)) = true ∧
    (checkObstacle axisTrig (jumpWallBlock false)
      (CollState.start axisTrig (gameAtWall false))).1.obstacle.hit = true ∧
    (checkObstacle axisTrig (jumpWallBlock false)
      (CollState.start axisTrig (gameAtWall false))).2.player.pos = ⟨0, 0, -24.501⟩ ∧
    AABBIntersect
      ((checkObstacle axisTrig (jumpWallBlock false)
        (CollState.start axisTrig (gameAtWall false))).2.player.getAABB axisTrig).1
      ((checkObstacle axisTrig (jumpWallBlock false)
        (CollState.start axisTrig (gameAtWall false))).2.player.getAABB axisTrig).2
      (jumpWallBlock false).obstacle.getAABB.1 (jumpWallBlock false).obstacle.getAABB.2 := by
  have hi : AABBIntersect (playerAtWall.getAABB axisTrig).1 (playerAtWall.getAABB axisTrig).2
      (jumpWallBlock false).obstacle.getAABB.1 (jumpWallBlock false).obstacle.getAABB.2 := by
    rw [atWall_box, jumpWall_box]
    norm_num [AABBIntersect]
  have hsb : shouldBlock (jumpWallBlock false).obstacle
      (CollState.start axisTrig (gameAtWall false)) = true :=
    shouldBlock_jumpWall_grounded _ _ rfl rfl
  obtain ⟨o1, -, -, o4⟩ := checkObstacle_blocking axisTrig (jumpWallBlock false)
    (CollState.start axisTrig (gameAtWall false)) rfl rfl hi hsb
  refine ⟨hi, hsb, by rw [o1], by rw [o4, atWall_pushOut], ?_⟩
  rw [o4, atWall_pushOut, jumpWall_box]
  norm_num [AABBIntersect, Player.getAABB, playerAtWall, Player.halfW, Player.halfD,
    Player.standH]

theorem endingSlide_offset :
    playerEndingSlide.getSlideOffset axisTrig = ⟨0, 0, -1⟩ := by
  norm_num [Player.getSlideOffset, playerEndingSlide, axisTrig, Vec3.sub_def]

/-- C5 (code evaluated at the failing input). A sliding player at the origin with
`slideRootInitialized = true`, root displacement `(0, 0, 1)` (slide offset
`(0, 0, -1)` at yaw 180) and `slideTimer = 0.01` takes the tick
`updatePhysics(0.016, 0)`: the slide ends and `slideRootInitialized` is cleared, but
`pos` is only the forward step `(0, 0, -0.096)`, not that step plus the slide offset,
`(0, 0, -1.096)`; afterwards the slide offset reads zero, and `bakeSlideRootMotion`
on the pre-tick player would have added it. -/
theorem C5_slide_end_drops_offset :
    playerEndingSlide.slideTimer ≤ 0.016 ∧
    (playerEndingSlide.updatePhysics axisTrig 0.016 0).sliding = false ∧
    (playerEndingSlide.updatePhysics axisTrig 0.016 0).pos = ⟨0, 0, -0.096⟩ ∧
    playerEndingSlide.pos +
      playerEndingSlide.getForwardDir axisTrig * playerEndingSlide.forwardVel * (0.016 : ℚ) +
      playerEndingSlide.getSlideOffset axisTrig = ⟨0, 0, -1.096⟩ ∧
    (playerEndingSlide.updatePhysics axisTrig 0.016 0).pos ≠
      playerEndingSlide.pos +
        playerEndingSlide.getForwardDir axisTrig * playerEndingSlide.forwardVel * (0.016 : ℚ) +
        playerEndingSlide.getSlideOffset axisTrig ∧
    (playerEndingSlide.updatePhysics axisTrig 0.016 0).getSlideOffset axisTrig = Vec3.zero ∧
    (playerEndingSlide.bakeSlideRootMotion axisTrig).pos = ⟨0, 0, -1⟩ := by
  have hpos : (playerEndingSlide.updatePhysics axisTrig 0.016 0).pos = ⟨0, 0, -0.096⟩ := by
    norm_num [Player.updatePhysics, Player.tickSlideTimer, playerEndingSlide,
      Player.getForwardDir, Player.getRightDir, Vec3.cross, axisTrig, Vec3.add_def,
      Vec3.scale_def]
  have hclaim : playerEndingSlide.pos +
      playerEndingSlide.getForwardDir axisTrig * playerEndingSlide.forwardVel * (0.016 : ℚ) +
      playerEndingSlide.getSlideOffset axisTrig = ⟨0, 0, -1.096⟩ := by
    rw [endingSlide_offset]
    norm_num [playerEndingSlide, Player.getForwardDir, axisTrig, Vec3.add_def, Vec3.scale_def]
  refine ⟨by norm_num [playerEndingSlide], ?_, hpos, hclaim, ?_, ?_, ?_⟩
  · norm_num [Player.updatePhysics, Player.tickSlideTimer, playerEndingSlide]
  · rw [hpos, hclaim]
    intro h
    have hz := congrArg Vec3.z h
    norm_num at hz
  · norm_num [Player.updatePhysics, Player.tickSlideTimer, playerEndingSlide,
      Player.getSlideOffset]
  · unfold Player.bakeSlideRootMotion
    rw [endingSlide_offset]
    norm_num [playerEndingSlide, Vec3.add_def]

/-- The globals at program start already hold the values that `ResetAll` assigns, so
the 50 blocks generated at the top of `main` are those of `ResetAll`. -/
theorem resetGlobals_initialGame : resetGlobals initialGame = initialGame := rfl

/-! ## Random numbers -/

theorem truncToInt_of_nonneg (q : ℚ) (h : 0 ≤ q) : truncToInt q = ⌊q⌋ := by
  unfold truncToInt
  rw [Int.tdiv_eq_ediv (Rat.num_nonneg.mpr h) (Int.natCast_nonneg _), Rat.floor_def]

theorem lcgNext_lt (s : Nat) : lcgNext s < 4294967296 := by
  unfold lcgNext
  exact Nat.mod_lt _ (by norm_num)

theorem checkWall_vertical (T : Trig) (w : Wall) (cs : CollState) :
    (checkWall T w cs).player.onGround = cs.player.onGround ∧
      (checkWall T w cs).player.pos.y = cs.player.pos.y ∧
      (checkWall T w cs).player.sliding = cs.player.sliding := by
  unfold checkWall
  simp only
  split_ifs <;> exact ⟨rfl, rfl, rfl⟩

theorem checkObstacle_jumpOver (T : Trig) (b : Block) (cs : CollState)
    (ht : b.obstacle.type = ObsType.JumpWall) (hg : cs.player.onGround = false)
    (hy : cs.player.pos.y > b.obstacle.getAABB.2.y + 0.01) :
    checkObstacle T b cs = (b, cs) := by
  have hsb : shouldBlock b.obstacle cs = false := by
    unfold shouldBlock
    simp only [ht, hg, hy, and_self, if_true]
  unfold checkObstacle
  rw [hsb]
  simp

theorem checkBlocks_inert (T : Trig) (l : List Block) (cs : CollState) (hs : cs.synced T)
    (hw : ∀ b ∈ l, noWallContact T cs.player b)
    (ho : ∀ b ∈ l, checkObstacle T b cs = (b, cs)) :
    checkBlocks T l cs = (l, cs) := by
  induction l with
  | nil => rfl
  | cons b rest ih =>
    have hb : checkBlock T b cs = (b, cs) := by
      unfold checkBlock
      simp only
      have hwb := hw b (List.mem_cons_self _ _)
      rw [checkWall_noContact T _ cs hs hwb.1, checkWall_noContact T _ cs hs hwb.2.1]
      by_cases hf : b.hasFrontWall = true
      · rw [if_pos hf, checkWall_noContact T _ cs hs (hwb.2.2 hf)]
        exact ho b (List.mem_cons_self _ _)
      · rw [if_neg hf]
        exact ho b (List.mem_cons_self _ _)
    unfold checkBlocks
    simp only
    rw [hb]
    simp only
    rw [ih (fun c hc => hw c (List.mem_cons_of_mem _ hc))
      (fun c hc => ho c (List.mem_cons_of_mem _ hc))]

theorem checkBlock_jumpOver (T : Trig) (b : Block) (cs : CollState)
    (hg : cs.player.onGround = false)
    (hb : b.hasObstacle = true → b.obstacle.hit = false →
      b.obstacle.type = ObsType.JumpWall ∧ cs.player.pos.y > b.obstacle.getAABB.2.y + 0.01) :
    (checkBlock T b cs).1 = b ∧ (checkBlock T b cs).2.gHP = cs.gHP ∧
      (checkBlock T b cs).2.gGameOver = cs.gGameOver ∧
      (checkBlock T b cs).2.player.onGround = cs.player.onGround ∧
      (checkBlock T b cs).2.player.pos.y = cs.player.pos.y := by
  unfold checkBlock
  simp only
  generalize hcs3 : (if b.hasFrontWall = true then
    checkWall T b.frontWall (checkWall T b.rightWall (checkWall T b.leftWall cs))
    else checkWall T b.rightWall (checkWall T b.leftWall cs)) = cs3
  have h3 : cs3.gHP = cs.gHP ∧ cs3.gGameOver = cs.gGameOver ∧
      cs3.player.onGround = cs.player.onGround ∧ cs3.player.pos.y = cs.player.pos.y := by
    rw [← hcs3]
    split_ifs
    · refine ⟨?_, ?_, ?_, ?_⟩
      · rw [(checkWall_frame T _ _).1, (checkWall_frame T _ _).1, (checkWall_frame T _ _).1]
      · rw [(checkWall_frame T _ _).2, (checkWall_frame T _ _).2, (checkWall_frame T _ _).2]
      · rw [(checkWall_vertical T _ _).1, (checkWall_vertical T _ _).1,
          (checkWall_vertical T _ _).1]
      · rw [(checkWall_vertical T _ _).2.1, (checkWall_vertical T _ _).2.1,
          (checkWall_vertical T _ _).2.1]
    · refine ⟨?_, ?_, ?_, ?_⟩
      · rw [(checkWall_frame T _ _).1, (checkWall_frame T _ _).1]
      · rw [(checkWall_frame T _ _).2, (checkWall_frame T _ _).2]
      · rw [(checkWall_vertical T _ _).1, (checkWall_vertical T _ _).1]
      · rw [(checkWall_vertical T _ _).2.1, (checkWall_vertical T _ _).2.1]
  have hob : checkObstacle T b cs3 = (b, cs3) := by
    by_cases hc : b.hasObstacle = true ∧ b.obstacle.hit = false
    · obtain ⟨h1, h2⟩ := hb hc.1 hc.2
      exact checkObstacle_jumpOver T b cs3 h1 (by rw [h3.2.2.1, hg]) (by rw [h3.2.2.2]; exact h2)
    · unfold checkObstacle
      rw [if_neg hc]
  rw [hob]
  exact ⟨rfl, h3⟩

theorem checkBlocks_jumpOver (T : Trig) (l : List Block) (cs : CollState)
    (hg : cs.player.onGround = false)
    (hb : ∀ b ∈ l, b.hasObstacle = true → b.obstacle.hit = false →
      b.obstacle.type = ObsType.JumpWall ∧ cs.player.pos.y > b.obstacle.getAABB.2.y + 0.01) :
    (checkBlocks T l cs).1 = l ∧ (checkBlocks T l cs).2.gHP = cs.gHP ∧
      (checkBlocks T l cs).2.gGameOver = cs.gGameOver ∧
      (checkBlocks T l cs).2.player.pos.y = cs.player.pos.y := by
  induction l generalizing cs with
  | nil => exact ⟨rfl, rfl, rfl, rfl⟩
  | cons b rest ih =>
    unfold checkBlocks
    simp only
    obtain ⟨h1, h2, h3, h4, h5⟩ := checkBlock_jumpOver T b cs hg (hb b (List.mem_cons_self _ _))
    obtain ⟨i1, i2, i3, i4⟩ := ih (checkBlock T b cs).2 (by rw [h4, hg])
      (fun c hc ho hh => by
        rw [h5]
        exact hb c (List.mem_cons_of_mem _ hc) ho hh)
    exact ⟨by rw [h1, i1], by rw [i2, h2], by rw [i3, h3], by rw [i4, h5]⟩

/-- C11. Jump-over exemption: for a `JumpWall` and a player with `onGround = false`
and `pos.y` more than 0.01 above the wall's top, the obstacle branch of
`checkBlockCollisions` returns the block and the collision state unchanged, whether or
not the boxes intersect. Hence, when every un-hit obstacle in `gBlocks` is such a
`JumpWall`, a pass leaves the blocks (so `obstacle.hit`), `gHP`, `gGameOver` and the
player's height unchanged, and leaves the whole state unchanged when the player
touches no wall. -/
theorem C11_jump_over_exemption (T : Trig) (g : Game)
    (hg : g.player.onGround = false)
    (hb : ∀ b ∈ g.gBlocks, b.hasObstacle = true → b.obstacle.hit = false →
      b.obstacle.type = ObsType.JumpWall ∧
        g.player.pos.y > b.obstacle.getAABB.2.y + 0.01) :
    (∀ (b : Block) (cs : CollState), b.obstacle.type = ObsType.JumpWall →
      cs.player.onGround = false → cs.player.pos.y > b.obstacle.getAABB.2.y + 0.01 →
      checkObstacle T b cs = (b, cs)) ∧
    (checkBlockCollisions T g).gBlocks = g.gBlocks ∧
    (checkBlockCollisions T g).gHP = g.gHP ∧
    (checkBlockCollisions T g).gGameOver = g.gGameOver ∧
    (checkBlockCollisions T g).player.pos.y = g.player.pos.y ∧
    ((∀ b ∈ g.gBlocks, noWallContact T g.player b) → checkBlockCollisions T g = g) := by
  obtain ⟨h1, h2, h3, h4⟩ := checkBlocks_jumpOver T g.gBlocks (CollState.start T g) hg hb
  refine ⟨fun b cs ht hgr hy => checkObstacle_jumpOver T b cs ht hgr hy, ?_, ?_, ?_, ?_, ?_⟩
  · rw [checkBlockCollisions_eq]; exact h1
  · rw [checkBlockCollisions_eq]; exact h2
  · rw [checkBlockCollisions_eq]; exact h3
  · rw [checkBlockCollisions_eq]; exact h4
  · intro hw
    rw [checkBlockCollisions_eq,
      checkBlocks_inert T g.gBlocks (CollState.start T g) (start_synced T g) hw ?_]
    · rfl
    · intro b hbm
      by_cases hc : b.hasObstacle = true ∧ b.obstacle.hit = false
      · obtain ⟨e1, e2⟩ := hb b hbm hc.1 hc.2
        exact checkObstacle_jumpOver T b _ e1 hg e2
      · unfold checkObstacle
        rw [if_neg hc]
/-- Witness of C11: the jumping player at height 0.8 over the un-hit `JumpWall` of
block 5 (top at 0.6); the pass changes nothing. -/
theorem C11_jump_over_exemption_witness :
    (checkBlockCollisions axisTrig gameOverWall).gBlocks = [jumpWallBlock false] ∧
    (checkBlockCollisions axisTrig gameOverWall).gHP = 1 ∧
    (checkBlockCollisions axisTrig gameOverWall).gGameOver = false :=
  ⟨(C11_jump_over_exemption axisTrig gameOverWall rfl
      (by
        intro b hb _ _
        have e : b = jumpWallBlock false := by simpa [gameOverWall] using hb
        rw [e, jumpWall_box]
        refine ⟨rfl, ?_⟩
        norm_num [gameOverWall, playerOverWall])).2.1,
    (C11_jump_over_exemption axisTrig gameOverWall rfl
      (by
        intro b hb _ _
        have e : b = jumpWallBlock false := by simpa [gameOverWall] using hb
        rw [e, jumpWall_box]
        refine ⟨rfl, ?_⟩
        norm_num [gameOverWall, playerOverWall])).2.2.1,
    (C11_jump_over_exemption axisTrig gameOverWall rfl
      (by
        intro b hb _ _
        have e : b = jumpWallBlock false := by simpa [gameOverWall] using hb
        rw [e, jumpWall_box]
        refine ⟨rfl, ?_⟩
        norm_num [gameOverWall, playerOverWall])).2.2.2.1⟩

theorem getSlideOffset_y (T : Trig) (p : Player) : (p.getSlideOffset T).y = 0 := by
  unfold Player.getSlideOffset
  split_ifs <;> rfl

theorem getAABB_y (T : Trig) (p : Player) :
    (p.getAABB T).1.y = 0 ∧
    (p.getAABB T).2.y = p.pos.y + (if p.sliding = true then p.slideH else p.standH) := by
  unfold Player.getAABB
  simp only [true_and]
  split_ifs <;> simp_all [Vec3.add_def, getSlideOffset_y]

theorem checkBlockCollisions_single (T : Trig) (g : Game) (b : Block) (hb : g.gBlocks = [b])
    (hw : noWallContact T g.player b) :
    checkBlockCollisions T g =
      { g with
        gBlocks := [(checkObstacle T b (CollState.start T g)).1]
        player := (checkObstacle T b (CollState.start T g)).2.player
        gHP := (checkObstacle T b (CollState.start T g)).2.gHP
        gGameOver := (checkObstacle T b (CollState.start T g)).2.gGameOver } := by
  have hcb : checkBlock T b (CollState.start T g) =
      checkObstacle T b (CollState.start T g) := by
    unfold checkBlock
    simp only
    rw [checkWall_noContact T _ _ (start_synced T g) hw.1,
      checkWall_noContact T _ _ (start_synced T g) hw.2.1]
    by_cases hf : b.hasFrontWall = true
    · rw [if_pos hf, checkWall_noContact T _ _ (start_synced T g) (hw.2.2 hf)]
    · rw [if_neg hf]
  have hcs : checkBlocks T g.gBlocks (CollState.start T g) =
      ([(checkObstacle T b (CollState.start T g)).1],
        (checkObstacle T b (CollState.start T g)).2) := by
    rw [hb]
    unfold checkBlocks
    simp only
    rw [hcb]
    rfl
  rw [checkBlockCollisions_eq, hcs]

/-- The obstacle branch on an un-hit generated `SlideGate` (centre height 1.5, height
1) whose box overlaps the box of a default-sized player in x and z: the player is
damaged unless it slides with `pos.y <= 0.01`. -/
theorem checkObstacle_slideGate (T : Trig) (b : Block) (cs : CollState)
    (hs : cs.synced T)
    (hscale : cs.player.scale = 1) (hsl : cs.player.slideHeight = 1)
    (hst : cs.player.standHeight = 1.8) (hy : 0 ≤ cs.player.pos.y)
    (ho : b.hasObstacle = true) (hhit : b.obstacle.hit = false)
    (ht : b.obstacle.type = ObsType.SlideGate)
    (hpy : b.obstacle.pos.y = 1.5) (hsz : b.obstacle.size.y = 1)
    (hx : cs.pmin.x ≤ b.obstacle.getAABB.2.x ∧ cs.pmax.x ≥ b.obstacle.getAABB.1.x)
    (hz : cs.pmin.z ≤ b.obstacle.getAABB.2.z ∧ cs.pmax.z ≥ b.obstacle.getAABB.1.z) :
    ((cs.player.sliding = true ∧ cs.player.pos.y ≤ 0.01) →
      checkObstacle T b cs = (b, cs)) ∧
    (¬ (cs.player.sliding = true ∧ cs.player.pos.y ≤ 0.01) →
      (checkObstacle T b cs).1 = { b with obstacle := { b.obstacle with hit := true } } ∧
      (checkObstacle T b cs).2.gHP = cs.gHP - 1) := by
  have hbot : b.obstacle.getAABB.1.y = 1 := by
    unfold Obstacle.getAABB
    rw [Vec3.sub_def, Vec3.scale_def]
    simp only [hpy, hsz]
    norm_num
  have htop : b.obstacle.getAABB.2.y = 2 := by
    unfold Obstacle.getAABB
    rw [Vec3.add_def, Vec3.scale_def]
    simp only [hpy, hsz]
    norm_num
  have hpminy : cs.pmin.y = 0 := by rw [hs.1]; exact (getAABB_y T cs.player).1
  have hpmaxy : cs.pmax.y = cs.player.pos.y +
      (if cs.player.sliding = true then cs.player.slideH else cs.player.standH) := by
    rw [hs.2]; exact (getAABB_y T cs.player).2
  constructor
  · rintro ⟨h1, h2⟩
    have hsb : shouldBlock b.obstacle cs = false := by
      unfold shouldBlock
      have hc : cs.pmax.y ≤ b.obstacle.getAABB.1.y + 0.01 := by
        rw [hpmaxy, hbot, if_pos h1]
        unfold Player.slideH
        rw [hsl, hscale]
        linarith
      simp [ht, h1, hc]
    unfold checkObstacle
    rw [hsb]
    simp
  · intro hn
    have hsb : shouldBlock b.obstacle cs = true := by
      unfold shouldBlock
      have hc : ¬ (cs.player.sliding = true ∧ cs.pmax.y ≤ b.obstacle.getAABB.1.y + 0.01) := by
        rintro ⟨h1, h2⟩
        apply hn
        refine ⟨h1, ?_⟩
        rw [hpmaxy, hbot, if_pos h1] at h2
        unfold Player.slideH at h2
        rw [hsl, hscale] at h2
        linarith
      simp only [ht, true_and]
      rw [if_neg hc]
      simp
    have hi : AABBIntersect cs.pmin cs.pmax b.obstacle.getAABB.1 b.obstacle.getAABB.2 := by
      refine ⟨hx, ⟨?_, ?_⟩, hz⟩
      · rw [hpminy, htop]; norm_num
      · rw [hpmaxy, hbot]
        split_ifs
        · unfold Player.slideH
          rw [hsl, hscale]
          linarith
        · unfold Player.standH
          rw [hst, hscale]
          linarith
    obtain ⟨o1, o2, -, -⟩ := checkObstacle_blocking T b cs ho hhit hi hsb
    exact ⟨o1, o2⟩

/-! ## Wall resolution -/

theorem getAABB_shift_x (T : Trig) (p : Player) (c : ℚ) :
    (Player.getAABB T { p with pos := { p.pos with x := p.pos.x + c } }).1.x =
      (p.getAABB T).1.x + c ∧
    (Player.getAABB T { p with pos := { p.pos with x := p.pos.x + c } }).2.x =
      (p.getAABB T).2.x + c := by
  have e : Player.getSlideOffset T { p with pos := { p.pos with x := p.pos.x + c } } =
      p.getSlideOffset T := rfl
  simp only [Player.getAABB, Player.halfW, Player.halfD, e]
  split_ifs <;> constructor <;> simp only [Vec3.add_def] <;> ring

theorem getAABB_shift_z (T : Trig) (p : Player) (c : ℚ) :
    (Player.getAABB T { p with pos := { p.pos with z := p.pos.z + c } }).1.z =
      (p.getAABB T).1.z + c ∧
    (Player.getAABB T { p with pos := { p.pos with z := p.pos.z + c } }).2.z =
      (p.getAABB T).2.z + c := by
  have e : Player.getSlideOffset T { p with pos := { p.pos with z := p.pos.z + c } } =
      p.getSlideOffset T := rfl
  simp only [Player.getAABB, Player.halfW, Player.halfD, e]
  split_ifs <;> constructor <;> simp only [Vec3.add_def] <;> ring

theorem checkWall_hit (T : Trig) (w : Wall) (cs : CollState)
    (hp : ¬ (w.size.x < 0.1 ∧ w.size.z < 0.1))
    (hi : AABBIntersect (cs.player.getAABB T).1 (cs.player.getAABB T).2 w.box.1 w.box.2) :
    (checkWall T w cs).player =
      (if |minOverlapX (cs.player.getAABB T).1 (cs.player.getAABB T).2 w.box.1 w.box.2| <
          |minOverlapZ (cs.player.getAABB T).1 (cs.player.getAABB T).2 w.box.1 w.box.2| then
        { cs.player with
          pos := { cs.player.pos with
            x := cs.player.pos.x +
              minOverlapX (cs.player.getAABB T).1 (cs.player.getAABB T).2 w.box.1 w.box.2 } }
      else
        { cs.player with
          pos := { cs.player.pos with
            z := cs.player.pos.z +
              minOverlapZ (cs.player.getAABB T).1 (cs.player.getAABB T).2 w.box.1 w.box.2 } }) := by
  unfold checkWall
  rw [if_neg hp]
  have hi2 : AABBIntersect (cs.player.getAABB T).1 (cs.player.getAABB T).2
      (w.pos - w.size * (0.5 : ℚ)) (w.pos + w.size * (0.5 : ℚ)) := hi
  simp only [hi2, if_true]
  unfold minOverlapX minOverlapZ Wall.box
  simp only
theorem minOverlapX_abs (pmin pmax wmin wmax : Vec3) (h : AABBIntersect pmin pmax wmin wmax) :
    |minOverlapX pmin pmax wmin wmax| = min (wmax.x - pmin.x) (pmax.x - wmin.x) := by
  obtain ⟨⟨h1, h2⟩, -, -⟩ := h
  unfold minOverlapX
  split_ifs with hc
  · rw [abs_of_nonneg (by linarith), min_eq_left (le_of_lt hc)]
  · rw [abs_neg, abs_of_nonneg (by linarith), min_eq_right (not_lt.mp hc)]

theorem minOverlapZ_abs (pmin pmax wmin wmax : Vec3) (h : AABBIntersect pmin pmax wmin wmax) :
    |minOverlapZ pmin pmax wmin wmax| = min (wmax.z - pmin.z) (pmax.z - wmin.z) := by
  obtain ⟨-, -, ⟨h1, h2⟩⟩ := h
  unfold minOverlapZ
  split_ifs with hc
  · rw [abs_of_nonneg (by linarith), min_eq_left (le_of_lt hc)]
  · rw [abs_neg, abs_of_nonneg (by linarith), min_eq_right (not_lt.mp hc)]

/-- C16 (amended). Wall resolution: when the player's box intersects the box of a
present wall, `checkWall` adds to exactly one of `player.pos.x`, `player.pos.z` the
candidate of smaller absolute value (X when strictly smaller, else Z), each candidate
being the smaller of the two overlaps on its axis, signed so as to separate, and
changes nothing else of the player (never `pos.y`); afterwards the player's box has
zero penetration on that axis (a min face on the wall's max face or a max face on
the wall's min face). One coordinate changes in value exactly when the applied
candidate is non-zero; for boxes that only touch on that axis it is zero and the
position stays as it was. -/
theorem C16_wall_resolution (T : Trig) (w : Wall) (cs : CollState)
    (hp : ¬ (w.size.x < 0.1 ∧ w.size.z < 0.1))
    (hi : AABBIntersect (cs.player.getAABB T).1 (cs.player.getAABB T).2 w.box.1 w.box.2) :
    (|minOverlapX (cs.player.getAABB T).1 (cs.player.getAABB T).2 w.box.1 w.box.2| =
        min (w.box.2.x - (cs.player.getAABB T).1.x) ((cs.player.getAABB T).2.x - w.box.1.x) ∧
      |minOverlapZ (cs.player.getAABB T).1 (cs.player.getAABB T).2 w.box.1 w.box.2| =
        min (w.box.2.z - (cs.player.getAABB T).1.z) ((cs.player.getAABB T).2.z - w.box.1.z)) ∧
    (|minOverlapX (cs.player.getAABB T).1 (cs.player.getAABB T).2 w.box.1 w.box.2| <
        |minOverlapZ (cs.player.getAABB T).1 (cs.player.getAABB T).2 w.box.1 w.box.2| →
      (checkWall T w cs).player = cs.player.moveX
        (minOverlapX (cs.player.getAABB T).1 (cs.player.getAABB T).2 w.box.1 w.box.2) ∧
      (((checkWall T w cs).player.getAABB T).1.x = w.box.2.x ∨
        ((checkWall T w cs).player.getAABB T).2.x = w.box.1.x) ∧
      ((checkWall T w cs).player.pos.x ≠ cs.player.pos.x ↔
        minOverlapX (cs.player.getAABB T).1 (cs.player.getAABB T).2 w.box.1 w.box.2 ≠ 0)) ∧
    (¬ |minOverlapX (cs.player.getAABB T).1 (cs.player.getAABB T).2 w.box.1 w.box.2| <
        |minOverlapZ (cs.player.getAABB T).1 (cs.player.getAABB T).2 w.box.1 w.box.2| →
      (checkWall T w cs).player = cs.player.moveZ
        (minOverlapZ (cs.player.getAABB T).1 (cs.player.getAABB T).2 w.box.1 w.box.2) ∧
      (((checkWall T w cs).player.getAABB T).1.z = w.box.2.z ∨
        ((checkWall T w cs).player.getAABB T).2.z = w.box.1.z) ∧
      ((checkWall T w cs).player.pos.z ≠ cs.player.pos.z ↔
        minOverlapZ (cs.player.getAABB T).1 (cs.player.getAABB T).2 w.box.1 w.box.2 ≠ 0)) ∧
    (checkWall T w cs).player.pos.y = cs.player.pos.y ∧
    ((checkWall T w cs).player.pos.x = cs.player.pos.x ∨
      (checkWall T w cs).player.pos.z = cs.player.pos.z) := by
  have hk := checkWall_hit T w cs hp hi
  refine ⟨⟨minOverlapX_abs _ _ _ _ hi, minOverlapZ_abs _ _ _ _ hi⟩, ?_, ?_,
    (checkWall_vertical T w cs).2.1, ?_⟩
  · intro hlt
    rw [if_pos hlt] at hk
    refine ⟨hk, ?_, ?_⟩
    · rw [hk]
      obtain ⟨e1, e2⟩ := getAABB_shift_x T cs.player
        (minOverlapX (cs.player.getAABB T).1 (cs.player.getAABB T).2 w.box.1 w.box.2)
      rw [e1, e2]
      unfold minOverlapX
      split_ifs
      · left; ring
      · right; ring
    · rw [hk]
      simp
  · intro hge
    rw [if_neg hge] at hk
    refine ⟨hk, ?_, ?_⟩
    · rw [hk]
      obtain ⟨e1, e2⟩ := getAABB_shift_z T cs.player
        (minOverlapZ (cs.player.getAABB T).1 (cs.player.getAABB T).2 w.box.1 w.box.2)
      rw [e1, e2]
      unfold minOverlapZ
      split_ifs
      · left; ring
      · right; ring
    · rw [hk]
      simp
  · rw [hk]
    split_ifs
    · right; rfl
    · left; rfl

theorem stateAtX_box (x : ℚ) :
    (stateAtX axisTrig x).player.getAABB axisTrig =
      (⟨x - 0.35, 0, -0.25⟩, ⟨x + 0.35, 1.8, 0.25⟩) := by
  norm_num [stateAtX, Player.getAABB, Player.halfW, Player.halfD, Player.standH]

theorem leftWallBlock0_box : leftWallBlock0.box = (⟨-3, 0, -2.5⟩, ⟨-2.5, 2, 2.5⟩) := by
  norm_num [Wall.box, leftWallBlock0, Vec3.sub_def, Vec3.add_def, Vec3.scale_def]

/-- Witness of C16: the default player at `x = -2.25` reaches 0.1 into the left
wall of block 0; `checkWall` moves it by 0.1 to `x = -2.15`, its min face on the
wall's inner face `x = -2.5`. -/
theorem C16_wall_resolution_witness :
    (checkWall axisTrig leftWallBlock0 (stateAtX axisTrig (-2.25))).player =
      (stateAtX axisTrig (-2.25)).player.moveX (1 / 10) ∧
    ((checkWall axisTrig leftWallBlock0 (stateAtX axisTrig (-2.25))).player.getAABB axisTrig).1.x =
      -2.5 := by
  have hp : ¬ (leftWallBlock0.size.x < 0.1 ∧ leftWallBlock0.size.z < 0.1) := by
    norm_num [leftWallBlock0]
  have hi : AABBIntersect ((stateAtX axisTrig (-2.25)).player.getAABB axisTrig).1
      ((stateAtX axisTrig (-2.25)).player.getAABB axisTrig).2
      leftWallBlock0.box.1 leftWallBlock0.box.2 := by
    rw [stateAtX_box, leftWallBlock0_box]
    norm_num [AABBIntersect]
  have hx : minOverlapX ((stateAtX axisTrig (-2.25)).player.getAABB axisTrig).1
      ((stateAtX axisTrig (-2.25)).player.getAABB axisTrig).2
      leftWallBlock0.box.1 leftWallBlock0.box.2 = 1 / 10 := by
    rw [stateAtX_box, leftWallBlock0_box]
    norm_num [minOverlapX]
  have hz : minOverlapZ ((stateAtX axisTrig (-2.25)).player.getAABB axisTrig).1
      ((stateAtX axisTrig (-2.25)).player.getAABB axisTrig).2
      leftWallBlock0.box.1 leftWallBlock0.box.2 = -(11 / 4) := by
    rw [stateAtX_box, leftWallBlock0_box]
    norm_num [minOverlapZ]
  have hlt : |minOverlapX ((stateAtX axisTrig (-2.25)).player.getAABB axisTrig).1
      ((stateAtX axisTrig (-2.25)).player.getAABB axisTrig).2
      leftWallBlock0.box.1 leftWallBlock0.box.2| <
      |minOverlapZ ((stateAtX axisTrig (-2.25)).player.getAABB axisTrig).1
      ((stateAtX axisTrig (-2.25)).player.getAABB axisTrig).2
      leftWallBlock0.box.1 leftWallBlock0.box.2| := by
    rw [hx, hz, abs_neg, abs_of_pos (by norm_num : (0 : ℚ) < 1 / 10),
      abs_of_pos (by norm_num : (0 : ℚ) < 11 / 4)]
    norm_num
  have h := (C16_wall_resolution axisTrig leftWallBlock0 (stateAtX axisTrig (-2.25)) hp hi).2.1 hlt
  rw [hx] at h
  refine ⟨h.1, ?_⟩
  rcases h.2.1 with h1 | h1
  · rw [h1, leftWallBlock0_box]
  · exfalso
    rw [h.1] at h1
    have e := (getAABB_shift_x axisTrig (stateAtX axisTrig (-2.25)).player (1 / 10)).2
    unfold Player.moveX at h1
    rw [e, stateAtX_box, leftWallBlock0_box] at h1
    norm_num at h1

/-- C16 (counterexample to "changes exactly one of pos.x, pos.z"). The default player
at `x = -2.15` has its min face exactly on the inner face `x = -2.5` of the left wall
of block 0: the wall is present and the boxes intersect (the test is `<=`), the
applied X candidate is 0, and `checkWall` changes neither `pos.x` nor `pos.z`. -/
theorem C16_touching_changes_nothing :
    ¬ (leftWallBlock0.size.x < 0.1 ∧ leftWallBlock0.size.z < 0.1) ∧
    AABBIntersect ((stateAtX axisTrig (-2.15)).player.getAABB axisTrig).1
      ((stateAtX axisTrig (-2.15)).player.getAABB axisTrig).2
      leftWallBlock0.box.1 leftWallBlock0.box.2 ∧
    (checkWall axisTrig leftWallBlock0 (stateAtX axisTrig (-2.15))).player.pos =
      (stateAtX axisTrig (-2.15)).player.pos ∧
    ¬ (((checkWall axisTrig leftWallBlock0 (stateAtX axisTrig (-2.15))).player.pos.x ≠
          (stateAtX axisTrig (-2.15)).player.pos.x ∧
        (checkWall axisTrig leftWallBlock0 (stateAtX axisTrig (-2.15))).player.pos.z =
          (stateAtX axisTrig (-2.15)).player.pos.z) ∨
      ((checkWall axisTrig leftWallBlock0 (stateAtX axisTrig (-2.15))).player.pos.x =
          (stateAtX axisTrig (-2.15)).player.pos.x ∧
        (checkWall axisTrig leftWallBlock0 (stateAtX axisTrig (-2.15))).player.pos.z ≠
          (stateAtX axisTrig (-2.15)).player.pos.z)) := by
  have hp : ¬ (leftWallBlock0.size.x < 0.1 ∧ leftWallBlock0.size.z < 0.1) := by
    norm_num [leftWallBlock0]
  have hi : AABBIntersect ((stateAtX axisTrig (-2.15)).player.getAABB axisTrig).1
      ((stateAtX axisTrig (-2.15)).player.getAABB axisTrig).2
      leftWallBlock0.box.1 leftWallBlock0.box.2 := by
    rw [stateAtX_box, leftWallBlock0_box]
    norm_num [AABBIntersect]
  have hx : minOverlapX ((stateAtX axisTrig (-2.15)).player.getAABB axisTrig).1
      ((stateAtX axisTrig (-2.15)).player.getAABB axisTrig).2
      leftWallBlock0.box.1 leftWallBlock0.box.2 = 0 := by
    rw [stateAtX_box, leftWallBlock0_box]
    norm_num [minOverlapX]
  have hz : minOverlapZ ((stateAtX axisTrig (-2.15)).player.getAABB axisTrig).1
      ((stateAtX axisTrig (-2.15)).player.getAABB axisTrig).2
      leftWallBlock0.box.1 leftWallBlock0.box.2 = -(11 / 4) := by
    rw [stateAtX_box, leftWallBlock0_box]
    norm_num [minOverlapZ]
  have hk := checkWall_hit axisTrig leftWallBlock0 (stateAtX axisTrig (-2.15)) hp hi
  rw [hx, hz, abs_zero, abs_neg, abs_of_pos (by norm_num : (0 : ℚ) < 11 / 4),
    if_pos (by norm_num : (0 : ℚ) < 11 / 4), add_zero] at hk
  have hpos : (checkWall axisTrig leftWallBlock0 (stateAtX axisTrig (-2.15))).player.pos =
      (stateAtX axisTrig (-2.15)).player.pos := by
    rw [hk]
  refine ⟨hp, hi, hpos, ?_⟩
  rw [hpos]
  rintro (⟨h, -⟩ | ⟨-, h⟩) <;> exact h rfl

/-! ## Coins and cursor of the generator -/

theorem createBlock_centerPos (T : Trig) (n : Int) (ty : BlockType) (c : Vec3) (y : ℚ) :
    (createBlock T n ty c y).centerPos = c := by
  unfold createBlock createBlockWalls
  cases ty <;> simp only <;> split_ifs <;> rfl

theorem createBlock_yaw (T : Trig) (n : Int) (ty : BlockType) (c : Vec3) (y : ℚ) :
    (createBlock T n ty c y).yaw = y := by
  unfold createBlock createBlockWalls
  cases ty <;> simp only <;> split_ifs <;> rfl

theorem createBlock_coins (T : Trig) (n : Int) (ty : BlockType) (c : Vec3) (y : ℚ) :
    (createBlock T n ty c y).coins = [] := by
  unfold createBlock createBlockWalls
  cases ty <;> simp only <;> split_ifs <;> rfl

theorem placeCoins_centerPos (T : Trig) (b : Block) (n : Int) (y : ℚ) (rs : Nat)
    (l s : Bool) : (placeCoins T b n y rs l s).block.centerPos = b.centerPos := by
  obtain ⟨cs, h⟩ := placeCoins_block T b n y rs l s
  rw [h]

theorem placeCoins_yaw (T : Trig) (b : Block) (n : Int) (y : ℚ) (rs : Nat)
    (l s : Bool) : (placeCoins T b n y rs l s).block.yaw = b.yaw := by
  obtain ⟨cs, h⟩ := placeCoins_block T b n y rs l s
  rw [h]

theorem buildBlock_centerPos (T : Trig) (g : Game) :
    (buildBlock T g).block.centerPos = g.gNextBlockCenter := by
  unfold buildBlock
  simp only [placeCoins_centerPos]
  split_ifs
  · simp [placeObstacle, createBlock_centerPos]
  · simp [createBlock_centerPos]

theorem buildBlock_yaw (T : Trig) (g : Game) :
    (buildBlock T g).block.yaw = g.gCurrentBuildYaw := by
  unfold buildBlock
  simp only [placeCoins_yaw]
  split_ifs
  · simp [placeObstacle, createBlock_yaw]
  · simp [createBlock_yaw]

theorem placeCoins_coins_outside (T : Trig) (b : Block) (n : Int) (y : ℚ) (rs : Nat)
    (l s : Bool) (h : ¬ (n.tmod 10 ≥ 2 ∧ n.tmod 10 ≤ 6)) :
    (placeCoins T b n y rs l s).block.coins = b.coins := by
  rw [placeCoins_outside T b n y rs l s h]

theorem coinAt_spec (b : Block) (forward right : Vec3) (l s : Bool) (m : Int) (lat : ℚ)
    (hlat : -1 ≤ lat ∧ lat ≤ 1) (i : Nat) (hi : i < 5) :
    (coinAt b forward right l s m lat i).collected = false ∧
    (coinAt b forward right l s m lat i).rotation = 0 ∧
    ∃ a : ℚ, -1 ≤ a ∧ a ≤ 1 ∧
      (coinAt b forward right l s m lat i).pos.x =
        b.centerPos.x + right.x * a + forward.x * (((i : ℚ) - 2) * 0.8) ∧
      (coinAt b forward right l s m lat i).pos.z =
        b.centerPos.z + right.z * a + forward.z * (((i : ℚ) - 2) * 0.8) := by
  have hi5 : (i : ℚ) ≤ 4 := by
    have : i ≤ 4 := by omega
    exact_mod_cast this
  have hi0 : (0 : ℚ) ≤ (i : ℚ) := Nat.cast_nonneg i
  refine ⟨rfl, rfl, ?_⟩
  unfold coinAt
  simp only [Vec3.add_def, Vec3.scale_def]
  by_cases ht : m = 4 ∧ s = true
  · rw [if_pos ht]
    by_cases hl : l = true
    · rw [if_pos hl]
      refine ⟨mix (-1) 1 (((i : ℚ) + 1) / 6), ?_, ?_, ?_, ?_⟩
      · unfold mix; linarith
      · unfold mix; linarith
      · push_cast; ring
      · push_cast; ring
    · rw [if_neg hl]
      refine ⟨mix 1 (-1) (((i : ℚ) + 1) / 6), ?_, ?_, ?_, ?_⟩
      · unfold mix; linarith
      · unfold mix; linarith
      · push_cast; ring
      · push_cast; ring
  · rw [if_neg ht]
    refine ⟨lat, hlat.1, hlat.2, ?_, ?_⟩
    · push_cast; ring
    · push_cast; ring

theorem placeCoins_coins_inside (T : Trig) (b : Block) (n : Int) (y : ℚ) (rs : Nat)
    (l s : Bool) (hb : b.coins = []) (h : n.tmod 10 ≥ 2 ∧ n.tmod 10 ≤ 6) :
    ∃ (l2 s2 : Bool) (lat : ℚ), (-1 ≤ lat ∧ lat ≤ 1) ∧
      (placeCoins T b n y rs l s).block.coins =
        (List.range 5).map (coinAt b (getDirectionFromYaw T y) (getRightFromYaw T y)
          l2 s2 (n.tmod 10) lat) := by
  unfold placeCoins
  simp only [h, and_self, if_true, hb, List.nil_append]
  refine ⟨_, _, _, ?_, rfl⟩
  split_ifs <;> norm_num

theorem buildBlock_stage (T : Trig) (g : Game) :
    ∃ (blk : Block) (rs : Nat),
      buildBlock T g = placeCoins T blk g.gNextBlockIndex g.gCurrentBuildYaw rs
        g.gCoinOnLeftSide g.gCoinSwitchAtBlock4 ∧
      blk.coins = [] ∧ blk.centerPos = g.gNextBlockCenter := by
  refine ⟨_, _, rfl, ?_, ?_⟩
  · split_ifs
    · simp [placeObstacle, createBlock_coins]
    · simp [createBlock_coins]
  · split_ifs
    · simp [placeObstacle, createBlock_centerPos]
    · simp [createBlock_centerPos]

/-- C13. Coin rule: the block that `generateNextBlock` appends at index `n` has exactly
5 coins when `n % 10` is between 2 and 6 and none otherwise; coin `i` has
`collected = false` and lies, in the horizontal plane, at the block centre plus a
lateral offset in `[-1, 1]` along the block's right vector plus `(i - 2) * 0.8` along
its forward vector, so that its displacement from the centre has component
`(i - 2) * 0.8` along the forward direction (times the squared length of that
direction, which is 1 for true sines and cosines); the five forward offsets are
`-1.6, -0.8, 0, 0.8, 1.6` in order. -/
theorem C13_coin_rule (T : Trig) (g : Game) :
    ∃ b : Block, (generateNextBlock T g).gBlocks = g.gBlocks ++ [b] ∧
      b.blockIndex = g.gNextBlockIndex ∧
      ((2 ≤ g.gNextBlockIndex.tmod 10 ∧ g.gNextBlockIndex.tmod 10 ≤ 6) →
        b.coins.length = 5) ∧
      (¬ (2 ≤ g.gNextBlockIndex.tmod 10 ∧ g.gNextBlockIndex.tmod 10 ≤ 6) → b.coins = []) ∧
      (∀ (i : Nat) (c : Coin), b.coins[i]? = some c →
        c.collected = false ∧
        (∃ a : ℚ, -1 ≤ a ∧ a ≤ 1 ∧
          c.pos.x = b.centerPos.x + (getRightFromYaw T b.yaw).x * a +
            (getDirectionFromYaw T b.yaw).x * (((i : ℚ) - 2) * 0.8) ∧
          c.pos.z = b.centerPos.z + (getRightFromYaw T b.yaw).z * a +
            (getDirectionFromYaw T b.yaw).z * (((i : ℚ) - 2) * 0.8)) ∧
        (c.pos.x - b.centerPos.x) * (getDirectionFromYaw T b.yaw).x +
            (c.pos.z - b.centerPos.z) * (getDirectionFromYaw T b.yaw).z =
          (((i : ℚ) - 2) * 0.8) *
            ((getDirectionFromYaw T b.yaw).x * (getDirectionFromYaw T b.yaw).x +
              (getDirectionFromYaw T b.yaw).z * (getDirectionFromYaw T b.yaw).z)) ∧
      (List.range 5).map (fun i : Nat => ((i : ℚ) - 2) * 0.8) = [-1.6, -0.8, 0, 0.8, 1.6] := by
  obtain ⟨blk, rs, hst, hc0, hcen⟩ := buildBlock_stage T g
  refine ⟨(buildBlock T g).block, rfl, buildBlock_index T g, ?_, ?_, ?_, ?_⟩
  · intro h
    obtain ⟨l2, s2, lat, -, hcoins⟩ := placeCoins_coins_inside T blk g.gNextBlockIndex
      g.gCurrentBuildYaw rs g.gCoinOnLeftSide g.gCoinSwitchAtBlock4 hc0 ⟨h.1, h.2⟩
    rw [hst, hcoins, List.length_map, List.length_range]
  · intro h
    rw [hst, placeCoins_coins_outside T blk _ _ _ _ _ (fun h2 => h ⟨h2.1, h2.2⟩), hc0]
  · intro i c hic
    rw [buildBlock_yaw, buildBlock_centerPos]
    by_cases h : g.gNextBlockIndex.tmod 10 ≥ 2 ∧ g.gNextBlockIndex.tmod 10 ≤ 6
    · obtain ⟨l2, s2, lat, hlat, hcoins⟩ := placeCoins_coins_inside T blk g.gNextBlockIndex
        g.gCurrentBuildYaw rs g.gCoinOnLeftSide g.gCoinSwitchAtBlock4 hc0 h
      rw [hst, hcoins, List.getElem?_map] at hic
      have hi5 : i < 5 := by
        by_contra hge
        rw [List.getElem?_eq_none (by simpa using hge)] at hic
        simp at hic
      rw [List.getElem?_range hi5] at hic
      simp only [Option.map_some', Option.some.injEq] at hic
      obtain ⟨k1, -, a, ha1, ha2, hx, hz⟩ := coinAt_spec blk (getDirectionFromYaw T g.gCurrentBuildYaw)
        (getRightFromYaw T g.gCurrentBuildYaw) l2 s2 (g.gNextBlockIndex.tmod 10) lat hlat i hi5
      rw [hic] at k1 hx hz
      rw [hcen] at hx hz
      refine ⟨k1, ⟨a, ha1, ha2, hx, hz⟩, ?_⟩
      rw [hx, hz]
      simp only [getRightFromYaw, getDirectionFromYaw, Vec3.cross]
      ring
    · rw [hst, placeCoins_coins_outside T blk _ _ _ _ _ h, hc0] at hic
      simp at hic
  · norm_num [List.range_succ]

theorem generateNextBlock_center (T : Trig) (g : Game) :
    (generateNextBlock T g).gNextBlockCenter =
      (if (chooseBlockType g.gNextBlockIndex g.gRandState).type = BlockType.TurnLeft then
        g.gNextBlockCenter + getRightFromYaw T g.gCurrentBuildYaw * (-Block.SIZE)
      else if (chooseBlockType g.gNextBlockIndex g.gRandState).type = BlockType.TurnRight then
        g.gNextBlockCenter + getRightFromYaw T g.gCurrentBuildYaw * Block.SIZE
      else g.gNextBlockCenter + getDirectionFromYaw T g.gCurrentBuildYaw * Block.SIZE) := by
  unfold generateNextBlock
  simp only [buildBlock_type, buildBlock_centerPos, buildBlock_yaw]

theorem generateNextBlock_yaw (T : Trig) (g : Game) :
    (generateNextBlock T g).gCurrentBuildYaw =
      (if (chooseBlockType g.gNextBlockIndex g.gRandState).type = BlockType.TurnLeft then
        (if g.gCurrentBuildYaw + 90 ≥ 360 then g.gCurrentBuildYaw + 90 - 360
         else g.gCurrentBuildYaw + 90)
      else if (chooseBlockType g.gNextBlockIndex g.gRandState).type = BlockType.TurnRight then
        (if g.gCurrentBuildYaw - 90 < 0 then g.gCurrentBuildYaw - 90 + 360
         else g.gCurrentBuildYaw - 90)
      else g.gCurrentBuildYaw) := by
  unfold generateNextBlock
  simp only [buildBlock_type]

theorem axisTrig_exact : axisTrig.axisExact := by
  norm_num [Trig.axisExact, axisTrig]

/-! ## Headings -/

theorem axisYaw_range (y : ℚ) (h : axisYaw y) : 0 ≤ y ∧ y < 360 := by
  rcases h with h | h | h | h <;> rw [h] <;> norm_num

theorem axisYaw_left (y : ℚ) (h : axisYaw y) :
    axisYaw (if y + 90 ≥ 360 then y + 90 - 360 else y + 90) := by
  unfold axisYaw
  rcases h with h | h | h | h <;> rw [h] <;> norm_num

theorem axisYaw_right (y : ℚ) (h : axisYaw y) :
    axisYaw (if y - 90 < 0 then y - 90 + 360 else y - 90) := by
  unfold axisYaw
  rcases h with h | h | h | h <;> rw [h] <;> norm_num

theorem turnLeft_axisYaw (p : Player) (h : axisYaw p.yaw) : axisYaw p.turnLeft.yaw := by
  unfold Player.turnLeft
  split_ifs
  · exact axisYaw_left p.yaw h
  · exact h

theorem turnRight_axisYaw (p : Player) (h : axisYaw p.yaw) : axisYaw p.turnRight.yaw := by
  unfold Player.turnRight
  split_ifs
  · exact axisYaw_right p.yaw h
  · exact h

theorem updatePhysics_yaw (T : Trig) (p : Player) (dt m : ℚ) :
    (p.updatePhysics T dt m).yaw = p.yaw := by
  unfold Player.updatePhysics Player.tickSlideTimer Player.integrateVertical
  simp only
  split_ifs <;> rfl

theorem jump_yaw (p : Player) : p.jump.yaw = p.yaw := by
  unfold Player.jump
  split_ifs <;> rfl

theorem startSlide_yaw (p : Player) : p.startSlide.yaw = p.yaw := by
  unfold Player.startSlide
  split_ifs <;> rfl

theorem generateNextBlock_axisYaw (T : Trig) (g : Game) (h : axisYaw g.gCurrentBuildYaw) :
    axisYaw (generateNextBlock T g).gCurrentBuildYaw := by
  rw [generateNextBlock_yaw]
  by_cases h1 : (chooseBlockType g.gNextBlockIndex g.gRandState).type = BlockType.TurnLeft
  · rw [if_pos h1]
    exact axisYaw_left _ h
  · rw [if_neg h1]
    by_cases h2 : (chooseBlockType g.gNextBlockIndex g.gRandState).type = BlockType.TurnRight
    · rw [if_pos h2]
      exact axisYaw_right _ h
    · rw [if_neg h2]
      exact h

/-- C19. Headings stay axis-aligned: in every state reachable from the reset state by
`generateNextBlock`, `turnLeft`, `turnRight`, `updatePhysics` (and `jump`,
`startSlide`), `gCurrentBuildYaw` and `player.yaw` are each one of 0, 90, 180, 270,
hence in `[0, 360)`, and so is the `yaw` of every block in `gBlocks`. -/
theorem C19_headings_axis_aligned (T : Trig) (g : Game) (h : ReachableHeading T g) :
    (axisYaw g.gCurrentBuildYaw ∧ axisYaw g.player.yaw ∧
      ∀ b ∈ g.gBlocks, axisYaw b.yaw) ∧
    (0 ≤ g.gCurrentBuildYaw ∧ g.gCurrentBuildYaw < 360) ∧
    (0 ≤ g.player.yaw ∧ g.player.yaw < 360) := by
  have key : axisYaw g.gCurrentBuildYaw ∧ axisYaw g.player.yaw ∧
      ∀ b ∈ g.gBlocks, axisYaw b.yaw := by
    induction h with
    | reset g0 =>
      refine ⟨Or.inr (Or.inr (Or.inl rfl)), Or.inr (Or.inr (Or.inl rfl)), ?_⟩
      intro b hb
      have e : (resetGlobals g0).gBlocks = [] := rfl
      rw [e] at hb
      simp at hb
    | generate g _ ih =>
      obtain ⟨h1, h2, h3⟩ := ih
      refine ⟨generateNextBlock_axisYaw T g h1, h2, ?_⟩
      intro b hb
      rw [generateNextBlock_blocks, List.mem_append, List.mem_singleton] at hb
      rcases hb with hb | hb
      · exact h3 b hb
      · rw [hb, buildBlock_yaw]
        exact h1
    | turnLeft g _ ih => exact ⟨ih.1, turnLeft_axisYaw _ ih.2.1, ih.2.2⟩
    | turnRight g _ ih => exact ⟨ih.1, turnRight_axisYaw _ ih.2.1, ih.2.2⟩
    | updatePhysics g dt m _ ih =>
      refine ⟨ih.1, ?_, ih.2.2⟩
      show axisYaw (g.player.updatePhysics T dt m).yaw
      rw [updatePhysics_yaw]
      exact ih.2.1
    | jump g _ ih =>
      refine ⟨ih.1, ?_, ih.2.2⟩
      show axisYaw g.player.jump.yaw
      rw [jump_yaw]
      exact ih.2.1
    | startSlide g _ ih =>
      refine ⟨ih.1, ?_, ih.2.2⟩
      show axisYaw g.player.startSlide.yaw
      rw [startSlide_yaw]
      exact ih.2.1
  exact ⟨key, axisYaw_range _ key.1, axisYaw_range _ key.2.1⟩

/-- Witness of C19: one block generated after the reset, then a left turn of the
player. -/
theorem C19_headings_axis_aligned_witness :
    axisYaw (generateNextBlock axisTrig (resetGlobals initialGame)).gCurrentBuildYaw ∧
    axisYaw (generateNextBlock axisTrig (resetGlobals initialGame)).player.turnLeft.yaw :=
  ⟨(C19_headings_axis_aligned axisTrig _
      (ReachableHeading.turnLeft _
        (ReachableHeading.generate _ (ReachableHeading.reset initialGame)))).1.1,
   (C19_headings_axis_aligned axisTrig _
      (ReachableHeading.turnLeft _
        (ReachableHeading.generate _ (ReachableHeading.reset initialGame)))).1.2.1⟩

/-! ## Turn commands -/

theorem mod360_of_range (a : ℚ) (k : Int) (h1 : 360 * (k : ℚ) ≤ a)
    (h2 : a < 360 * ((k : ℚ) + 1)) : mod360 a = a - 360 * (k : ℚ) := by
  unfold mod360
  have hf : ⌊a / 360⌋ = k := by
    rw [Int.floor_eq_iff]
    constructor
    · rw [le_div_iff₀ (by norm_num : (0 : ℚ) < 360)]
      linarith
    · rw [div_lt_iff₀ (by norm_num : (0 : ℚ) < 360)]
      linarith
  rw [hf]

theorem turnLeft_eq (p : Player) (hg : p.onGround = true) (hs : p.sliding = false)
    (h0 : 0 ≤ p.yaw) (h1 : p.yaw < 360) :
    p.turnLeft = { p with yaw := mod360 (p.yaw + 90) } := by
  unfold Player.turnLeft
  rw [if_pos ⟨hs, hg⟩]
  simp only
  by_cases hc : p.yaw + 90 ≥ 360
  · rw [if_pos hc, mod360_of_range (p.yaw + 90) 1 (by push_cast; linarith)
      (by push_cast; linarith)]
    push_cast
    ring_nf
  · rw [if_neg hc, mod360_of_range (p.yaw + 90) 0 (by push_cast; linarith)
      (by push_cast; linarith)]
    push_cast
    ring_nf

theorem turnRight_eq (p : Player) (hg : p.onGround = true) (hs : p.sliding = false)
    (h0 : 0 ≤ p.yaw) (h1 : p.yaw < 360) :
    p.turnRight = { p with yaw := mod360 (p.yaw - 90) } := by
  unfold Player.turnRight
  rw [if_pos ⟨hs, hg⟩]
  simp only
  by_cases hc : p.yaw - 90 < 0
  · rw [if_pos hc, mod360_of_range (p.yaw - 90) (-1) (by push_cast; linarith)
      (by push_cast; linarith)]
    push_cast
    ring_nf
  · rw [if_neg hc, mod360_of_range (p.yaw - 90) 0 (by push_cast; linarith)
      (by push_cast; linarith)]
    push_cast
    ring_nf

theorem mod360_range (a : ℚ) : 0 ≤ mod360 a ∧ mod360 a < 360 := by
  unfold mod360
  have h1 := Int.floor_le (a / 360)
  have h2 := Int.lt_floor_add_one (a / 360)
  rw [le_div_iff₀ (by norm_num : (0 : ℚ) < 360)] at h1
  rw [div_lt_iff₀ (by norm_num : (0 : ℚ) < 360)] at h2
  constructor <;> linarith

/-- C15. Turn commands are honoured only while grounded and not sliding: with
`sliding = true` or `onGround = false`, `turnLeft` and `turnRight` return the player
unchanged; with `onGround = true`, `sliding = false` and `yaw` in `[0, 360)`,
`turnLeft` sets `yaw` to `(yaw + 90) mod 360` and `turnRight` to `(yaw - 90) mod 360`
and change no other field, the new yaw is again in `[0, 360)`, and `turnRight` after
`turnLeft` (as well as `turnLeft` after `turnRight`) gives back the original
player. -/
theorem C15_turn_commands (p : Player) :
    ((p.sliding = true ∨ p.onGround = false) → p.turnLeft = p ∧ p.turnRight = p) ∧
    ((p.onGround = true ∧ p.sliding = false ∧ 0 ≤ p.yaw ∧ p.yaw < 360) →
      p.turnLeft = { p with yaw := mod360 (p.yaw + 90) } ∧
      p.turnRight = { p with yaw := mod360 (p.yaw - 90) } ∧
      (0 ≤ p.turnLeft.yaw ∧ p.turnLeft.yaw < 360) ∧
      (0 ≤ p.turnRight.yaw ∧ p.turnRight.yaw < 360) ∧
      p.turnLeft.turnRight = p ∧ p.turnRight.turnLeft = p) := by
  constructor
  · intro h
    have hc : ¬ (p.sliding = false ∧ p.onGround = true) := by
      rintro ⟨h1, h2⟩
      rcases h with h | h
      · rw [h1] at h; exact absurd h (by decide)
      · rw [h2] at h; exact absurd h (by decide)
    unfold Player.turnLeft Player.turnRight
    rw [if_neg hc, if_neg hc]
    exact ⟨rfl, rfl⟩
  · rintro ⟨hg, hs, h0, h1⟩
    have eL := turnLeft_eq p hg hs h0 h1
    have eR := turnRight_eq p hg hs h0 h1
    have rL := mod360_range (p.yaw + 90)
    have rR := mod360_range (p.yaw - 90)
    refine ⟨eL, eR, by rw [eL]; exact rL, by rw [eR]; exact rR, ?_, ?_⟩
    · have hq := turnRight_eq { p with yaw := mod360 (p.yaw + 90) } hg hs rL.1 rL.2
      rw [eL, hq]
      have e : mod360 (mod360 (p.yaw + 90) - 90) = p.yaw := by
        by_cases hc : p.yaw + 90 ≥ 360
        · rw [mod360_of_range (p.yaw + 90) 1 (by push_cast; linarith) (by push_cast; linarith),
            mod360_of_range _ (-1) (by push_cast; linarith) (by push_cast; linarith)]
          push_cast
          ring
        · rw [mod360_of_range (p.yaw + 90) 0 (by push_cast; linarith) (by push_cast; linarith),
            mod360_of_range _ 0 (by push_cast; linarith) (by push_cast; linarith)]
          push_cast
          ring
      simp only [e]
    · have hq := turnLeft_eq { p with yaw := mod360 (p.yaw - 90) } hg hs rR.1 rR.2
      rw [eR, hq]
      have e : mod360 (mod360 (p.yaw - 90) + 90) = p.yaw := by
        by_cases hc : p.yaw - 90 < 0
        · rw [mod360_of_range (p.yaw - 90) (-1) (by push_cast; linarith)
            (by push_cast; linarith),
            mod360_of_range _ 1 (by push_cast; linarith) (by push_cast; linarith)]
          push_cast
          ring
        · rw [mod360_of_range (p.yaw - 90) 0 (by push_cast; linarith) (by push_cast; linarith),
            mod360_of_range _ 0 (by push_cast; linarith) (by push_cast; linarith)]
          push_cast
          ring
      simp only [e]

/-- Witness of C15: the default player (grounded, not sliding, yaw 180) turns left
and back. -/
theorem C15_turn_commands_witness :
    ({} : Player).turnLeft = { ({} : Player) with yaw := mod360 (({} : Player).yaw + 90) } ∧
    ({} : Player).turnLeft.turnRight = ({} : Player) :=
  ⟨((C15_turn_commands {}).2 ⟨rfl, rfl, by norm_num, by norm_num⟩).1,
    ((C15_turn_commands {}).2 ⟨rfl, rfl, by norm_num, by norm_num⟩).2.2.2.2.1⟩

/-! ## Wall boxes -/

theorem fmod_of_range (a b : ℚ) (k : Int) (hb : 0 < b) (ha : 0 ≤ a)
    (h1 : b * (k : ℚ) ≤ a) (h2 : a < b * ((k : ℚ) + 1)) : fmod a b = a - b * (k : ℚ) := by
  unfold fmod
  have hq : 0 ≤ a / b := div_nonneg ha (le_of_lt hb)
  have ht : Int.tdiv (a / b).num ((a / b).den : Int) = ⌊a / b⌋ := truncToInt_of_nonneg _ hq
  have hf : ⌊a / b⌋ = k := by
    rw [Int.floor_eq_iff]
    constructor
    · rw [le_div_iff₀ hb]
      linarith
    · rw [div_lt_iff₀ hb]
      linarith
  rw [ht, hf]

theorem fmod_axis :
    fmod 0 180 = 0 ∧ fmod 90 180 = 90 ∧ fmod 180 180 = 0 ∧ fmod 270 180 = 90 := by
  refine ⟨?_, ?_, ?_, ?_⟩
  · rw [fmod_of_range 0 180 0 (by norm_num) (by norm_num) (by norm_num) (by norm_num)]
    norm_num
  · rw [fmod_of_range 90 180 0 (by norm_num) (by norm_num) (by norm_num) (by norm_num)]
    norm_num
  · rw [fmod_of_range 180 180 1 (by norm_num) (by norm_num) (by norm_num) (by norm_num)]
    norm_num
  · rw [fmod_of_range 270 180 1 (by norm_num) (by norm_num) (by norm_num) (by norm_num)]
    norm_num

theorem swapCondition_axis (yaw : ℚ) (hy : axisYaw yaw) :
    (|fmod yaw 180 - 90| < 1 ∨ |fmod yaw 180 + 90| < 1) ↔ (yaw = 90 ∨ yaw = 270) := by
  obtain ⟨f0, f90, f180, f270⟩ := fmod_axis
  rcases hy with h | h | h | h <;> rw [h] <;>
    simp only [f0, f90, f180, f270] <;> norm_num [abs_lt]

theorem createBlock_swapped (T : Trig) (n : Int) (ty : BlockType) (c : Vec3) (yaw : ℚ)
    (h : |fmod yaw 180 - 90| < 1 ∨ |fmod yaw 180 + 90| < 1) :
    (createBlock T n ty c yaw).leftWall = (createBlockWalls T n ty c yaw).leftWall.swapXZ ∧
    (createBlock T n ty c yaw).rightWall = (createBlockWalls T n ty c yaw).rightWall.swapXZ ∧
    (createBlock T n ty c yaw).frontWall =
      (if (createBlockWalls T n ty c yaw).hasFrontWall = true then
        (createBlockWalls T n ty c yaw).frontWall.swapXZ
       else (createBlockWalls T n ty c yaw).frontWall) ∧
    (createBlock T n ty c yaw).hasFrontWall = (createBlockWalls T n ty c yaw).hasFrontWall := by
  unfold createBlock
  simp [h]

theorem createBlock_unswapped (T : Trig) (n : Int) (ty : BlockType) (c : Vec3) (yaw : ℚ)
    (h : ¬ (|fmod yaw 180 - 90| < 1 ∨ |fmod yaw 180 + 90| < 1)) :
    createBlock T n ty c yaw = createBlockWalls T n ty c yaw := by
  unfold createBlock
  simp only [h, if_false]

theorem createBlockWalls_sizes (T : Trig) (n : Int) (ty : BlockType) (c : Vec3) (yaw : ℚ) :
    (ty ≠ BlockType.TurnLeft →
      (createBlockWalls T n ty c yaw).leftWall.size = ⟨0.5, 2, 5⟩) ∧
    (ty ≠ BlockType.TurnRight →
      (createBlockWalls T n ty c yaw).rightWall.size = ⟨0.5, 2, 5⟩) ∧
    ((ty = BlockType.TurnLeft ∨ ty = BlockType.TurnRight) →
      (createBlockWalls T n ty c yaw).hasFrontWall = true ∧
      (createBlockWalls T n ty c yaw).frontWall.size = ⟨6, 2, 0.5⟩) ∧
    (ty = BlockType.TurnLeft → (createBlockWalls T n ty c yaw).leftWall.size = Vec3.zero) ∧
    (ty = BlockType.TurnRight → (createBlockWalls T n ty c yaw).rightWall.size = Vec3.zero) ∧
    ((ty = BlockType.Normal ∨ ty = BlockType.TurnStraight) →
      (createBlockWalls T n ty c yaw).hasFrontWall = false) := by
  cases ty <;>
    simp [createBlockWalls, leftWallOf, rightWallOf, frontWallOf, Block.SIZE,
      Block.WALL_HEIGHT, Block.WALL_THICKNESS] <;> norm_num

theorem swapXZ_size (w : Wall) : w.swapXZ.size = ⟨w.size.z, w.size.y, w.size.x⟩ := rfl

/-- C17. Wall boxes stay axis-aligned with the corridor: for a yaw of 0, 90, 180 or
270 (with the exact sines and cosines there), `createBlock` swaps the x and z extents
of its walls exactly when the yaw is 90 or 270; every side wall it builds is present
and has extent 0.5 along the block's right axis and 5 along its forward axis, every
front wall has extent 0.5 along the forward axis and 6 along the right axis;
`TurnLeft` blocks have a left wall of size 0 and a front wall, `TurnRight` blocks a
right wall of size 0 and a front wall, `Normal` and `TurnStraight` blocks both side
walls and no front wall. -/
theorem C17_wall_boxes (T : Trig) (hT : T.axisExact) (n : Int) (ty : BlockType) (c : Vec3)
    (yaw : ℚ) (hy : axisYaw yaw) (b : Block) (hb : b = createBlock T n ty c yaw) :
    ((yaw = 90 ∨ yaw = 270) →
      b.leftWall = (createBlockWalls T n ty c yaw).leftWall.swapXZ ∧
      b.rightWall = (createBlockWalls T n ty c yaw).rightWall.swapXZ ∧
      b.frontWall = (if (createBlockWalls T n ty c yaw).hasFrontWall = true then
        (createBlockWalls T n ty c yaw).frontWall.swapXZ
        else (createBlockWalls T n ty c yaw).frontWall)) ∧
    ((yaw = 0 ∨ yaw = 180) → b = createBlockWalls T n ty c yaw) ∧
    (ty ≠ BlockType.TurnLeft →
      ¬ (b.leftWall.size.x < 0.1 ∧ b.leftWall.size.z < 0.1) ∧
      extentAlong b.leftWall.size (getRightFromYaw T yaw) = 0.5 ∧
      extentAlong b.leftWall.size (getDirectionFromYaw T yaw) = 5) ∧
    (ty ≠ BlockType.TurnRight →
      ¬ (b.rightWall.size.x < 0.1 ∧ b.rightWall.size.z < 0.1) ∧
      extentAlong b.rightWall.size (getRightFromYaw T yaw) = 0.5 ∧
      extentAlong b.rightWall.size (getDirectionFromYaw T yaw) = 5) ∧
    ((ty = BlockType.TurnLeft ∨ ty = BlockType.TurnRight) →
      b.hasFrontWall = true ∧
      extentAlong b.frontWall.size (getDirectionFromYaw T yaw) = 0.5 ∧
      extentAlong b.frontWall.size (getRightFromYaw T yaw) = 6) ∧
    (ty = BlockType.TurnLeft → b.leftWall.size = Vec3.zero) ∧
    (ty = BlockType.TurnRight → b.rightWall.size = Vec3.zero) ∧
    ((ty = BlockType.Normal ∨ ty = BlockType.TurnStraight) → b.hasFrontWall = false) := by
  subst hb
  obtain ⟨⟨s0, c0⟩, ⟨s90, c90⟩, ⟨s180, c180⟩, ⟨s270, c270⟩⟩ := hT
  obtain ⟨z1, z2, z3, z4, z5, z6⟩ := createBlockWalls_sizes T n ty c yaw
  by_cases hsw : yaw = 90 ∨ yaw = 270
  · obtain ⟨e1, e2, e3, e4⟩ := createBlock_swapped T n ty c yaw
      ((swapCondition_axis yaw hy).mpr hsw)
    refine ⟨fun _ => ⟨e1, e2, e3⟩, ?_, ?_, ?_, ?_, ?_, ?_, ?_⟩
    · intro h
      exfalso
      rcases hsw with h1 | h1 <;> rcases h with h2 | h2 <;> rw [h1] at h2 <;> norm_num at h2
    · intro hne
      rw [e1, swapXZ_size, z1 hne]
      rcases hsw with h | h <;> rw [h] <;>
        norm_num [extentAlong, Wall.swapXZ, getRightFromYaw, getDirectionFromYaw, Vec3.cross,
          s90, c90, s270, c270, abs_neg, abs_one, abs_zero]
    · intro hne
      rw [e2, swapXZ_size, z2 hne]
      rcases hsw with h | h <;> rw [h] <;>
        norm_num [extentAlong, Wall.swapXZ, getRightFromYaw, getDirectionFromYaw, Vec3.cross,
          s90, c90, s270, c270, abs_neg, abs_one, abs_zero]
    · intro ht
      obtain ⟨f1, f2⟩ := z3 ht
      rw [e4, e3, if_pos f1, swapXZ_size, f2]
      refine ⟨f1, ?_⟩
      rcases hsw with h | h <;> rw [h] <;>
        norm_num [extentAlong, Wall.swapXZ, getRightFromYaw, getDirectionFromYaw, Vec3.cross,
          s90, c90, s270, c270, abs_neg, abs_one, abs_zero]
    · intro ht
      rw [e1, swapXZ_size, z4 ht]
      rfl
    · intro ht
      rw [e2, swapXZ_size, z5 ht]
      rfl
    · intro ht
      rw [e4]
      exact z6 ht
  · have hus : yaw = 0 ∨ yaw = 180 := by
      rcases hy with h | h | h | h
      · exact Or.inl h
      · exact absurd (Or.inl h) hsw
      · exact Or.inr h
      · exact absurd (Or.inr h) hsw
    have e := createBlock_unswapped T n ty c yaw
      (fun hc => hsw ((swapCondition_axis yaw hy).mp hc))
    rw [e]
    refine ⟨fun h => absurd h hsw, fun _ => rfl, ?_, ?_, ?_, z4, z5, z6⟩
    · intro hne
      rw [z1 hne]
      rcases hus with h | h <;> rw [h] <;>
        norm_num [extentAlong, getRightFromYaw, getDirectionFromYaw, Vec3.cross,
          s0, c0, s180, c180, abs_neg, abs_one, abs_zero]
    · intro hne
      rw [z2 hne]
      rcases hus with h | h <;> rw [h] <;>
        norm_num [extentAlong, getRightFromYaw, getDirectionFromYaw, Vec3.cross,
          s0, c0, s180, c180, abs_neg, abs_one, abs_zero]
    · intro ht
      obtain ⟨f1, f2⟩ := z3 ht
      rw [f2]
      refine ⟨f1, ?_⟩
      rcases hus with h | h <;> rw [h] <;>
        norm_num [extentAlong, getRightFromYaw, getDirectionFromYaw, Vec3.cross,
          s0, c0, s180, c180, abs_neg, abs_one, abs_zero]

/-- Witness of C17: a `TurnLeft` block built while heading 90. -/
theorem C17_wall_boxes_witness :
    (createBlock axisTrig 20 BlockType.TurnLeft ⟨0, 0, 0⟩ 90).hasFrontWall = true ∧
    extentAlong (createBlock axisTrig 20 BlockType.TurnLeft ⟨0, 0, 0⟩ 90).frontWall.size
      (getDirectionFromYaw axisTrig 90) = 0.5 ∧
    extentAlong (createBlock axisTrig 20 BlockType.TurnLeft ⟨0, 0, 0⟩ 90).frontWall.size
      (getRightFromYaw axisTrig 90) = 6 :=
  (C17_wall_boxes axisTrig axisTrig_exact 20 BlockType.TurnLeft ⟨0, 0, 0⟩ 90
    (Or.inr (Or.inl rfl)) _ rfl).2.2.2.2.1 (Or.inl rfl)

/-! ## Slide offset -/

/-- For a root displacement `(0, 0, d)`, `getSlideOffset` is
`(-d * sin yaw, 0, d * cos yaw)`, while `d` times the forward direction is
`(d * sin yaw, 0, d * cos yaw)`. -/
theorem getSlideOffset_forward (T : Trig) (p : Player) (d : ℚ)
    (hi : p.slideRootInitialized = true)
    (hd : p.slideRootCurrent - p.slideRootStart = ⟨0, 0, d⟩) :
    p.getSlideOffset T = ⟨-(d * T.sinDeg p.yaw), 0, d * T.cosDeg p.yaw⟩ ∧
    p.getForwardDir T * d = ⟨T.sinDeg p.yaw * d, 0, T.cosDeg p.yaw * d⟩ := by
  constructor
  · unfold Player.getSlideOffset
    rw [hi]
    simp only [Bool.true_eq_false, if_false, hd]
    ext <;> simp
  · unfold Player.getForwardDir
    rw [Vec3.scale_def]
    simp

/-- C20 (code evaluated at the failing input). For a sliding player heading 90 with
`slideRootInitialized = true` and root displacement `(0, 0, 1)`, `getSlideOffset` is
`(-1, 0, 0)` whereas one times the forward direction is `(1, 0, 0)`: the offset points
backwards. At heading 270 it is `(1, 0, 0)` against `(-1, 0, 0)`. At headings 0 and
180 the two agree. -/
theorem C20_slide_offset_mirrored :
    (playerSlidingAt 90 1).slideRootInitialized = true ∧
    (playerSlidingAt 90 1).slideRootCurrent - (playerSlidingAt 90 1).slideRootStart =
      ⟨0, 0, 1⟩ ∧
    (playerSlidingAt 90 1).getSlideOffset axisTrig = ⟨-1, 0, 0⟩ ∧
    (playerSlidingAt 90 1).getForwardDir axisTrig * (1 : ℚ) = ⟨1, 0, 0⟩ ∧
    (playerSlidingAt 90 1).getSlideOffset axisTrig ≠
      (playerSlidingAt 90 1).getForwardDir axisTrig * (1 : ℚ) ∧
    (playerSlidingAt 270 1).getSlideOffset axisTrig = ⟨1, 0, 0⟩ ∧
    (playerSlidingAt 270 1).getForwardDir axisTrig * (1 : ℚ) = ⟨-1, 0, 0⟩ ∧
    (playerSlidingAt 180 1).getSlideOffset axisTrig =
      (playerSlidingAt 180 1).getForwardDir axisTrig * (1 : ℚ) ∧
    (playerSlidingAt 0 1).getSlideOffset axisTrig =
      (playerSlidingAt 0 1).getForwardDir axisTrig * (1 : ℚ) := by
  have hd : ∀ y : ℚ, (playerSlidingAt y 1).slideRootCurrent -
      (playerSlidingAt y 1).slideRootStart = ⟨0, 0, 1⟩ := by
    intro y
    norm_num [playerSlidingAt, Vec3.sub_def]
  have h90 := getSlideOffset_forward axisTrig (playerSlidingAt 90 1) 1 rfl (hd 90)
  have h270 := getSlideOffset_forward axisTrig (playerSlidingAt 270 1) 1 rfl (hd 270)
  have h180 := getSlideOffset_forward axisTrig (playerSlidingAt 180 1) 1 rfl (hd 180)
  have h0 := getSlideOffset_forward axisTrig (playerSlidingAt 0 1) 1 rfl (hd 0)
  have y90 : (playerSlidingAt 90 1).yaw = 90 := rfl
  have y270 : (playerSlidingAt 270 1).yaw = 270 := rfl
  have y180 : (playerSlidingAt 180 1).yaw = 180 := rfl
  have y0 : (playerSlidingAt 0 1).yaw = 0 := rfl
  obtain ⟨⟨s0, c0⟩, ⟨s90, c90⟩, ⟨s180, c180⟩, ⟨s270, c270⟩⟩ := axisTrig_exact
  rw [y90, s90, c90] at h90
  rw [y270, s270, c270] at h270
  rw [y180, s180, c180] at h180
  rw [y0, s0, c0] at h0
  refine ⟨rfl, hd 90, ?_, ?_, ?_, ?_, ?_, ?_, ?_⟩
  · rw [h90.1]; norm_num
  · rw [h90.2]; norm_num
  · rw [h90.1, h90.2]
    intro h
    have hx := congrArg Vec3.x h
    norm_num at hx
  · rw [h270.1]; norm_num
  · rw [h270.2]; norm_num
  · rw [h180.1, h180.2]; norm_num
  · rw [h0.1, h0.2]; norm_num

/-! ## RNG draws per block -/

theorem frand01_state (s : Nat) : (frand01 s).2 = lcgNext s := rfl

theorem chooseBlockType_rand (n : Int) (rs : Nat) :
    (chooseBlockType n rs).rand = (if n > 0 ∧ n.tmod 20 = 0 then lcgNext rs else rs) := by
  unfold chooseBlockType
  by_cases h : n > 0 ∧ n.tmod 20 = 0
  · simp only [h, and_self, if_true]
    split_ifs <;> rfl
  · simp only [h, if_false]
    split_ifs <;> rfl

theorem placeObstacle_rand (b : Block) (y : ℚ) (rs : Nat) :
    (placeObstacle b y rs).2 = lcgNext rs := by
  unfold placeObstacle
  simp only [frand01]

theorem placeCoins_rand (T : Trig) (b : Block) (n : Int) (y : ℚ) (rs : Nat) (l s : Bool) :
    (placeCoins T b n y rs l s).rand =
      (if n.tmod 10 = 2 ∨ n.tmod 10 = 4 then lcgNext rs else rs) := by
  unfold placeCoins
  by_cases h : n.tmod 10 ≥ 2 ∧ n.tmod 10 ≤ 6
  · rw [if_pos h]
    by_cases h2 : n.tmod 10 = 2
    · have h4 : ¬ n.tmod 10 = 4 := by omega
      simp only [h2, h4, if_true, if_false, true_or, frand01]
      rw [if_neg (by norm_num)]
    · by_cases h4 : n.tmod 10 = 4
      · simp only [h4, if_true, or_true, frand01]
        simp
      · simp only [h2, h4, if_false, or_self]
  · rw [if_neg h]
    have h24 : ¬ (n.tmod 10 = 2 ∨ n.tmod 10 = 4) := by omega
    rw [if_neg h24]
theorem buildBlock_rand (T : Trig) (g : Game) :
    (buildBlock T g).rand =
      (if g.gNextBlockIndex.tmod 10 = 2 ∨ g.gNextBlockIndex.tmod 10 = 4 then
        lcgNext (if (chooseBlockType g.gNextBlockIndex g.gRandState).shouldHaveObstacle = true
          then lcgNext (chooseBlockType g.gNextBlockIndex g.gRandState).rand
          else (chooseBlockType g.gNextBlockIndex g.gRandState).rand)
      else (if (chooseBlockType g.gNextBlockIndex g.gRandState).shouldHaveObstacle = true
          then lcgNext (chooseBlockType g.gNextBlockIndex g.gRandState).rand
          else (chooseBlockType g.gNextBlockIndex g.gRandState).rand)) := by
  unfold buildBlock
  simp only [placeCoins_rand]
  by_cases hs : (chooseBlockType g.gNextBlockIndex g.gRandState).shouldHaveObstacle = true
  · simp only [hs, if_true, placeObstacle_rand]
  · simp only [hs, if_false, Bool.false_eq_true]

theorem turn_not_coin (n : Int) (h : n > 0 ∧ n.tmod 20 = 0) :
    ¬ (n.tmod 10 = 2 ∨ n.tmod 10 = 4) ∧ ¬ (n ≥ 5 ∧ n.tmod 4 = 1 ∧ n.tmod 20 ≠ 1) := by
  have h0 : (0 : Int) ≤ n := le_of_lt h.1
  have h20 := h.2
  rw [Int.tmod_eq_emod h0 (by norm_num)] at h20
  rw [Int.tmod_eq_emod h0 (by norm_num), Int.tmod_eq_emod h0 (by norm_num),
    Int.tmod_eq_emod h0 (by norm_num)]
  omega

theorem obstacle_not_coin (n : Int) (h : n ≥ 5 ∧ n.tmod 4 = 1 ∧ n.tmod 20 ≠ 1) :
    ¬ (n.tmod 10 = 2 ∨ n.tmod 10 = 4) := by
  have h0 : (0 : Int) ≤ n := by omega
  have h4 := h.2.1
  rw [Int.tmod_eq_emod h0 (by norm_num)] at h4
  rw [Int.tmod_eq_emod h0 (by norm_num)]
  omega

/-- C22. At most one RNG draw per block: a `generateNextBlock` call at index `n`
replaces `gRandState` by one LCG step of it (the state update of `frand01`) when `n`
is a turn index (`n > 0`, `n % 20 == 0`), an obstacle index (`n >= 5`, `n % 4 == 1`,
`n % 20 != 1`) or `n % 10` is 2 or 4, and leaves it unchanged otherwise; no two of
the three cases hold together. This holds for every `n`, in particular `n >= 0`. -/
theorem C22_one_draw_per_block (T : Trig) (g : Game) :
    (generateNextBlock T g).gRandState =
      (if (g.gNextBlockIndex > 0 ∧ g.gNextBlockIndex.tmod 20 = 0) ∨
          (g.gNextBlockIndex ≥ 5 ∧ g.gNextBlockIndex.tmod 4 = 1 ∧
            g.gNextBlockIndex.tmod 20 ≠ 1) ∨
          (g.gNextBlockIndex.tmod 10 = 2 ∨ g.gNextBlockIndex.tmod 10 = 4) then
        lcgNext g.gRandState
      else g.gRandState) ∧
    (∀ s : Nat, (frand01 s).2 = lcgNext s) ∧
    ¬ ((g.gNextBlockIndex > 0 ∧ g.gNextBlockIndex.tmod 20 = 0) ∧
      (g.gNextBlockIndex ≥ 5 ∧ g.gNextBlockIndex.tmod 4 = 1 ∧
        g.gNextBlockIndex.tmod 20 ≠ 1)) ∧
    ¬ ((g.gNextBlockIndex > 0 ∧ g.gNextBlockIndex.tmod 20 = 0) ∧
      (g.gNextBlockIndex.tmod 10 = 2 ∨ g.gNextBlockIndex.tmod 10 = 4)) ∧
    ¬ ((g.gNextBlockIndex ≥ 5 ∧ g.gNextBlockIndex.tmod 4 = 1 ∧
        g.gNextBlockIndex.tmod 20 ≠ 1) ∧
      (g.gNextBlockIndex.tmod 10 = 2 ∨ g.gNextBlockIndex.tmod 10 = 4)) := by
  refine ⟨?_, fun s => rfl, fun h => (turn_not_coin _ h.1).2 h.2,
    fun h => (turn_not_coin _ h.1).1 h.2, fun h => obstacle_not_coin _ h.1 h.2⟩
  have hr : (generateNextBlock T g).gRandState = (buildBlock T g).rand := rfl
  rw [hr, buildBlock_rand, chooseBlockType_rand]
  by_cases ht : g.gNextBlockIndex > 0 ∧ g.gNextBlockIndex.tmod 20 = 0
  · obtain ⟨hc, ho⟩ := turn_not_coin _ ht
    have hso : ¬ ((chooseBlockType g.gNextBlockIndex g.gRandState).shouldHaveObstacle = true) := by
      rw [chooseBlockType_obstacle]
      exact ho
    rw [if_neg hc, if_neg hso, if_pos ht, if_pos (Or.inl ht)]
  · by_cases ho : g.gNextBlockIndex ≥ 5 ∧ g.gNextBlockIndex.tmod 4 = 1 ∧
        g.gNextBlockIndex.tmod 20 ≠ 1
    · have hc := obstacle_not_coin _ ho
      have hso : (chooseBlockType g.gNextBlockIndex g.gRandState).shouldHaveObstacle = true := by
        rw [chooseBlockType_obstacle]
        exact ho
      rw [if_neg hc, if_pos hso, if_neg ht, if_pos (Or.inr (Or.inl ho))]
    · have hso : ¬ ((chooseBlockType g.gNextBlockIndex g.gRandState).shouldHaveObstacle =
          true) := by
        rw [chooseBlockType_obstacle]
        exact ho
      by_cases hc : g.gNextBlockIndex.tmod 10 = 2 ∨ g.gNextBlockIndex.tmod 10 = 4
      · rw [if_pos hc, if_neg hso, if_neg ht, if_pos (Or.inr (Or.inr hc))]
      · rw [if_neg hc, if_neg hso, if_neg ht, if_neg (by
          rintro (h | h | h)
          · exact ht h
          · exact ho h
          · exact hc h)]

/-! ## Player flags -/

theorem updatePhysics_eq (T : Trig) (p : Player) (dt m : ℚ) :
    p.updatePhysics T dt m =
      Player.tickSlideTimer
        (if (p.moveHorizontal T dt m).sliding = false then
          Player.integrateVertical (p.moveHorizontal T dt m) dt
         else
          { p.moveHorizontal T dt m with
            pos := { (p.moveHorizontal T dt m).pos with y := 0 }
            vel := { (p.moveHorizontal T dt m).vel with y := 0 } }) dt := rfl

theorem moveHorizontal_frame (T : Trig) (p : Player) (dt m : ℚ) :
    (p.moveHorizontal T dt m).pos.y = p.pos.y ∧
    (p.moveHorizontal T dt m).vel = p.vel ∧
    (p.moveHorizontal T dt m).onGround = p.onGround ∧
    (p.moveHorizontal T dt m).sliding = p.sliding ∧
    (p.moveHorizontal T dt m).state = p.state := by
  refine ⟨?_, rfl, rfl, rfl, rfl⟩
  simp [Player.moveHorizontal, Player.getForwardDir, Player.getRightDir, Vec3.cross,
    Vec3.add_def, Vec3.scale_def]

theorem consistent_of_fields (p q : Player) (h : p.consistent)
    (h1 : q.pos.y = p.pos.y) (h2 : q.vel.y = p.vel.y) (h3 : q.onGround = p.onGround)
    (h4 : q.sliding = p.sliding) (h5 : q.state = p.state) : q.consistent := by
  unfold Player.consistent at h ⊢
  rw [h1, h2, h3, h4, h5]
  exact h

theorem integrateVertical_consistent (p : Player) (dt : ℚ) (h : p.consistent)
    (hs : p.sliding = false) :
    (Player.integrateVertical p dt).consistent ∧
      (Player.integrateVertical p dt).sliding = false := by
  unfold Player.consistent at h ⊢
  obtain ⟨h1, h2, h3, h4, h5⟩ := h
  unfold Player.integrateVertical
  simp only
  by_cases hg : p.onGround = false
  · have hj : p.state = AnimState.Jumping := h5.mpr hg
    simp only [hg, if_true]
    by_cases hl : p.pos.y + (p.vel.y - p.gravity * dt) * dt ≤ 0
    · rw [if_pos hl]
      simp [hs]
    · rw [if_neg hl]
      have hpos := le_of_lt (not_le.mp hl)
      simp [hs, hg, hj, hpos]
  · have hg2 : p.onGround = true := by simpa using hg
    obtain ⟨hy, hv⟩ := h2 hg2
    have hl : p.pos.y + p.vel.y * dt ≤ 0 := by rw [hy, hv]; norm_num
    simp only [hg2, Bool.true_eq_false, if_false, hl, if_true]
    simp only [hg2] at h5
    simp [hs, h4, h5]

theorem tickSlideTimer_consistent (p : Player) (dt : ℚ) (h : p.consistent) :
    (Player.tickSlideTimer p dt).consistent := by
  unfold Player.consistent at h ⊢
  obtain ⟨h1, h2, h3, h4, h5⟩ := h
  unfold Player.tickSlideTimer
  by_cases hs : p.sliding = true
  · rw [if_pos hs]
    simp only
    have hg := h3 hs
    by_cases ht : p.slideTimer - dt ≤ 0
    · rw [if_pos ht]
      simp [h1, h2 hg, hg]
    · rw [if_neg ht]
      exact ⟨h1, h2, h3, h4, h5⟩
  · rw [if_neg hs]
    exact ⟨h1, h2, h3, h4, h5⟩

theorem updatePhysics_consistent (T : Trig) (p : Player) (dt m : ℚ) (h : p.consistent) :
    (p.updatePhysics T dt m).consistent := by
  rw [updatePhysics_eq]
  obtain ⟨f1, f2, f3, f4, f5⟩ := moveHorizontal_frame T p dt m
  have hm : (p.moveHorizontal T dt m).consistent :=
    consistent_of_fields p _ h f1 (by rw [f2]) f3 f4 f5
  apply tickSlideTimer_consistent
  by_cases hs : (p.moveHorizontal T dt m).sliding = false
  · rw [if_pos hs]
    exact (integrateVertical_consistent _ dt hm hs).1
  · rw [if_neg hs]
    have hs2 : (p.moveHorizontal T dt m).sliding = true := by simpa using hs
    unfold Player.consistent at hm ⊢
    obtain ⟨h1, h2, h3, h4, h5⟩ := hm
    exact ⟨le_refl _, fun _ => ⟨rfl, rfl⟩, h3, h4, h5⟩

theorem jump_consistent (p : Player) (h : p.consistent) : p.jump.consistent := by
  unfold Player.consistent at h ⊢
  obtain ⟨h1, h2, h3, h4, h5⟩ := h
  unfold Player.jump
  by_cases hc : p.onGround = true ∧ p.sliding = false
  · rw [if_pos hc]
    simp [h1, hc.2]
  · rw [if_neg hc]
    exact ⟨h1, h2, h3, h4, h5⟩

theorem startSlide_consistent (p : Player) (h : p.consistent) : p.startSlide.consistent := by
  unfold Player.consistent at h ⊢
  obtain ⟨h1, h2, h3, h4, h5⟩ := h
  unfold Player.startSlide
  by_cases hc : p.onGround = true ∧ p.sliding = false
  · rw [if_pos hc]
    simp [h1, h2 hc.1, hc.1]
  · rw [if_neg hc]
    exact ⟨h1, h2, h3, h4, h5⟩

theorem turnLeft_consistent (p : Player) (h : p.consistent) : p.turnLeft.consistent := by
  unfold Player.turnLeft
  split_ifs
  · exact consistent_of_fields p _ h rfl rfl rfl rfl rfl
  · exact h

theorem turnRight_consistent (p : Player) (h : p.consistent) : p.turnRight.consistent := by
  unfold Player.turnRight
  split_ifs
  · exact consistent_of_fields p _ h rfl rfl rfl rfl rfl
  · exact h

theorem reachablePlayer_consistent (T : Trig) (p : Player) (h : ReachablePlayer T p) :
    p.consistent := by
  induction h with
  | default =>
    unfold Player.consistent
    simp
  | jump p _ ih => exact jump_consistent p ih
  | startSlide p _ ih => exact startSlide_consistent p ih
  | turnLeft p _ ih => exact turnLeft_consistent p ih
  | turnRight p _ ih => exact turnRight_consistent p ih
  | updatePhysics p dt m _ ih => exact updatePhysics_consistent T p dt m ih

/-- C21. Player flag consistency: in every state reachable from the default `Player`
by `jump`, `startSlide`, `turnLeft`, `turnRight` and `updatePhysics(dt, m)` (for any
`dt`, in particular `dt >= 0`): `pos.y >= 0`; `onGround` implies `pos.y = 0` and
`vel.y = 0`; `sliding` implies `onGround`; `state = Sliding` exactly when `sliding`;
and `state = Jumping` exactly when not `onGround`. -/
theorem C21_player_flag_consistency (T : Trig) (p : Player) (h : ReachablePlayer T p) :
    0 ≤ p.pos.y ∧
    (p.onGround = true → p.pos.y = 0 ∧ p.vel.y = 0) ∧
    (p.sliding = true → p.onGround = true) ∧
    (p.state = AnimState.Sliding ↔ p.sliding = true) ∧
    (p.state = AnimState.Jumping ↔ p.onGround = false) :=
  reachablePlayer_consistent T p h

/-- Witness of C21: the default player jumps and takes one tick of 0.016 s. -/
theorem C21_player_flag_consistency_witness :
    0 ≤ ((({} : Player).jump).updatePhysics axisTrig 0.016 0).pos.y ∧
    (((({} : Player).jump).updatePhysics axisTrig 0.016 0).state = AnimState.Jumping ↔
      ((({} : Player).jump).updatePhysics axisTrig 0.016 0).onGround = false) :=
  ⟨(C21_player_flag_consistency axisTrig _
      (ReachablePlayer.updatePhysics _ 0.016 0
        (ReachablePlayer.jump _ ReachablePlayer.default))).1,
   (C21_player_flag_consistency axisTrig _
      (ReachablePlayer.updatePhysics _ 0.016 0
        (ReachablePlayer.jump _ ReachablePlayer.default))).2.2.2.2⟩

/-! ## Corridor continuity -/

theorem floatTrig_near : floatTrig.axisNear (1 / 10000000) := by
  unfold Trig.axisNear floatTrig
  simp only
  norm_num [abs_le]

theorem turnAtOrigin_type :
    (chooseBlockType turnAtOrigin.gNextBlockIndex turnAtOrigin.gRandState).type =
      BlockType.TurnLeft := by
  norm_num [chooseBlockType, turnAtOrigin, frand01, lcgNext, Int.tmod]

/-- C14, as amended. Corridor continuity through turns: for a build yaw of 0, 90, 180
or 270 and whatever type the generated block has, after `generateNextBlock` the new
`gNextBlockCenter` is, for a `Normal` or `TurnStraight` block, exactly the centre of
the block just generated plus `Block.SIZE` times the forward direction of the
(unchanged) `gCurrentBuildYaw`; for a turn block it is the block's centre minus
(`TurnLeft`) or plus (`TurnRight`) `Block.SIZE` times the block's own right vector,
and this agrees with the centre plus `Block.SIZE` times the forward direction of the
updated `gCurrentBuildYaw` exactly in `y` and to within `2 * Block.SIZE * ε` in `x` and
`z`, where `ε` bounds the error of the sines and cosines at the four headings (so
exactly when they are exact). -/
theorem C14_corridor_continuity (T : Trig) (ε : ℚ) (hT : T.axisNear ε) (g : Game)
    (hy : axisYaw g.gCurrentBuildYaw) :
    ∃ b : Block, (generateNextBlock T g).gBlocks = g.gBlocks ++ [b] ∧
      ((b.type = BlockType.Normal ∨ b.type = BlockType.TurnStraight) →
        (generateNextBlock T g).gCurrentBuildYaw = g.gCurrentBuildYaw ∧
        (generateNextBlock T g).gNextBlockCenter =
          b.centerPos +
            getDirectionFromYaw T (generateNextBlock T g).gCurrentBuildYaw * Block.SIZE) ∧
      (b.type = BlockType.TurnLeft →
        (generateNextBlock T g).gNextBlockCenter =
          b.centerPos + getRightFromYaw T b.yaw * (-Block.SIZE)) ∧
      (b.type = BlockType.TurnRight →
        (generateNextBlock T g).gNextBlockCenter =
          b.centerPos + getRightFromYaw T b.yaw * Block.SIZE) ∧
      |(generateNextBlock T g).gNextBlockCenter.x -
          (b.centerPos + getDirectionFromYaw T
            (generateNextBlock T g).gCurrentBuildYaw * Block.SIZE).x| ≤ 2 * Block.SIZE * ε ∧
      (generateNextBlock T g).gNextBlockCenter.y =
          (b.centerPos + getDirectionFromYaw T
            (generateNextBlock T g).gCurrentBuildYaw * Block.SIZE).y ∧
      |(generateNextBlock T g).gNextBlockCenter.z -
          (b.centerPos + getDirectionFromYaw T
            (generateNextBlock T g).gCurrentBuildYaw * Block.SIZE).z| ≤ 2 * Block.SIZE * ε := by
  obtain ⟨⟨s0, c0⟩, ⟨s90, c90⟩, ⟨s180, c180⟩, ⟨s270, c270⟩⟩ := hT
  rw [abs_le] at s0 c0 s90 c90 s180 c180 s270 c270
  have hε : 0 ≤ ε := by linarith [s0.1, s0.2]
  refine ⟨(buildBlock T g).block, rfl, ?_, ?_, ?_, ?_, ?_, ?_⟩
  · intro h
    rw [buildBlock_type] at h
    have hy2 : (generateNextBlock T g).gCurrentBuildYaw = g.gCurrentBuildYaw := by
      rw [generateNextBlock_yaw]
      rcases h with h | h <;> rw [h] <;> simp
    refine ⟨hy2, ?_⟩
    rw [hy2, buildBlock_centerPos, generateNextBlock_center]
    rcases h with h | h <;> rw [h] <;> simp
  · intro h
    rw [buildBlock_type] at h
    rw [buildBlock_centerPos, buildBlock_yaw, generateNextBlock_center, if_pos h]
  · intro h
    rw [buildBlock_type] at h
    rw [buildBlock_centerPos, buildBlock_yaw, generateNextBlock_center, h]
    simp
  · rw [buildBlock_centerPos, generateNextBlock_center, generateNextBlock_yaw]
    generalize (chooseBlockType g.gNextBlockIndex g.gRandState).type = ty
    rcases hy with h | h | h | h <;> rw [h] <;> cases ty <;>
      simp only [reduceCtorEq, if_false, if_true] <;>
      norm_num [getDirectionFromYaw, getRightFromYaw, Vec3.cross, Vec3.add_def,
        Vec3.scale_def, Block.SIZE] <;>
      first | linarith | (rw [abs_le]; constructor <;> linarith)
  · rw [buildBlock_centerPos, generateNextBlock_center, generateNextBlock_yaw]
    generalize (chooseBlockType g.gNextBlockIndex g.gRandState).type = ty
    cases ty <;> simp only [reduceCtorEq, if_false, if_true] <;>
      norm_num [getDirectionFromYaw, getRightFromYaw, Vec3.cross, Vec3.add_def,
        Vec3.scale_def, Block.SIZE]
  · rw [buildBlock_centerPos, generateNextBlock_center, generateNextBlock_yaw]
    generalize (chooseBlockType g.gNextBlockIndex g.gRandState).type = ty
    rcases hy with h | h | h | h <;> rw [h] <;> cases ty <;>
      simp only [reduceCtorEq, if_false, if_true] <;>
      norm_num [getDirectionFromYaw, getRightFromYaw, Vec3.cross, Vec3.add_def,
        Vec3.scale_def, Block.SIZE] <;>
      first | linarith | (rw [abs_le]; constructor <;> linarith)



/-- Witness of C14: the binary32 sines and cosines, which are within `1e-7` of the
exact ones, and the left turn generated at the origin while heading 180. -/
theorem C14_corridor_continuity_witness :
    floatTrig.axisNear (1 / 10000000) ∧ axisYaw turnAtOrigin.gCurrentBuildYaw ∧
    ∃ b : Block, (generateNextBlock floatTrig turnAtOrigin).gBlocks =
        turnAtOrigin.gBlocks ++ [b] ∧
      |(generateNextBlock floatTrig turnAtOrigin).gNextBlockCenter.x -
          (b.centerPos + getDirectionFromYaw floatTrig
            (generateNextBlock floatTrig turnAtOrigin).gCurrentBuildYaw * Block.SIZE).x| ≤
        2 * Block.SIZE * (1 / 10000000) ∧
      |(generateNextBlock floatTrig turnAtOrigin).gNextBlockCenter.z -
          (b.centerPos + getDirectionFromYaw floatTrig
            (generateNextBlock floatTrig turnAtOrigin).gCurrentBuildYaw * Block.SIZE).z| ≤
        2 * Block.SIZE * (1 / 10000000) :=
  ⟨floatTrig_near, Or.inr (Or.inr (Or.inl rfl)),
    let ⟨b, h1, _, _, _, h5, _, h7⟩ := C14_corridor_continuity floatTrig (1 / 10000000)
      floatTrig_near turnAtOrigin (Or.inr (Or.inr (Or.inl rfl)))
    ⟨b, h1, h5, h7⟩⟩

/-- Counterexample to C14 as stated: with the binary32 sines and cosines, the left
turn generated at the origin while heading 180 puts the next centre at
`(-5, 0, 5 * 8.742278e-8)`, while the turn block's centre plus `Block.SIZE` times the
forward direction of the new heading 270 is `(-5, 0, 5 * 1.1924881e-8)`. -/
theorem C14_float_turn_misses :
    (buildBlock floatTrig turnAtOrigin).block.type = BlockType.TurnLeft ∧
    (buildBlock floatTrig turnAtOrigin).block.centerPos = ⟨0, 0, 0⟩ ∧
    (generateNextBlock floatTrig turnAtOrigin).gBlocks =
      [(buildBlock floatTrig turnAtOrigin).block] ∧
    (generateNextBlock floatTrig turnAtOrigin).gCurrentBuildYaw = 270 ∧
    (generateNextBlock floatTrig turnAtOrigin).gNextBlockCenter =
      ⟨-5, 0, 30759155 / 70368744177664⟩ ∧
    (buildBlock floatTrig turnAtOrigin).block.centerPos +
        getDirectionFromYaw floatTrig
          (generateNextBlock floatTrig turnAtOrigin).gCurrentBuildYaw * Block.SIZE =
      ⟨-5, 0, 33565555 / 562949953421312⟩ ∧
    (generateNextBlock floatTrig turnAtOrigin).gNextBlockCenter ≠
      (buildBlock floatTrig turnAtOrigin).block.centerPos +
        getDirectionFromYaw floatTrig
          (generateNextBlock floatTrig turnAtOrigin).gCurrentBuildYaw * Block.SIZE := by
  have hty := turnAtOrigin_type
  have hyaw : (generateNextBlock floatTrig turnAtOrigin).gCurrentBuildYaw = 270 := by
    rw [generateNextBlock_yaw, if_pos hty]
    norm_num [turnAtOrigin]
  have hc : (generateNextBlock floatTrig turnAtOrigin).gNextBlockCenter =
      ⟨-5, 0, 30759155 / 70368744177664⟩ := by
    rw [generateNextBlock_center, if_pos hty]
    norm_num [turnAtOrigin, getRightFromYaw, getDirectionFromYaw, Vec3.cross, floatTrig,
      Vec3.add_def, Vec3.scale_def, Block.SIZE]
  have hb : (buildBlock floatTrig turnAtOrigin).block.centerPos = ⟨0, 0, 0⟩ := by
    rw [buildBlock_centerPos]
    rfl
  have hf : (buildBlock floatTrig turnAtOrigin).block.centerPos +
        getDirectionFromYaw floatTrig
          (generateNextBlock floatTrig turnAtOrigin).gCurrentBuildYaw * Block.SIZE =
      ⟨-5, 0, 33565555 / 562949953421312⟩ := by
    rw [hb, hyaw]
    norm_num [getDirectionFromYaw, floatTrig, Vec3.add_def, Vec3.scale_def, Block.SIZE]
  refine ⟨?_, hb, rfl, hyaw, hc, hf, ?_⟩
  · rw [buildBlock_type]
    exact hty
  · rw [hf, hc]
    intro h
    have hz := congrArg Vec3.z h
    norm_num at hz

/-! ## Slide gates in a block list -/

theorem checkBlock_eq_walls (T : Trig) (b : Block) (cs : CollState) :
    checkBlock T b cs = checkObstacle T b (checkWalls T b cs) := rfl

theorem checkBlocks_cons (T : Trig) (b : Block) (rest : List Block) (cs : CollState) :
    checkBlocks T (b :: rest) cs =
      ((checkBlock T b cs).1 :: (checkBlocks T rest (checkBlock T b cs).2).1,
        (checkBlocks T rest (checkBlock T b cs).2).2) := rfl

theorem checkBlocks_append (T : Trig) (l1 l2 : List Block) (cs : CollState) :
    checkBlocks T (l1 ++ l2) cs =
      ((checkBlocks T l1 cs).1 ++ (checkBlocks T l2 (checkBlocks T l1 cs).2).1,
        (checkBlocks T l2 (checkBlocks T l1 cs).2).2) := by
  induction l1 generalizing cs with
  | nil => rfl
  | cons b rest ih =>
    rw [List.cons_append, checkBlocks_cons, checkBlocks_cons, ih]
    rfl

theorem checkBlocks_length (T : Trig) (l : List Block) (cs : CollState) :
    (checkBlocks T l cs).1.length = l.length := by
  induction l generalizing cs with
  | nil => rfl
  | cons b rest ih =>
    unfold checkBlocks
    simp only [List.length_cons]
    rw [ih]

theorem sameBody_refl (p : Player) : sameBody p p := ⟨rfl, rfl, rfl, rfl, rfl⟩

theorem sameBody_trans (p q r : Player) (h1 : sameBody p q) (h2 : sameBody q r) :
    sameBody p r := by
  obtain ⟨a1, a2, a3, a4, a5⟩ := h1
  obtain ⟨b1, b2, b3, b4, b5⟩ := h2
  exact ⟨by rw [b1, a1], by rw [b2, a2], by rw [b3, a3], by rw [b4, a4], by rw [b5, a5]⟩

theorem checkWall_body (T : Trig) (w : Wall) (cs : CollState) :
    sameBody cs.player (checkWall T w cs).player := by
  unfold checkWall
  simp only
  split_ifs <;> exact ⟨rfl, rfl, rfl, rfl, rfl⟩

theorem checkWall_synced (T : Trig) (w : Wall) (cs : CollState) (hs : cs.synced T) :
    (checkWall T w cs).synced T := by
  unfold checkWall
  simp only
  split_ifs <;> first | exact hs | exact ⟨rfl, rfl⟩

theorem checkWalls_body (T : Trig) (b : Block) (cs : CollState) :
    sameBody cs.player (checkWalls T b cs).player := by
  unfold checkWalls
  simp only
  split_ifs
  · exact sameBody_trans _ _ _ (checkWall_body T _ cs)
      (sameBody_trans _ _ _ (checkWall_body T _ _) (checkWall_body T _ _))
  · exact sameBody_trans _ _ _ (checkWall_body T _ cs) (checkWall_body T _ _)

theorem checkWalls_synced (T : Trig) (b : Block) (cs : CollState) (hs : cs.synced T) :
    (checkWalls T b cs).synced T := by
  unfold checkWalls
  simp only
  split_ifs
  · exact checkWall_synced T _ _ (checkWall_synced T _ _ (checkWall_synced T _ _ hs))
  · exact checkWall_synced T _ _ (checkWall_synced T _ _ hs)

theorem checkWalls_hp (T : Trig) (b : Block) (cs : CollState) :
    (checkWalls T b cs).gHP = cs.gHP := by
  unfold checkWalls
  simp only
  split_ifs
  · rw [(checkWall_frame T _ _).1, (checkWall_frame T _ _).1, (checkWall_frame T _ _).1]
  · rw [(checkWall_frame T _ _).1, (checkWall_frame T _ _).1]

theorem pushOut_body (omin omax : Vec3) (cs : CollState) :
    sameBody cs.player (pushOut omin omax cs) := by
  unfold pushOut
  simp only
  split_ifs <;> exact ⟨rfl, rfl, rfl, rfl, rfl⟩

theorem checkObstacle_body (T : Trig) (b : Block) (cs : CollState) :
    sameBody cs.player (checkObstacle T b cs).2.player := by
  unfold checkObstacle
  simp only
  split_ifs <;> first | exact pushOut_body _ _ cs | exact sameBody_refl _

theorem checkObstacle_synced (T : Trig) (b : Block) (cs : CollState) (hs : cs.synced T) :
    (checkObstacle T b cs).2.synced T := by
  unfold checkObstacle
  simp only
  split_ifs <;> first | exact hs | exact ⟨rfl, rfl⟩

theorem checkObstacle_hp_le (T : Trig) (b : Block) (cs : CollState) :
    (checkObstacle T b cs).2.gHP ≤ cs.gHP := by
  unfold checkObstacle
  simp only
  split_ifs <;> first | exact le_refl _ | exact Int.sub_le_self _ (by decide)

theorem checkBlocks_body (T : Trig) (l : List Block) (cs : CollState) :
    sameBody cs.player (checkBlocks T l cs).2.player := by
  induction l generalizing cs with
  | nil => exact sameBody_refl _
  | cons b rest ih =>
    unfold checkBlocks
    simp only
    rw [checkBlock_eq_walls]
    exact sameBody_trans _ _ _ (checkWalls_body T b cs)
      (sameBody_trans _ _ _ (checkObstacle_body T b _) (ih _))

theorem checkBlocks_synced (T : Trig) (l : List Block) (cs : CollState) (hs : cs.synced T) :
    (checkBlocks T l cs).2.synced T := by
  induction l generalizing cs with
  | nil => exact hs
  | cons b rest ih =>
    unfold checkBlocks
    simp only
    rw [checkBlock_eq_walls]
    exact ih _ (checkObstacle_synced T b _ (checkWalls_synced T b cs hs))

theorem checkBlocks_hp_le (T : Trig) (l : List Block) (cs : CollState) :
    (checkBlocks T l cs).2.gHP ≤ cs.gHP := by
  induction l generalizing cs with
  | nil => exact le_refl _
  | cons b rest ih =>
    unfold checkBlocks
    simp only
    rw [checkBlock_eq_walls]
    have h1 := ih (checkObstacle T b (checkWalls T b cs)).2
    have h2 := checkObstacle_hp_le T b (checkWalls T b cs)
    have h3 := checkWalls_hp T b cs
    omega

theorem placeObstacle_gate (b0 : Block) (yaw : ℚ) (rs : Nat)
    (h : (placeObstacle b0 yaw rs).1.obstacle.type = ObsType.SlideGate) :
    (placeObstacle b0 yaw rs).1.obstacle.pos.y = 1.5 ∧
      (placeObstacle b0 yaw rs).1.obstacle.size.y = 1 := by
  unfold placeObstacle at h ⊢
  simp only at h ⊢
  by_cases hd : (frand01 rs).1 < 0.5
  · rw [if_pos hd] at h
    exact absurd h (by decide)
  · simp only [hd, if_false, reduceCtorEq]
    constructor
    · trivial
    · split_ifs <;> norm_num

theorem checkObstacle_apart (T : Trig) (b : Block) (cs : CollState)
    (h : b.hasObstacle = true → b.obstacle.hit = false →
      ¬ AABBIntersect cs.pmin cs.pmax b.obstacle.getAABB.1 b.obstacle.getAABB.2) :
    checkObstacle T b cs = (b, cs) := by
  unfold checkObstacle
  by_cases hc : b.hasObstacle = true ∧ b.obstacle.hit = false
  · rw [if_pos hc]
    simp only
    rw [if_neg (h hc.1 hc.2)]
  · rw [if_neg hc]

theorem checkWalls_noContact (T : Trig) (b : Block) (cs : CollState) (hs : cs.synced T)
    (hw : noWallContact T cs.player b) : checkWalls T b cs = cs := by
  unfold checkWalls
  simp only
  rw [checkWall_noContact T _ cs hs hw.1, checkWall_noContact T _ cs hs hw.2.1]
  by_cases hf : b.hasFrontWall = true
  · rw [if_pos hf, checkWall_noContact T _ cs hs (hw.2.2 hf)]
  · rw [if_neg hf]

theorem atObstacle_untouched (T : Trig) (pre : List Block) (b : Block) (cs : CollState)
    (hs : cs.synced T) (hw : ∀ c ∈ pre ++ [b], noWallContact T cs.player c)
    (ho : ∀ c ∈ pre, c.hasObstacle = true → c.obstacle.hit = false →
      ¬ AABBIntersect cs.pmin cs.pmax c.obstacle.getAABB.1 c.obstacle.getAABB.2) :
    CollState.atObstacle T pre b cs = cs := by
  unfold CollState.atObstacle
  rw [checkBlocks_inert T pre cs hs
    (fun c hc => hw c (List.mem_append_left _ hc))
    (fun c hc => checkObstacle_apart T c cs (ho c hc))]
  exact checkWalls_noContact T b cs hs
    (hw b (List.mem_append_right _ (List.mem_singleton_self b)))

/-- C18, as amended. A generated `SlideGate` is passable only while sliding: for a
player with the default dimensions (scale 1, slide height 1, stand height 1.8) and
`pos.y >= 0`, a sliding player being at `pos.y = 0`, any block list, and an un-hit
`SlideGate` as `placeObstacle` generates it in the block `b` of the list: if the box
that `checkBlockCollisions` holds for the player when it enters the obstacle branch of
`b` (after the loop body for the blocks before `b` and the wall checks of `b`) overlaps
the gate's box in x and z, then the gate's branch sets `hit` and decrements `gHP` if
and only if the player is not sliding, `hit` being the flag of the block at the gate's
position after the call and `gHP` never rising in the call; for a sliding player the
gate's branch changes nothing. The box is the player's box at the call when the player
touches no wall of the blocks up to `b` and no un-hit obstacle of the blocks before
`b`. -/
theorem C18_slide_gate (T : Trig) (g : Game) (pre post : List Block) (b b0 : Block)
    (yaw : ℚ) (rs : Nat) (hb : g.gBlocks = pre ++ b :: post)
    (hscale : g.player.scale = 1) (hsl : g.player.slideHeight = 1)
    (hst : g.player.standHeight = 1.8) (hy : 0 ≤ g.player.pos.y)
    (hsy : g.player.sliding = true → g.player.pos.y = 0)
    (ho : b.hasObstacle = true) (hhit : b.obstacle.hit = false)
    (hgen : b.obstacle = (placeObstacle b0 yaw rs).1.obstacle)
    (ht : b.obstacle.type = ObsType.SlideGate)
    (hx : (CollState.atObstacle T pre b (CollState.start T g)).pmin.x ≤
        b.obstacle.getAABB.2.x ∧
      (CollState.atObstacle T pre b (CollState.start T g)).pmax.x ≥ b.obstacle.getAABB.1.x)
    (hz : (CollState.atObstacle T pre b (CollState.start T g)).pmin.z ≤
        b.obstacle.getAABB.2.z ∧
      (CollState.atObstacle T pre b (CollState.start T g)).pmax.z ≥ b.obstacle.getAABB.1.z) :
    (checkBlockCollisions T g).gBlocks[pre.length]? =
      some (checkObstacle T b (CollState.atObstacle T pre b (CollState.start T g))).1 ∧
    (((checkObstacle T b (CollState.atObstacle T pre b (CollState.start T g))).1.obstacle.hit
          = true ∧
        (checkObstacle T b (CollState.atObstacle T pre b (CollState.start T g))).2.gHP =
          (CollState.atObstacle T pre b (CollState.start T g)).gHP - 1) ↔
      g.player.sliding = false) ∧
    (g.player.sliding = false → (checkBlockCollisions T g).gHP ≤ g.gHP - 1) ∧
    (checkBlockCollisions T g).gHP ≤ g.gHP ∧
    (g.player.sliding = true →
      checkObstacle T b (CollState.atObstacle T pre b (CollState.start T g)) =
        (b, CollState.atObstacle T pre b (CollState.start T g))) ∧
    ((∀ c ∈ pre ++ [b], noWallContact T g.player c) →
      (∀ c ∈ pre, c.hasObstacle = true → c.obstacle.hit = false →
        ¬ AABBIntersect (g.player.getAABB T).1 (g.player.getAABB T).2
          c.obstacle.getAABB.1 c.obstacle.getAABB.2) →
      CollState.atObstacle T pre b (CollState.start T g) = CollState.start T g) := by
  have hs0 := start_synced T g
  have hbody : sameBody g.player (CollState.atObstacle T pre b (CollState.start T g)).player :=
    sameBody_trans _ _ _ (checkBlocks_body T pre (CollState.start T g)) (checkWalls_body T b _)
  have hsync : (CollState.atObstacle T pre b (CollState.start T g)).synced T :=
    checkWalls_synced T b _ (checkBlocks_synced T pre _ hs0)
  have hhp : (CollState.atObstacle T pre b (CollState.start T g)).gHP ≤ g.gHP := by
    unfold CollState.atObstacle
    rw [checkWalls_hp]
    exact checkBlocks_hp_le T pre (CollState.start T g)
  generalize hcs : CollState.atObstacle T pre b (CollState.start T g) = cs at *
  obtain ⟨e1, e2, e3, e4, e5⟩ := hbody
  have hgeo : b.obstacle.pos.y = 1.5 ∧ b.obstacle.size.y = 1 := by
    rw [hgen] at ht ⊢
    exact placeObstacle_gate b0 yaw rs ht
  obtain ⟨k1, k2⟩ := checkObstacle_slideGate T b cs hsync (by rw [e1, hscale])
    (by rw [e2, hsl]) (by rw [e3, hst]) (by rw [e4]; exact hy) ho hhit ht hgeo.1 hgeo.2 hx hz
  have hslide : g.player.sliding = true → checkObstacle T b cs = (b, cs) := by
    intro h
    exact k1 ⟨by rw [e5]; exact h, by rw [e4, hsy h]; norm_num⟩
  have hstand : g.player.sliding = false →
      (checkObstacle T b cs).1 = { b with obstacle := { b.obstacle with hit := true } } ∧
        (checkObstacle T b cs).2.gHP = cs.gHP - 1 := by
    intro h
    apply k2
    rintro ⟨h1, -⟩
    rw [e5, h] at h1
    exact absurd h1 (by decide)
  have hall : checkBlocks T g.gBlocks (CollState.start T g) =
      ((checkBlocks T pre (CollState.start T g)).1 ++
          (checkObstacle T b cs).1 :: (checkBlocks T post (checkObstacle T b cs).2).1,
        (checkBlocks T post (checkObstacle T b cs).2).2) := by
    rw [hb, checkBlocks_append, checkBlocks_cons, checkBlock_eq_walls]
    have e : checkWalls T b (checkBlocks T pre (CollState.start T g)).2 = cs := hcs
    rw [e]
  have hfinal : (checkBlockCollisions T g).gHP ≤ (checkObstacle T b cs).2.gHP := by
    rw [checkBlockCollisions_eq, hall]
    exact checkBlocks_hp_le T post _
  refine ⟨?_, ⟨?_, ?_⟩, ?_, ?_, hslide, ?_⟩
  · rw [checkBlockCollisions_eq, hall]
    have hl := checkBlocks_length T pre (CollState.start T g)
    simp only
    rw [← hl, List.getElem?_append_right (le_refl _)]
    simp
  · rintro ⟨h1, -⟩
    by_contra hns
    have hsl2 : g.player.sliding = true := by simpa using hns
    rw [hslide hsl2, hhit] at h1
    exact absurd h1 (by decide)
  · intro h
    obtain ⟨o1, o2⟩ := hstand h
    exact ⟨by rw [o1], o2⟩
  · intro h
    have := (hstand h).2
    omega
  · have := checkObstacle_hp_le T b cs
    omega
  · intro hw hob
    rw [← hcs]
    exact atObstacle_untouched T pre b (CollState.start T g) hs0 hw hob


theorem straightBlock_eq (n : Int) (z : ℚ) :
    createBlock axisTrig n BlockType.Normal ⟨0, 0, z⟩ 180 =
      { blockIndex := n, type := BlockType.Normal, centerPos := ⟨0, 0, z⟩, yaw := 180
        leftWall := { pos := ⟨-2.75, 1, z⟩, size := ⟨0.5, 2, 5⟩ }
        rightWall := { pos := ⟨2.75, 1, z⟩, size := ⟨0.5, 2, 5⟩ } } := by
  rw [createBlock_unswapped _ _ _ _ _ (by rw [fmod_axis.2.2.1]; norm_num [abs_lt])]
  norm_num [createBlockWalls, leftWallOf, rightWallOf, getRightFromYaw, getDirectionFromYaw,
    axisTrig, Vec3.cross, Vec3.add_def, Vec3.sub_def, Vec3.scale_def, Block.SIZE,
    Block.WALL_HEIGHT, Block.WALL_THICKNESS]

theorem trackBlock9_eq :
    trackBlock9 =
      { blockIndex := 9, type := BlockType.Normal, centerPos := ⟨0, 0, -45⟩, yaw := 180
        leftWall := { pos := ⟨-2.75, 1, -45⟩, size := ⟨0.5, 2, 5⟩ }
        rightWall := { pos := ⟨2.75, 1, -45⟩, size := ⟨0.5, 2, 5⟩ }
        hasObstacle := true
        obstacle :=
          { type := ObsType.SlideGate, pos := ⟨0, 1.5, -45⟩, size := ⟨5, 1, 1.2⟩,
            hit := false } } := by
  unfold trackBlock9
  rw [straightBlock_eq]
  have hf : fmod (180 + 360) 180 = 0 := by
    rw [fmod_of_range (180 + 360) 180 3 (by norm_num) (by norm_num) (by norm_num)
      (by norm_num)]
    norm_num
  unfold placeObstacle
  simp only [hf]
  norm_num [frand01, lcgNext, Block.SIZE]
  decide

theorem trackBlock9_gate :
    trackBlock9.hasObstacle = true ∧ trackBlock9.obstacle.hit = false ∧
    trackBlock9.obstacle.type = ObsType.SlideGate ∧
    trackBlock9.obstacle.getAABB = (⟨-2.5, 1, -45.6⟩, ⟨2.5, 2, -44.4⟩) := by
  rw [trackBlock9_eq]
  refine ⟨rfl, rfl, rfl, ?_⟩
  norm_num [Obstacle.getAABB, Vec3.sub_def, Vec3.add_def, Vec3.scale_def]

theorem onTrack_box (x : ℚ) (s : Bool) :
    ((playerOnTrack x s).getAABB axisTrig).1 = ⟨x - 0.35, 0, -45.25⟩ ∧
    ((playerOnTrack x s).getAABB axisTrig).2 =
      ⟨x + 0.35, if s = true then 1 else 1.8, -44.75⟩ := by
  cases s <;>
    norm_num [playerOnTrack, Player.getAABB, Player.halfW, Player.halfD, Player.standH,
      Player.slideH]

theorem onTrack_noContact (b : Block) (z x : ℚ) (s : Bool)
    (hl : b.leftWall = { pos := ⟨-2.75, 1, z⟩, size := ⟨0.5, 2, 5⟩ })
    (hr : b.rightWall = { pos := ⟨2.75, 1, z⟩, size := ⟨0.5, 2, 5⟩ })
    (hf : b.hasFrontWall = false)
    (h : (z + 2.5 < -45.25 ∨ -44.75 < z - 2.5) ∨ (-2.5 < x - 0.35 ∧ x + 0.35 < 2.5)) :
    noWallContact axisTrig (playerOnTrack x s) b := by
  obtain ⟨b1, b2⟩ := onTrack_box x s
  unfold noWallContact touchesWall AABBIntersect
  rw [b1, b2, hl, hr, hf]
  simp only [Vec3.add_def, Vec3.sub_def, Vec3.scale_def]
  refine ⟨?_, ?_, ?_⟩
  · rintro ⟨-, ⟨h1, h2⟩, -, ⟨h3, h4⟩⟩
    rcases h with h | h
    · rcases h with h | h <;> linarith
    · linarith
  · rintro ⟨-, ⟨h1, h2⟩, -, ⟨h3, h4⟩⟩
    rcases h with h | h
    · rcases h with h | h <;> linarith
    · linarith
  · intro hc
    exact absurd hc (by decide)

theorem onTrack_noContact8 (x : ℚ) (s : Bool) :
    noWallContact axisTrig (playerOnTrack x s) trackBlock8 := by
  have e : trackBlock8 = _ := straightBlock_eq 8 (-40)
  rw [e]
  exact onTrack_noContact _ (-40) x s rfl rfl rfl (Or.inl (Or.inr (by norm_num)))

theorem onTrack_noContact10 (x : ℚ) (s : Bool) :
    noWallContact axisTrig (playerOnTrack x s) trackBlock10 := by
  have e : trackBlock10 = _ := straightBlock_eq 10 (-50)
  rw [e]
  exact onTrack_noContact _ (-50) x s rfl rfl rfl (Or.inl (Or.inl (by norm_num)))

theorem onTrack_noContact9 (x : ℚ) (s : Bool) (h : -2.5 < x - 0.35 ∧ x + 0.35 < 2.5) :
    noWallContact axisTrig (playerOnTrack x s) trackBlock9 := by
  rw [trackBlock9_eq]
  exact onTrack_noContact _ (-45) x s rfl rfl rfl (Or.inr h)

theorem trackBlock8_plain : trackBlock8.hasObstacle = false := by
  have e : trackBlock8 = _ := straightBlock_eq 8 (-40)
  rw [e]

theorem trackBlock10_plain : trackBlock10.hasObstacle = false := by
  have e : trackBlock10 = _ := straightBlock_eq 10 (-50)
  rw [e]

theorem onTrack_atObstacle (x : ℚ) (s : Bool) (h : -2.5 < x - 0.35 ∧ x + 0.35 < 2.5) :
    CollState.atObstacle axisTrig [trackBlock8] trackBlock9
        (CollState.start axisTrig (gameOnTrack (playerOnTrack x s))) =
      CollState.start axisTrig (gameOnTrack (playerOnTrack x s)) := by
  apply atObstacle_untouched _ _ _ _ (start_synced _ _)
  · intro c hc
    have hc2 : c = trackBlock8 ∨ c = trackBlock9 := by simpa using hc
    rcases hc2 with e | e
    · rw [e]
      exact onTrack_noContact8 x s
    · rw [e]
      exact onTrack_noContact9 x s h
  · intro c hc h1
    have e : c = trackBlock8 := by simpa using hc
    rw [e, trackBlock8_plain] at h1
    exact absurd h1 (by decide)


/-- Witness of C18: blocks 8, 9, 10 of the initial track with the default player in the
middle of the corridor under the gate of block 9, once running (the gate is hit and
`gHP` falls from 1 to at most 0) and once sliding (the gate's branch changes
nothing). -/
theorem C18_slide_gate_witness :
    ((∃ b2 : Block,
        (checkBlockCollisions axisTrig (gameOnTrack (playerOnTrack 0 false))).gBlocks[1]? =
          some b2 ∧ b2.obstacle.hit = true) ∧
      (checkBlockCollisions axisTrig (gameOnTrack (playerOnTrack 0 false))).gHP ≤ 1 - 1) ∧
    checkObstacle axisTrig trackBlock9
        (CollState.atObstacle axisTrig [trackBlock8] trackBlock9
          (CollState.start axisTrig (gameOnTrack (playerOnTrack 0 true)))) =
      (trackBlock9, CollState.atObstacle axisTrig [trackBlock8] trackBlock9
          (CollState.start axisTrig (gameOnTrack (playerOnTrack 0 true)))) := by
  obtain ⟨g1, g2, g3, g4⟩ := trackBlock9_gate
  have key := fun s : Bool =>
    C18_slide_gate axisTrig (gameOnTrack (playerOnTrack 0 s)) [trackBlock8] [trackBlock10]
      trackBlock9 (createBlock axisTrig 9 BlockType.Normal ⟨0, 0, -45⟩ 180) 180 245635452
      rfl rfl (by norm_num [gameOnTrack, playerOnTrack]) rfl (le_refl _) (fun _ => rfl)
      g1 g2 rfl g3
      (by
        rw [onTrack_atObstacle 0 s (by norm_num), g4]
        show ((playerOnTrack 0 s).getAABB axisTrig).1.x ≤ _ ∧
          ((playerOnTrack 0 s).getAABB axisTrig).2.x ≥ _
        rw [(onTrack_box 0 s).1, (onTrack_box 0 s).2]
        norm_num)
      (by
        rw [onTrack_atObstacle 0 s (by norm_num), g4]
        show ((playerOnTrack 0 s).getAABB axisTrig).1.z ≤ _ ∧
          ((playerOnTrack 0 s).getAABB axisTrig).2.z ≥ _
        rw [(onTrack_box 0 s).1, (onTrack_box 0 s).2]
        norm_num)
  obtain ⟨a1, a2, a3, -, -, -⟩ := key false
  obtain ⟨-, -, -, -, b5, -⟩ := key true
  exact ⟨⟨⟨_, a1, (a2.mpr rfl).1⟩, a3 rfl⟩, b5 rfl⟩

/-- The player `playerOnTrack 2.8 false` is where one `updatePhysics` step of 0.016 s
with a mouse move of 50 pixels puts the default player from `(2, 0, -44.904)`, inside
the corridor. -/
theorem onTrack_reached :
    Player.updatePhysics axisTrig { pos := ⟨2, 0, -44.904⟩ } 0.016 50 =
      playerOnTrack 2.8 false := by
  norm_num [Player.updatePhysics, Player.integrateVertical, Player.tickSlideTimer,
    Player.getForwardDir, Player.getRightDir, axisTrig, Vec3.cross, Vec3.add_def,
    Vec3.scale_def, playerOnTrack]

/-- Counterexample to C18 as stated: blocks 8, 9, 10 of the initial track and the
default player, running, at `(2.8, 0, -45)` (one `updatePhysics` step from inside the
corridor, see `onTrack_reached`). Its box overlaps the box of the un-hit generated gate
of block 9 in x and z, but the wall check of block 9 first moves the player by `+0.55`
in x, out of the right wall and off the gate, so the call leaves every `hit` flag and
`gHP` unchanged although the player is not sliding. -/
theorem C18_wall_push_spares_gate :
    ((playerOnTrack 2.8 false).scale = 1 ∧ (playerOnTrack 2.8 false).slideHeight = 1 ∧
      (playerOnTrack 2.8 false).standHeight = 1.8 ∧ 0 ≤ (playerOnTrack 2.8 false).pos.y ∧
      (playerOnTrack 2.8 false).sliding = false) ∧
    (gameOnTrack (playerOnTrack 2.8 false)).gBlocks = [trackBlock8, trackBlock9, trackBlock10] ∧
    (trackBlock9.hasObstacle = true ∧ trackBlock9.obstacle.hit = false ∧
      trackBlock9.obstacle.type = ObsType.SlideGate ∧
      trackBlock9.obstacle.pos.y = 1.5 ∧ trackBlock9.obstacle.size.y = 1) ∧
    ((((playerOnTrack 2.8 false).getAABB axisTrig).1.x ≤ trackBlock9.obstacle.getAABB.2.x ∧
        ((playerOnTrack 2.8 false).getAABB axisTrig).2.x ≥ trackBlock9.obstacle.getAABB.1.x) ∧
      (((playerOnTrack 2.8 false).getAABB axisTrig).1.z ≤ trackBlock9.obstacle.getAABB.2.z ∧
        ((playerOnTrack 2.8 false).getAABB axisTrig).2.z ≥
          trackBlock9.obstacle.getAABB.1.z)) ∧
    (checkBlockCollisions axisTrig (gameOnTrack (playerOnTrack 2.8 false))).gBlocks =
      [trackBlock8, trackBlock9, trackBlock10] ∧
    (checkBlockCollisions axisTrig (gameOnTrack (playerOnTrack 2.8 false))).gHP =
      (gameOnTrack (playerOnTrack 2.8 false)).gHP ∧
    (checkBlockCollisions axisTrig (gameOnTrack (playerOnTrack 2.8 false))).player.pos =
      ⟨3.35, 0, -45⟩ := by
  obtain ⟨g1, g2, g3, g4⟩ := trackBlock9_gate
  obtain ⟨p1, p2⟩ := onTrack_box 2.8 false
  have hgeo : trackBlock9.obstacle.pos.y = 1.5 ∧ trackBlock9.obstacle.size.y = 1 := by
    rw [trackBlock9_eq]
    norm_num
  -- block 8 leaves the start state alone
  have hs0 := start_synced axisTrig (gameOnTrack (playerOnTrack 2.8 false))
  have h8 : checkBlock axisTrig trackBlock8
      (CollState.start axisTrig (gameOnTrack (playerOnTrack 2.8 false))) =
      (trackBlock8, CollState.start axisTrig (gameOnTrack (playerOnTrack 2.8 false))) :=
    checkBlock_idle axisTrig _ _ hs0 (onTrack_noContact8 2.8 false)
      (by
        intro h
        rw [trackBlock8_plain] at h
        exact absurd h (by decide))
  -- the walls of block 9: the right wall moves the player
  have hl9 : checkWall axisTrig trackBlock9.leftWall
      (CollState.start axisTrig (gameOnTrack (playerOnTrack 2.8 false))) =
      CollState.start axisTrig (gameOnTrack (playerOnTrack 2.8 false)) := by
    apply checkWall_noContact _ _ _ hs0
    rw [trackBlock9_eq]
    unfold touchesWall AABBIntersect
    show ¬ (_ ∧ ((((playerOnTrack 2.8 false).getAABB axisTrig).1.x ≤ _ ∧ _) ∧ _))
    rw [p1]
    simp only [Vec3.add_def, Vec3.sub_def, Vec3.scale_def]
    rintro ⟨-, ⟨h1, -⟩, -⟩
    norm_num at h1
  have hwalls : checkWalls axisTrig trackBlock9
      (CollState.start axisTrig (gameOnTrack (playerOnTrack 2.8 false))) =
      checkWall axisTrig trackBlock9.rightWall
        (CollState.start axisTrig (gameOnTrack (playerOnTrack 2.8 false))) := by
    unfold checkWalls
    simp only
    rw [hl9]
    have hf : trackBlock9.hasFrontWall = false := by rw [trackBlock9_eq]
    rw [hf]
    simp
  generalize hcs1 : checkWall axisTrig trackBlock9.rightWall
    (CollState.start axisTrig (gameOnTrack (playerOnTrack 2.8 false))) = cs1 at hwalls
  have hsync1 : cs1.synced axisTrig := by
    rw [← hcs1]
    exact checkWall_synced _ _ _ hs0
  have hhp1 : cs1.gHP = (gameOnTrack (playerOnTrack 2.8 false)).gHP := by
    rw [← hcs1, (checkWall_frame _ _ _).1]
    rfl
  have hpl1 : cs1.player = playerOnTrack 3.35 false := by
    have e : (CollState.start axisTrig (gameOnTrack (playerOnTrack 2.8 false))).player =
        playerOnTrack 2.8 false := rfl
    have hp : ¬ (trackBlock9.rightWall.size.x < 0.1 ∧ trackBlock9.rightWall.size.z < 0.1) := by
      rw [trackBlock9_eq]
      norm_num
    have hi : AABBIntersect
        ((CollState.start axisTrig (gameOnTrack (playerOnTrack 2.8 false))).player.getAABB
          axisTrig).1
        ((CollState.start axisTrig (gameOnTrack (playerOnTrack 2.8 false))).player.getAABB
          axisTrig).2 trackBlock9.rightWall.box.1 trackBlock9.rightWall.box.2 := by
      rw [e, p1, p2, trackBlock9_eq]
      norm_num [AABBIntersect, Wall.box, Vec3.add_def, Vec3.sub_def, Vec3.scale_def]
    rw [← hcs1, checkWall_hit _ _ _ hp hi, e, p1, p2, trackBlock9_eq]
    norm_num [minOverlapX, minOverlapZ, Wall.box, Vec3.add_def, Vec3.sub_def,
      Vec3.scale_def, playerOnTrack, abs_lt]
    rw [abs_of_pos (by norm_num : (0 : ℚ) < 11 / 4)]
    norm_num
  -- the gate of block 9 no longer meets the box
  have hgate : checkObstacle axisTrig trackBlock9 cs1 = (trackBlock9, cs1) := by
    apply checkObstacle_apart
    intro _ _
    rw [hsync1.1, hsync1.2, hpl1, (onTrack_box 3.35 false).1, (onTrack_box 3.35 false).2, g4]
    unfold AABBIntersect
    rintro ⟨⟨h1, -⟩, -⟩
    norm_num at h1
  have h9 : checkBlock axisTrig trackBlock9
      (CollState.start axisTrig (gameOnTrack (playerOnTrack 2.8 false))) =
      (trackBlock9, cs1) := by
    rw [checkBlock_eq_walls, hwalls, hgate]
  have h10 : checkBlock axisTrig trackBlock10 cs1 = (trackBlock10, cs1) :=
    checkBlock_idle axisTrig _ _ hsync1 (by rw [hpl1]; exact onTrack_noContact10 3.35 false)
      (by
        intro h
        rw [trackBlock10_plain] at h
        exact absurd h (by decide))
  have hall : checkBlocks axisTrig (gameOnTrack (playerOnTrack 2.8 false)).gBlocks
      (CollState.start axisTrig (gameOnTrack (playerOnTrack 2.8 false))) =
      ([trackBlock8, trackBlock9, trackBlock10], cs1) := by
    have e : (gameOnTrack (playerOnTrack 2.8 false)).gBlocks =
        [trackBlock8, trackBlock9, trackBlock10] := rfl
    rw [e, checkBlocks_cons, h8, checkBlocks_cons, h9, checkBlocks_cons, h10]
    rfl
  refine ⟨⟨rfl, by norm_num [playerOnTrack], rfl, le_refl _, rfl⟩, rfl,
    ⟨g1, g2, g3, hgeo.1, hgeo.2⟩, ?_, ?_, ?_, ?_⟩
  · rw [p1, p2, g4]
    norm_num
  · rw [checkBlockCollisions_eq, hall]
  · rw [checkBlockCollisions_eq, hall]
    exact hhp1
  · rw [checkBlockCollisions_eq, hall]
    show cs1.player.pos = _
    rw [hpl1]
    rfl


/-! ## Rounding to binary32 -/

theorem roundHalfEven_intCast (M : Int) : roundHalfEven (M : ℚ) = M := by
  unfold roundHalfEven
  rw [Int.floor_intCast]
  norm_num

theorem two_zpow_pos (e : Int) : (0 : ℚ) < 2 ^ e := by positivity

theorem log2_spec (x : ℚ) (hx : 0 < x) :
    (2 : ℚ) ^ Int.log 2 x ≤ x ∧ x < (2 : ℚ) ^ (Int.log 2 x + 1) := by
  have h1 := Int.zpow_log_le_self (b := 2) (r := x) (by norm_num) hx
  have h2 := Int.lt_zpow_succ_log_self (b := 2) (by norm_num) x
  exact ⟨by exact_mod_cast h1, by exact_mod_cast h2⟩

theorem frand01_draw (s : Nat) :
    (frand01 s).1 = ((lcgNext s / 256 : Nat) : ℚ) * (1 / 16777216) ∧
      lcgNext s / 256 < 16777216 := by
  constructor
  · rfl
  · have := lcgNext_lt s
    omega

/-- A number `m * 2^j` whose integer factor has at most 24 bits is a binary32 value:
rounding leaves it unchanged. -/
theorem roundF32_int24 (m j : Int) (h : |m| < 16777216) :
    roundF32 ((m : ℚ) * 2 ^ j) = (m : ℚ) * 2 ^ j := by
  by_cases hm0 : m = 0
  · rw [hm0]
    unfold roundF32
    simp
  have hu := two_zpow_pos j
  have hmq : (m : ℚ) ≠ 0 := by exact_mod_cast hm0
  have hx : (m : ℚ) * 2 ^ j ≠ 0 := mul_ne_zero hmq (ne_of_gt hu)
  have hxabs : (0 : ℚ) < |(m : ℚ) * 2 ^ j| := abs_pos.mpr hx
  obtain ⟨l1, l2⟩ := log2_spec _ hxabs
  have hlt : |(m : ℚ) * 2 ^ j| < 2 ^ (24 + j) := by
    rw [abs_mul, abs_of_pos hu, zpow_add₀ (by norm_num : (2 : ℚ) ≠ 0)]
    have : |(m : ℚ)| < 16777216 := by
      have : ((|m| : Int) : ℚ) < 16777216 := by exact_mod_cast h
      simpa using this
    have := mul_lt_mul_of_pos_right this hu
    norm_num
    linarith
  have he : Int.log 2 |(m : ℚ) * 2 ^ j| - 23 ≤ j := by
    have h1 : (2 : ℚ) ^ Int.log 2 |(m : ℚ) * 2 ^ j| < 2 ^ (24 + j) := lt_of_le_of_lt l1 hlt
    have := (zpow_lt_zpow_iff_right₀ (by norm_num : (1 : ℚ) < 2)).mp h1
    omega
  unfold roundF32
  rw [if_neg hx]
  generalize Int.log 2 |(m : ℚ) * 2 ^ j| - 23 = e at he
  obtain ⟨t, ht⟩ := Int.eq_ofNat_of_zero_le (by omega : 0 ≤ j - e)
  have hj : j = e + (t : Int) := by omega
  have hq : (m : ℚ) * 2 ^ j / 2 ^ e = ((m * 2 ^ t : Int) : ℚ) := by
    rw [hj, zpow_add₀ (by norm_num : (2 : ℚ) ≠ 0), zpow_natCast]
    push_cast
    field_simp
    ring
  rw [hq, roundHalfEven_intCast, hj, zpow_add₀ (by norm_num : (2 : ℚ) ≠ 0), zpow_natCast]
  push_cast
  ring

/-- The two `float` steps of `frand01` are exact: `state >> 8` has at most 24 bits, so
its conversion to `float` and its product with `2^-24` are binary32 values. -/
theorem frand01_exact (s : Nat) :
    roundF32 ((lcgNext s / 256 : Nat) : ℚ) = ((lcgNext s / 256 : Nat) : ℚ) ∧
    roundF32 (frand01 s).1 = (frand01 s).1 := by
  obtain ⟨hd, hk⟩ := frand01_draw s
  have hk2 : |((lcgNext s / 256 : Nat) : Int)| < 16777216 := by
    rw [abs_of_nonneg (Int.natCast_nonneg _)]
    exact_mod_cast hk
  constructor
  · have := roundF32_int24 ((lcgNext s / 256 : Nat) : Int) 0 hk2
    simpa using this
  · rw [hd]
    have := roundF32_int24 ((lcgNext s / 256 : Nat) : Int) (-24) hk2
    have e : (2 : ℚ) ^ (-24 : Int) = 1 / 16777216 := by norm_num [zpow_neg]
    rw [e] at this
    simpa using this

theorem generateNextBlock_rand (T : Trig) (g : Game) :
    (generateNextBlock T g).gRandState =
      (if (g.gNextBlockIndex > 0 ∧ g.gNextBlockIndex.tmod 20 = 0) ∨
          (g.gNextBlockIndex ≥ 5 ∧ g.gNextBlockIndex.tmod 4 = 1 ∧
            g.gNextBlockIndex.tmod 20 ≠ 1) ∨
          (g.gNextBlockIndex.tmod 10 = 2 ∨ g.gNextBlockIndex.tmod 10 = 4) then
        lcgNext g.gRandState
      else g.gRandState) := by
  have hr : (generateNextBlock T g).gRandState = (buildBlock T g).rand := rfl
  rw [hr, buildBlock_rand, chooseBlockType_rand]
  by_cases ht : g.gNextBlockIndex > 0 ∧ g.gNextBlockIndex.tmod 20 = 0
  · obtain ⟨hc, ho⟩ := turn_not_coin _ ht
    have hso : ¬ ((chooseBlockType g.gNextBlockIndex g.gRandState).shouldHaveObstacle =
        true) := by
      rw [chooseBlockType_obstacle]
      exact ho
    rw [if_neg hc, if_neg hso, if_pos ht, if_pos (Or.inl ht)]
  · rw [if_neg ht]
    by_cases ho : g.gNextBlockIndex ≥ 5 ∧ g.gNextBlockIndex.tmod 4 = 1 ∧
        g.gNextBlockIndex.tmod 20 ≠ 1
    · have hc := obstacle_not_coin _ ho
      have hso : (chooseBlockType g.gNextBlockIndex g.gRandState).shouldHaveObstacle =
          true := by
        rw [chooseBlockType_obstacle]
        exact ho
      rw [if_neg hc, if_pos hso, if_pos (Or.inr (Or.inl ho))]
    · have hso : ¬ ((chooseBlockType g.gNextBlockIndex g.gRandState).shouldHaveObstacle =
          true) := by
        rw [chooseBlockType_obstacle]
        exact ho
      rw [if_neg hso]
      by_cases hc : g.gNextBlockIndex.tmod 10 = 2 ∨ g.gNextBlockIndex.tmod 10 = 4
      · rw [if_pos hc, if_pos (Or.inr (Or.inr hc))]
      · rw [if_neg hc, if_neg (by
          rintro (h | h | h)
          · exact ht h
          · exact ho h
          · exact hc h)]

/-- Up to the first turn the initial track runs straight: before block `k <= 20` is
built, the cursor is at `(0, 0, -5 k)` heading 180. -/
theorem track_cursor (g : Game) (k : Nat) (hk : k ≤ 20) :
    ((generateNextBlock axisTrig)^[k] (resetGlobals g)).gNextBlockCenter =
        ⟨0, 0, -5 * (k : ℚ)⟩ ∧
      ((generateNextBlock axisTrig)^[k] (resetGlobals g)).gCurrentBuildYaw = 180 := by
  induction k with
  | zero =>
    constructor
    · show (⟨0, 0, 0⟩ : Vec3) = _
      norm_num
    · rfl
  | succ j ih =>
    obtain ⟨i1, i2⟩ := ih (by omega)
    have hidx := reset_iterate_index axisTrig g j
    have hty : (chooseBlockType
        ((generateNextBlock axisTrig)^[j] (resetGlobals g)).gNextBlockIndex
        ((generateNextBlock axisTrig)^[j] (resetGlobals g)).gRandState).type =
        BlockType.Normal := by
      apply chooseBlockType_normal
      rw [hidx]
      rintro ⟨h1, h2⟩
      rw [Int.tmod_eq_emod (by omega) (by norm_num)] at h2
      omega
    rw [Function.iterate_succ_apply', generateNextBlock_center, generateNextBlock_yaw, hty,
      i1, i2]
    constructor
    · simp only [reduceCtorEq, if_false]
      norm_num [getDirectionFromYaw, axisTrig, Vec3.add_def, Vec3.scale_def, Block.SIZE]
      ring
    · simp

/-- The RNG state of the initial track before block 9 is built: the seed advanced by
the draws of blocks 2, 4 and 5. -/
theorem track_rand9 (g : Game) :
    ((generateNextBlock axisTrig)^[9] (resetGlobals g)).gRandState = 245635452 := by
  have h0 : ((generateNextBlock axisTrig)^[0] (resetGlobals g)).gRandState = 1234567 := rfl
  have h1 : ((generateNextBlock axisTrig)^[1] (resetGlobals g)).gRandState = 1234567 := by
    rw [Function.iterate_succ_apply', generateNextBlock_rand, reset_iterate_index, h0,
      if_neg (by decide)]
  have h2 : ((generateNextBlock axisTrig)^[2] (resetGlobals g)).gRandState = 1234567 := by
    rw [Function.iterate_succ_apply', generateNextBlock_rand, reset_iterate_index, h1,
      if_neg (by decide)]
  have h3 : ((generateNextBlock axisTrig)^[3] (resetGlobals g)).gRandState = 2987172410 := by
    rw [Function.iterate_succ_apply', generateNextBlock_rand, reset_iterate_index, h2,
      if_pos (by decide)]
    norm_num [lcgNext]
  have h4 : ((generateNextBlock axisTrig)^[4] (resetGlobals g)).gRandState = 2987172410 := by
    rw [Function.iterate_succ_apply', generateNextBlock_rand, reset_iterate_index, h3,
      if_neg (by decide)]
  have h5 : ((generateNextBlock axisTrig)^[5] (resetGlobals g)).gRandState = 660622417 := by
    rw [Function.iterate_succ_apply', generateNextBlock_rand, reset_iterate_index, h4,
      if_pos (by decide)]
    norm_num [lcgNext]
  have h6 : ((generateNextBlock axisTrig)^[6] (resetGlobals g)).gRandState = 245635452 := by
    rw [Function.iterate_succ_apply', generateNextBlock_rand, reset_iterate_index, h5,
      if_pos (by decide)]
    norm_num [lcgNext]
  have h7 : ((generateNextBlock axisTrig)^[7] (resetGlobals g)).gRandState = 245635452 := by
    rw [Function.iterate_succ_apply', generateNextBlock_rand, reset_iterate_index, h6,
      if_neg (by decide)]
  have h8 : ((generateNextBlock axisTrig)^[8] (resetGlobals g)).gRandState = 245635452 := by
    rw [Function.iterate_succ_apply', generateNextBlock_rand, reset_iterate_index, h7,
      if_neg (by decide)]
  rw [Function.iterate_succ_apply', generateNextBlock_rand, reset_iterate_index, h8,
    if_neg (by decide)]


theorem buildBlock_straight (T : Trig) (g : Game) (n : Int) (c : Vec3) (y : ℚ) (rs : Nat)
    (hn : g.gNextBlockIndex = n) (hc : g.gNextBlockCenter = c) (hy : g.gCurrentBuildYaw = y)
    (hr : g.gRandState = rs) (hturn : ¬ (n > 0 ∧ n.tmod 20 = 0))
    (hcoin : ¬ (n.tmod 10 ≥ 2 ∧ n.tmod 10 ≤ 6)) :
    (buildBlock T g).block =
      (if n ≥ 5 ∧ n.tmod 4 = 1 ∧ n.tmod 20 ≠ 1 then
        (placeObstacle (createBlock T n BlockType.Normal c y) y rs).1
      else createBlock T n BlockType.Normal c y) := by
  unfold buildBlock
  simp only
  rw [hn, hc, hy, hr, placeCoins_outside _ _ _ _ _ _ _ hcoin, chooseBlockType_normal n rs hturn,
    chooseBlockType_rand, if_neg hturn]
  by_cases ho : n ≥ 5 ∧ n.tmod 4 = 1 ∧ n.tmod 20 ≠ 1
  · rw [if_pos ho, if_pos ((chooseBlockType_obstacle n rs).mpr ho)]
  · rw [if_neg ho, if_neg (fun h => ho ((chooseBlockType_obstacle n rs).mp h))]

/-- The blocks `trackBlock8`, `trackBlock9`, `trackBlock10` are the blocks at positions
8, 9 and 10 of the track that `ResetAll` generates (with exact axis sines and
cosines). -/
theorem resetAll_track (g : Game) :
    (ResetAll axisTrig g).gBlocks[8]? = some trackBlock8 ∧
    (ResetAll axisTrig g).gBlocks[9]? = some trackBlock9 ∧
    (ResetAll axisTrig g).gBlocks[10]? = some trackBlock10 := by
  refine ⟨?_, ?_, ?_⟩
  · rw [resetAll_getElem axisTrig g 8 (by norm_num),
      buildBlock_straight axisTrig _ 8 ⟨0, 0, -40⟩ 180 _ (reset_iterate_index axisTrig g 8)
        (by rw [(track_cursor g 8 (by norm_num)).1]; norm_num)
        (track_cursor g 8 (by norm_num)).2 rfl (by decide) (by decide),
      if_neg (by decide)]
    rfl
  · rw [resetAll_getElem axisTrig g 9 (by norm_num),
      buildBlock_straight axisTrig _ 9 ⟨0, 0, -45⟩ 180 _ (reset_iterate_index axisTrig g 9)
        (by rw [(track_cursor g 9 (by norm_num)).1]; norm_num)
        (track_cursor g 9 (by norm_num)).2 (track_rand9 g) (by decide) (by decide),
      if_pos (by decide)]
    rfl
  · rw [resetAll_getElem axisTrig g 10 (by norm_num),
      buildBlock_straight axisTrig _ 10 ⟨0, 0, -50⟩ 180 _ (reset_iterate_index axisTrig g 10)
        (by rw [(track_cursor g 10 (by norm_num)).1]; norm_num)
        (track_cursor g 10 (by norm_num)).2 rfl (by decide) (by decide),
      if_neg (by decide)]
    rfl

end TempleRun
